import Mathlib

/-!
# Basket storage and range assembly: a verification development

Shallow embedding of

* `tree/tree/src/TBasket.cxx` : `TBasket::Reset`, `TBasket::WriteBuffer`,
  `TBasket::ReadBasketBuffers`, `TBasket::Streamer`, `TBasket::Update`,
  `TBasket::MoveEntries`, the write constructor and their helpers;
* `bindings/pyroot/src/NumpyIterator.cxx` : `ClusterBuffer` and
  `NumpyIterator::StepForward`;
* `develop_tbranchnumpy/numpyinterface.cxx` : `BranchData::getdata`;
* `tree/tree/src/TLeafElement.cxx` : `TLeafElement::IncludeRange` and
  `TLeafElement::GetDeserializeType`;
* `tree/treeplayer/inc/TTreeReaderFast.h` : `TTreeReaderFast::Iterator_t`,
  `begin` and `end`;
* `getdim`, which `NumpyIterator.cxx` and `numpyinterface.cxx` both define.

Conventions.  `Int_t`, `Long_t` and `Long64_t` values are integers (`Int`); the
statements below concern executions in which no signed overflow occurs.  C++
`/` and `%` on signed integers are `Int.tdiv` and `Int.tmod` (truncation toward
zero).  A byte is a natural number, a buffer's storage is a list of bytes.
Functions of ROOT that live outside the translated sources (the `TBuffer`
primitives, `TKey`, the compression library, the file layer, the bulk reader)
enter as parameters of the definitions that call them.
-/

/-- Byte strings: the contents of a `char*` storage area. -/
abbrev Bytes := List Nat

/-- Reading `n` bytes at offset `off` of a storage area: the bytes that are
there, then 0 for every byte outside it. -/
def readBytes (src : Bytes) (off n : Int) : Bytes :=
  let got := (src.drop off.toNat).take n.toNat
  got ++ List.replicate (n.toNat - got.length) 0

/-- Whether `n` bytes at offset `off` lie inside a storage area of `size`
bytes (a transfer of no bytes reads nothing). -/
def inBounds (size : Nat) (off n : Int) : Bool :=
  decide (n = 0) || (decide (0 ≤ off) && decide (0 < n) && decide (off + n ≤ size))

namespace TBasket

/-! ## Buffers and basket state -/

/-- The part of a `TBuffer` the basket code observes: its storage, the current
offset `Length()`, the capacity `BufferSize()`, the `kNotDecompressed` bit and
the read/write mode. -/
structure TBuffer where
  data : Bytes
  length : Int
  bufSize : Int
  notDecompressed : Bool
  writing : Bool
  deriving DecidableEq, Repr

/-- Which storage `fBuffer` points to. -/
inductive BufferPtr where
  | null
  | ownBuffer
  | compressedBuffer
  deriving DecidableEq, Repr

/-- The data members of `TBasket` (with the `TKey` members it uses). -/
structure Basket where
  fNbytes : Int
  fObjlen : Int
  fKeylen : Int
  zombie : Bool
  notDecompressed : Bool
  fBufferSize : Int
  fNevBufSize : Int
  fNevBuf : Int
  fLast : Int
  fHeaderOnly : Bool
  fDisplacement : Option (List Int)
  fEntryOffset : Option (List Int)
  fBufferRef : Option TBuffer
  fCompressedBufferRef : Option TBuffer
  fOwnsCompressedBuffer : Bool
  fBuffer : BufferPtr
  fLastWriteBufferSize : List Int
  fNextBufferSizeRecord : Int
  fResetAllocation : Bool
  fIOBits : Nat := 0
  deriving DecidableEq, Repr

/-- `TBuffer::Expand(newsize, copy)`: the capacity becomes `newsize`, or the
current offset when the contents are carried over and the offset lies beyond
`newsize`; the current offset is kept; without `copy` the old contents are not
carried over. -/
def TBuffer.Expand (b : TBuffer) (newsize : Int) (copy : Bool) : TBuffer :=
  { b with bufSize := if copy && decide (b.length > newsize) then b.length else newsize
           data := if copy then b.data else [] }

/-- `TBuffer::Reset()`: back to offset 0. -/
def TBuffer.Reset (b : TBuffer) : TBuffer :=
  { b with length := 0 }

/-! ## `TBasket::Reset` -/

/-- What `Reset` reads from its branch and tree.  The two `Float_t`
computations are taken as given functions of their integer operands:
`targetSize m` is `static_cast<Int_t>(target_mem_ratio*Float_t(m))` and
`ratioBelow c n` is
`static_cast<Float_t>(c)/static_cast<Float_t>(n) < target_mem_ratio`.
`headerLength` is the offset at which the header-only `Streamer` call leaves
the buffer. -/
structure ResetEnv where
  basketSize : Int
  totBytes : Int
  writeBasket : Int
  entryOffsetLen : Int
  targetSize : Int → Int
  ratioBelow : Int → Int → Bool
  headerLength : Int

/-- Entry `i` of the three-slot size history. -/
def lastWriteBufferSize (b : Basket) (i : Nat) : Int :=
  b.fLastWriteBufferSize.getD i 0

/-- The historical-average block of `Reset` (source lines 688-705): the value
of `newSize` after it, `-1` when the block does not ask for a resize. -/
def historicalAverageSize (env : ResetEnv) (curSize curLen : Int) : Int :=
  if curSize > 2 * curLen then
    let curBsize := env.basketSize
    if curSize > 2 * curBsize then
      let avgSize := Int.tdiv env.totBytes (1 + env.writeBasket)
      if curSize > 2 * avgSize then
        let newSize := curBsize
        let newSize := if curLen > newSize then curLen else newSize
        let newSize := if avgSize > newSize then avgSize else newSize
        newSize + 512 - Int.tmod newSize 512
      else -1
    else -1
  else -1

/-- The target-memory-ratio block of `Reset` (source lines 714-726), started
with the `newSize` the first block left. -/
def targetRatioSize (env : ResetEnv) (b : Basket) (curSize newSize : Int) : Int :=
  let max_size := max (lastWriteBufferSize b 0)
    (max (lastWriteBufferSize b 1) (lastWriteBufferSize b 2))
  let target_size := env.targetSize max_size
  if max_size ≠ 0 ∧ curSize > target_size ∧ newSize = -1 then
    let newSize := target_size
    let newSize := newSize + 512 - Int.tmod newSize 512
    if newSize > curSize - 8 * 1024 ∨ env.ratioBelow curSize newSize = true then -1
    else newSize
  else newSize

/-- The entry-offset table after `Reset` (source lines 744-753 and 778-780):
released when the branch asks for none; a new table of `newNevBufSize` slots
when that differs from `fNevBufSize` or there was no table, the old table
otherwise; the final loop then sets the first `newNevBufSize` slots to 0. -/
def resetEntryOffset (newNevBufSize fNevBufSize : Int) (old : Option (List Int)) :
    Option (List Int) :=
  if newNevBufSize = 0 then none
  else
    let table :=
      if newNevBufSize ≠ fNevBufSize then List.replicate newNevBufSize.toNat 0
      else
        match old with
        | none => List.replicate newNevBufSize.toNat 0
        | some t => t
    some (List.replicate (min newNevBufSize.toNat table.length) 0 ++
      table.drop newNevBufSize.toNat)

/-- `TBasket::Reset()`.  `none` stands for the null dereference when the basket
has no `fBufferRef`.  `TKey::Reset()` clears `fNbytes`; the header-only
`Streamer` call raises `fBufferSize` to `fLast = 0` when it was negative and
leaves the buffer at offset `headerLength`, which becomes `fKeylen`. -/
def Reset (env : ResetEnv) (b : Basket) : Option Basket :=
  match b.fBufferRef with
  | none => none
  | some buf =>
    let curSize := buf.bufSize
    let curLen := b.fObjlen + b.fKeylen
    let newSize := historicalAverageSize env curSize curLen
    let newSize := targetRatioSize env b curSize newSize
    let buf := if newSize ≠ -1 then buf.Expand newSize false else buf
    let history := b.fLastWriteBufferSize.set b.fNextBufferSizeRecord.toNat curLen
    let next := Int.tmod (b.fNextBufferSizeRecord + 1) 3
    let newNevBufSize := env.entryOffsetLen
    let buf := { buf.Reset with writing := true, length := env.headerLength }
    let fKeylen := buf.length
    some { b with
      fBufferSize := if 0 > b.fBufferSize then 0 else b.fBufferSize
      fResetAllocation := decide (newSize ≠ -1)
      fLastWriteBufferSize := history
      fNextBufferSizeRecord := next
      fNbytes := 0
      fNevBufSize := newNevBufSize
      fNevBuf := 0
      fBuffer := BufferPtr.null
      fBufferRef := some buf
      fKeylen := fKeylen
      fObjlen := (if 0 > b.fBufferSize then 0 else b.fBufferSize) - fKeylen
      fLast := fKeylen
      fHeaderOnly := false
      fEntryOffset := resetEntryOffset newNevBufSize b.fNevBufSize b.fEntryOffset }

/-- Capacity of the write buffer, `fBufferRef->BufferSize()` (0 without one). -/
def capacity (b : Basket) : Int :=
  match b.fBufferRef with
  | none => 0
  | some buf => buf.bufSize

/-- The least multiple of 512 that is not below `m`. -/
def alignUp512 (m : Int) : Int := 512 * ((m + 511) / 512)

/-- A branch whose tree has target memory ratio 1.1, computed exactly. -/
def sampleResetEnv (basketSize totBytes writeBasket : Int) : ResetEnv :=
  { basketSize := basketSize
    totBytes := totBytes
    writeBasket := writeBasket
    entryOffsetLen := 0
    targetSize := fun m => Int.tdiv (11 * m) 10
    ratioBelow := fun c n => decide (10 * c < 11 * n)
    headerLength := 80 }

/-- A write-side basket with key length 80, the given payload length, buffer
capacity and size history. -/
def sampleResetBasket (objlen bufSize : Int) (history : List Int) (next : Int) : Basket :=
  { fNbytes := 0, fObjlen := objlen, fKeylen := 80, zombie := false
    notDecompressed := false, fBufferSize := bufSize, fNevBufSize := 0, fNevBuf := 0
    fLast := 80, fHeaderOnly := false, fDisplacement := none, fEntryOffset := none
    fBufferRef := some { data := [], length := 80 + objlen, bufSize := bufSize,
                         notDecompressed := false, writing := true }
    fCompressedBufferRef := none, fOwnsCompressedBuffer := false
    fBuffer := BufferPtr.null, fLastWriteBufferSize := history
    fNextBufferSizeRecord := next, fResetAllocation := false }

/-! ## Records, the header and the compression library -/

/-- The values a basket record carries in its first `fKeylen` bytes: the `TKey`
members `fNbytes`, `fObjlen`, `fKeylen` and the members `TBasket::Streamer`
adds, ending with the flag byte. -/
structure Header where
  fNbytes : Int
  fObjlen : Int
  fKeylen : Int
  fBufferSize : Int
  fNevBufSize : Int
  fNevBuf : Int
  fLast : Int
  flag : Int
  deriving DecidableEq, Repr

/-- The functions of ROOT the basket code calls and the translated sources do
not contain.

* `kMAXZIPBUF`: the constant of `RZip.h` (`0xffffff` in ROOT).
* `writeHeader h`: the bytes `TKey::Streamer` and the `TBuffer` insertion
  operators produce for a header.
* `readHeader bytes`: the values the extraction operators deliver.
* `writeArray a`: the bytes of `TBuffer::WriteArray(a, n)` for the `n` values
  `a`; `readArray bytes`: the array `TBuffer::ReadArray` allocates and the
  number of bytes it consumes, `none` when it leaves the pointer null.
* `zip level algorithm src tgtsize`: the bytes `R__zipMultipleAlgorithm` writes
  to the target (their number is `*irep`, none on failure).
* `unzipHeader src`: `nin` and `nbuf` of `R__unzip_header`, `none` when it
  returns non-zero.
* `unzip nin src nbuf`: the bytes `R__unzip` writes to the target (their number
  is `nout`, none on failure). -/
structure Codec where
  kMAXZIPBUF : Int
  writeHeader : Header → Bytes
  readHeader : Bytes → Header
  writeArray : List Int → Bytes
  readArray : Bytes → Option (List Int × Nat)
  zip : Int → Int → Bytes → Int → Bytes
  unzipHeader : Bytes → Option (Int × Int)
  unzip : Int → Bytes → Int → Bytes

/-- What the basket code asks its branch. -/
structure Branch where
  hasDirectory : Bool
  compressionLevel : Int
  compressionAlgorithm : Int
  entryOffsetLen : Int
  deriving DecidableEq, Repr

/-- The file a basket is written to: whether it is writable, its format
version, and the value `WriteFileKeepBuffer()` returns on it. -/
structure WriteFile where
  writable : Bool
  version : Int
  writeFileKeepBuffer : Int
  deriving DecidableEq, Repr

/-- Storing `bs` at offset `pos` of a storage area; bytes never written before
read as 0. -/
def writeAt (d : Bytes) (pos : Nat) (bs : Bytes) : Bytes :=
  d.take pos ++ List.replicate (pos - d.length) 0 ++ bs ++ d.drop (pos + bs.length)

/-- The header values of a basket as `Streamer` writes them with `fHeaderOnly`
set: `fBufferSize` is first raised to `fLast`, the flag byte is 0. -/
def Basket.header (b : Basket) : Header :=
  { fNbytes := b.fNbytes, fObjlen := b.fObjlen, fKeylen := b.fKeylen
    fBufferSize := if b.fLast > b.fBufferSize then b.fLast else b.fBufferSize
    fNevBufSize := b.fNevBufSize, fNevBuf := b.fNevBuf, fLast := b.fLast, flag := 0 }

/-- `TBasket::Streamer(b)` on a writing buffer with `fHeaderOnly` set: the
header goes to the current offset of the buffer. -/
def StreamerWriteHeader (env : Codec) (b : Basket) (buf : TBuffer) : Basket × TBuffer :=
  let b := { b with fBufferSize := if b.fLast > b.fBufferSize then b.fLast else b.fBufferSize }
  let bytes := env.writeHeader b.header
  (b, { buf with data := writeAt buf.data buf.length.toNat bytes
                 length := buf.length + bytes.length })

/-- `TBasket::Streamer(b)` on a reading buffer whose storage holds `data`, for
a record whose flag byte is 0 (the only kind `WriteBuffer` produces), where it
returns right after the flag.  A negative `fNevBufSize` makes the basket a
zombie.  `none`: the flag byte is not 0 and `Streamer` goes on to read tables
and a buffer of an in-memory basket, which is outside this development. -/
def StreamerReadHeader (env : Codec) (b : Basket) (data : Bytes) : Option Basket :=
  let h := env.readHeader data
  if h.flag = 0 then
    some { b with
      fNbytes := h.fNbytes, fObjlen := h.fObjlen, fKeylen := h.fKeylen
      zombie := b.zombie || decide (h.fNevBufSize < 0)
      fNevBufSize := if h.fNevBufSize < 0 then 0 else h.fNevBufSize
      fNevBuf := h.fNevBuf
      fLast := h.fLast
      fBufferSize := if h.fLast > h.fBufferSize then h.fLast else h.fBufferSize }
  else none

/-- `R__InitializeReadBasketBuffer(bufferRef, len, file)`.  `Int_t(len*1.05)`
is `len * 105 / 100` rounded toward zero.  A buffer made by
`new TBufferFile(TBuffer::kRead, len)` is given the capacity `len` that was
asked for; the constructor, which is outside the translated sources, may give a
small buffer more. -/
def R__InitializeReadBasketBuffer (bufferRef : Option TBuffer) (len : Int) : TBuffer :=
  match bufferRef with
  | some b =>
    let b := { b with writing := false }
    let b := if b.bufSize < len then b.Expand (Int.tdiv (len * 105) 100) true else b
    b.Reset
  | none => { data := [], length := 0, bufSize := len, notDecompressed := false,
              writing := false }

/-- `TBasket::InitializeCompressedBuffer(len, file)`. -/
def InitializeCompressedBuffer (b : Basket) (len : Int) : Basket :=
  { b with
    fCompressedBufferRef := some (R__InitializeReadBasketBuffer b.fCompressedBufferRef len)
    fOwnsCompressedBuffer := if b.fCompressedBufferRef.isNone then true
                             else b.fOwnsCompressedBuffer }

/-! ## `TBasket::WriteBuffer` -/

/-- How the compression loop of `WriteBuffer` ends: through the
`goto WriteFile` of the fallback, or after the last chunk with the total
output size; `out` are the bytes the compressor has written behind the key of
the compressed buffer. -/
inductive ZipExit where
  | fallback (out : Bytes)
  | done (noutot : Int) (out : Bytes)
  deriving DecidableEq, Repr

/-- What the compression loop of `WriteBuffer` has done: how it ended, and the
calls of the compressor it made, for each call the offset `nzip` of its input
behind the key and the input size `bufmax` it was given. -/
structure ZipRun where
  exit : ZipExit
  calls : List (Int × Int)
  deriving DecidableEq, Repr

/-- The loop `for (i = 0; i < nbuffers; ++i)` of `WriteBuffer` (source lines
1030-1060) with `k` iterations to go; `obj` is the storage of `fBufferRef` from
`fKeylen` on.  The call of `R__zipMultipleAlgorithm` of each iteration is
recorded with the offset and the size of its input. -/
def zipLoopRun (env : Codec) (cxlevel cxAlgorithm fObjlen nbuffers : Int) (obj : Bytes) :
    Nat → Int → Int → Int → Bytes → ZipRun
  | 0, _, _, noutot, out => { exit := ZipExit.done noutot out, calls := [] }
  | k + 1, i, nzip, noutot, out =>
    let bufmax := if i = nbuffers - 1 then fObjlen - nzip else env.kMAXZIPBUF
    let z := env.zip cxlevel cxAlgorithm ((obj.drop nzip.toNat).take bufmax.toNat) bufmax
    let nout : Int := z.length
    if nout = 0 ∨ nout ≥ fObjlen then
      { exit := ZipExit.fallback (out ++ z), calls := [(nzip, bufmax)] }
    else
      let rest := zipLoopRun env cxlevel cxAlgorithm fObjlen nbuffers obj k (i + 1)
        (nzip + env.kMAXZIPBUF) (noutot + nout) (out ++ z)
      { rest with calls := (nzip, bufmax) :: rest.calls }

/-- How the loop `for (i = 0; i < nbuffers; ++i)` of `WriteBuffer` with `k`
iterations to go ends. -/
def zipLoop (env : Codec) (cxlevel cxAlgorithm fObjlen nbuffers : Int) (obj : Bytes)
    (k : Nat) (i nzip noutot : Int) (out : Bytes) : ZipExit :=
  (zipLoopRun env cxlevel cxAlgorithm fObjlen nbuffers obj k i nzip noutot out).exit

/-- What `WriteBuffer` leaves: the basket, the returned value, and the record
`WriteFileKeepBuffer()` was asked to store (the first `fNbytes` bytes of
`fBuffer`), if it was called. -/
structure WriteResult where
  basket : Basket
  ret : Int
  record : Option Bytes
  deriving DecidableEq, Repr

/-- The storage `fBuffer` points to. -/
def Basket.bufferData (b : Basket) : Bytes :=
  match b.fBuffer with
  | BufferPtr.null => []
  | BufferPtr.ownBuffer => (b.fBufferRef.map (·.data)).getD []
  | BufferPtr.compressedBuffer => (b.fCompressedBufferRef.map (·.data)).getD []

/-- The label `WriteFile:` of `WriteBuffer`: the record is handed to the file,
`fHeaderOnly` is cleared, the result is `fKeylen + nout` or `-1`. -/
def writeFile (file : WriteFile) (b : Basket) (nout : Int) : WriteResult :=
  { basket := { b with fHeaderOnly := false }
    ret := if file.writeFileKeepBuffer > 0 then b.fKeylen + nout else -1
    record := some (b.bufferData.take b.fNbytes.toNat) }

/-- The steps `Create(nout, file); fBufferRef->SetBufferOffset(0);
Streamer(*fBufferRef)` of `WriteBuffer`: `TKey::Create` sets
`fNbytes = fKeylen + nout`, then the header is written at offset 0 of
`fBufferRef`. -/
def createAndStreamHeader (env : Codec) (b : Basket) (buf : TBuffer) (nout : Int) : Basket :=
  let b := { b with fNbytes := b.fKeylen + nout }
  let r := StreamerWriteHeader env b { buf with length := 0 }
  { r.1 with fBufferRef := some r.2 }

/-- Writing `bytes` at the current offset of a buffer, as the `TBuffer`
primitives do. -/
def TBuffer.write (buf : TBuffer) (bytes : Bytes) : TBuffer :=
  { buf with data := writeAt buf.data buf.length.toNat bytes
             length := buf.length + bytes.length }

/-- The block "Transfer fEntryOffset table at the end of fBuffer" of
`WriteBuffer` (source lines 994-1008): `fLast` is set, the first `fNevBuf + 1`
entry offsets and, if there is a displacement table, the first `fNevBuf + 1`
displacements are written behind the payload, and the displacement table is
released. -/
def appendTables (env : Codec) (b : Basket) (buf : TBuffer) : Basket × TBuffer :=
  let b := { b with fLast := buf.length }
  match b.fEntryOffset with
  | none => (b, buf)
  | some offsets =>
    let buf := buf.write (env.writeArray (offsets.take (b.fNevBuf + 1).toNat))
    match b.fDisplacement with
    | none => (b, buf)
    | some disp =>
      ({ b with fDisplacement := none },
        buf.write (env.writeArray (disp.take (b.fNevBuf + 1).toNat)))

/-- The branch `cxlevel > 0` of `WriteBuffer` (source lines 1019-1066) up to
the label `WriteFile:`, for a basket whose buffer is `buf`. -/
def writeCompressed (env : Codec) (br : Branch) (file : WriteFile) (b : Basket)
    (buf : TBuffer) : WriteResult :=
  let nbuffers := 1 + Int.tdiv (b.fObjlen - 1) env.kMAXZIPBUF
  let buflen := b.fKeylen + b.fObjlen + 9 * nbuffers + 28
  let b := InitializeCompressedBuffer b buflen
  let b := { b with
    fCompressedBufferRef := b.fCompressedBufferRef.map
      (fun (c : TBuffer) => { c with writing := true })
    fBuffer := BufferPtr.compressedBuffer }
  match zipLoop env br.compressionLevel br.compressionAlgorithm b.fObjlen nbuffers
      (buf.data.drop b.fKeylen.toNat) nbuffers.toNat 0 0 0 [] with
  | ZipExit.fallback out =>
    let b := { b with
      fCompressedBufferRef := b.fCompressedBufferRef.map
        (fun (c : TBuffer) => { c with data := writeAt c.data b.fKeylen.toNat out })
      fBuffer := BufferPtr.ownBuffer }
    let b := createAndStreamHeader env b buf b.fObjlen
    writeFile file b b.fObjlen
  | ZipExit.done noutot out =>
    let b := { b with
      fCompressedBufferRef := b.fCompressedBufferRef.map
        (fun (c : TBuffer) => { c with data := writeAt c.data b.fKeylen.toNat out }) }
    let b := createAndStreamHeader env b buf noutot
    let key := ((b.fBufferRef.map (·.data)).getD []).take b.fKeylen.toNat
    let b := { b with
      fCompressedBufferRef := b.fCompressedBufferRef.map
        (fun (c : TBuffer) => { c with data := writeAt c.data 0 key }) }
    writeFile file b noutot

/-- The branch `cxlevel <= 0` of `WriteBuffer` (source lines 1068-1073) up to
the label `WriteFile:`. -/
def writeUncompressed (env : Codec) (file : WriteFile) (b : Basket) (buf : TBuffer) :
    WriteResult :=
  let b := { b with fBuffer := BufferPtr.ownBuffer }
  let b := createAndStreamHeader env b buf b.fObjlen
  writeFile file b b.fObjlen

/-- `TBasket::WriteBuffer()`.  `file` is `fBranch->GetFile(kWrite)`.  `none`
stands for the null dereference of a basket without `fBufferRef`, and for a
`kNotDecompressed` buffer whose flag byte is not 0. -/
def WriteBuffer (env : Codec) (br : Branch) (file : Option WriteFile) (b : Basket) :
    Option WriteResult :=
  match file with
  | none => some { basket := b, ret := 0, record := none }
  | some file =>
    if !file.writable then some { basket := b, ret := -1, record := none }
    else
      match b.fBufferRef with
      | none => none
      | some buf =>
        if buf.notDecompressed then
          match StreamerReadHeader env b buf.data with
          | none => none
          | some b =>
            let nout := b.fNbytes - b.fKeylen
            let b := { b with fBuffer := BufferPtr.ownBuffer }
            let b := createAndStreamHeader env { b with fHeaderOnly := true } buf nout
            some (writeFile file b nout)
        else
          let t := appendTables env b buf
          let lbuf := t.2.length
          let b := { t.1 with fObjlen := lbuf - t.1.fKeylen, fHeaderOnly := true,
                              fBufferRef := some t.2 }
          if br.compressionLevel > 0 then some (writeCompressed env br file b t.2)
          else some (writeUncompressed env file b t.2)

/-! ## `TBasket::ReadBasketBuffers` -/

/-- The file-level cache `pf = file->GetCacheRead(tree)`: the buffer
`GetUnzipBuffer` hands out when it has already unzipped the basket (`res >= 0`),
the status `st` of `pf->ReadBuffer` and the bytes it delivers when `st > 0`. -/
structure ReadCache where
  unzipBuffer : Option Bytes
  readStatus : Int
  cached : Bytes
  deriving DecidableEq, Repr

/-- The file a basket is read from: its format version, its cache if any, and
the bytes `file->ReadBuffer(buffer, pos, len)` delivers (`none` when it reports
an error). -/
structure ReadFile where
  version : Int
  cache : Option ReadCache
  stored : Option Bytes
  deriving DecidableEq, Repr

/-- What `ReadBasketBuffers` leaves: the basket and the returned value. -/
structure ReadResult where
  basket : Basket
  ret : Int
  deriving DecidableEq, Repr

/-- `OLD_CASE_EXPRESSION`. -/
def oldCaseExpression (br : Branch) (version : Int) (b : Basket) : Bool :=
  decide (b.fObjlen = b.fNbytes - b.fKeylen) && decide (br.compressionLevel ≠ 0) &&
    decide (version ≤ 30401)

/-- `TBasket::ReadBasketBuffersUncompressedCase()`. -/
def ReadBasketBuffersUncompressedCase (b : Basket) : ReadResult :=
  { basket := { b with
      fBuffer := BufferPtr.ownBuffer
      fBufferRef := b.fBufferRef.map
        (fun (buf : TBuffer) => { buf with length := b.fNbytes, notDecompressed := true })
      fEntryOffset := none
      fDisplacement := none }
    ret := 0 }

/-- Why the decompression loop of `ReadBasketBuffers` was left through
`break`. -/
inductive UnzipBreak where
  | headerError
  | unzipFailed
  | full
  deriving DecidableEq, Repr

/-- How the decompression loop ends: through `break` with the totals `nintot`
and `noutot` and the bytes written behind the key, through the
`goto AfterBuffer` of the legacy case, or (never, see
`unzipLoop_terminates`) by running out of iterations. -/
inductive UnzipExit where
  | done (why : UnzipBreak) (nintot noutot : Int) (out : Bytes)
  | legacy (nintot : Int) (out : Bytes)
  | outOfFuel
  deriving DecidableEq, Repr

/-- The `while (1)` loop of `ReadBasketBuffers`; `comp` is the storage of the
compressed buffer from `fKeylen` on, `nintot` the distance the read pointer has
advanced and `noutot` the number of bytes produced so far. -/
def unzipLoop (env : Codec) (oldCase : Bool) (fObjlen : Int) (comp : Bytes) :
    Nat → Int → Int → Bytes → UnzipExit
  | 0, _, _, _ => UnzipExit.outOfFuel
  | fuel + 1, nintot, noutot, out =>
    match env.unzipHeader (comp.drop nintot.toNat) with
    | none => UnzipExit.done UnzipBreak.headerError nintot noutot out
    | some (nin, nbuf) =>
      if oldCase && (decide (nin > fObjlen) || decide (nbuf > fObjlen)) then
        UnzipExit.legacy nintot out
      else
        let produced := env.unzip nin (comp.drop nintot.toNat) nbuf
        let nout : Int := produced.length
        if nout = 0 then UnzipExit.done UnzipBreak.unzipFailed nintot noutot out
        else if noutot + nout ≥ fObjlen then
          UnzipExit.done UnzipBreak.full (nintot + nin) (noutot + nout) (out ++ produced)
        else
          unzipLoop env oldCase fObjlen comp fuel (nintot + nin) (noutot + nout)
            (out ++ produced)

/-- The decompression loop started as `ReadBasketBuffers` starts it.  Every
iteration that does not leave the loop produces at least one byte and keeps
`noutot` below `fObjlen`, so `fObjlen + 1` iterations suffice. -/
def unzipObject (env : Codec) (oldCase : Bool) (fObjlen fKeylen : Int)
    (rawCompressedBuffer : Bytes) : UnzipExit :=
  unzipLoop env oldCase fObjlen (rawCompressedBuffer.drop fKeylen.toNat)
    (fObjlen.toNat + 1) 0 0 []

/-- The label `AfterBuffer:` of `ReadBasketBuffers`: the entry-offset table
and the displacement table are read back from offset `fLast` of the buffer. -/
def afterBuffer (env : Codec) (br : Branch) (b : Basket) (len : Int) : Option ReadResult :=
  if br.entryOffsetLen = 0 then some { basket := b, ret := 0 }
  else
    match b.fBufferRef with
    | none => none
    | some buf =>
      match env.readArray (buf.data.drop b.fLast.toNat) with
      | none =>
        some { basket := { b with
                 fBufferRef := some { buf with length := b.fLast }
                 fEntryOffset := some (b.fKeylen :: List.replicate b.fNevBuf.toNat 0) }
               ret := 0 }
      | some (offsets, used) =>
        let buf : TBuffer := { buf with length := b.fLast + used }
        let b := { b with fEntryOffset := some offsets, fDisplacement := none }
        if buf.length ≠ len then
          match env.readArray (buf.data.drop buf.length.toNat) with
          | none => some { basket := { b with fBufferRef := some buf }, ret := 0 }
          | some (disp, used) =>
            some { basket := { b with
                     fBufferRef := some { buf with length := buf.length + used }
                     fDisplacement := some disp }
                   ret := 0 }
        else some { basket := { b with fBufferRef := some buf }, ret := 0 }

/-- `TBasket::ReadBasketBuffersUnzip(buffer, size, mustFree, file)`: the
basket and the returned value. -/
def ReadBasketBuffersUnzip (env : Codec) (br : Branch) (version : Int) (buffer : Bytes)
    (b : Basket) : Option ReadResult :=
  let buf : TBuffer :=
    match b.fBufferRef with
    | some old => { old with data := buffer, bufSize := buffer.length, writing := false,
                             length := 0 }
    | none => { data := buffer, length := 0, bufSize := buffer.length,
                notDecompressed := false, writing := false }
  let b := { b with fBufferRef := some buf }
  match StreamerReadHeader env b buf.data with
  | none => none
  | some b =>
    if b.zombie then some { basket := b, ret := -1 }
    else
      let oldCase := oldCaseExpression br version b
      if (decide (b.fObjlen > b.fNbytes - b.fKeylen) || oldCase) && b.notDecompressed &&
          decide (b.fNevBuf = 1) then
        some (ReadBasketBuffersUncompressedCase b)
      else
        some { basket := { b with fBuffer := BufferPtr.ownBuffer }
               ret := b.fObjlen + b.fKeylen }

/-- The bytes the read of `ReadBasketBuffers` puts into `readBufferRef`, from
the cache or from the file; `none` when the function returns 1 on a read
error. -/
def readRecord (file : ReadFile) : Option Bytes :=
  match file.cache with
  | some pf =>
    if pf.readStatus < 0 then none
    else if pf.readStatus = 0 then file.stored
    else some pf.cached
  | none => file.stored

/-- The part of `ReadBasketBuffers` from "Initialize buffer to hold the
uncompressed data" to the label `AfterBuffer:`, with the compressed record in
`rawCompressedBuffer`. -/
def uncompress (env : Codec) (br : Branch) (version : Int) (rawCompressedBuffer : Bytes)
    (len : Int) (b : Basket) : Option ReadResult :=
  let uncompressedBufferLen := if len > b.fObjlen + b.fKeylen then len else b.fObjlen + b.fKeylen
  let own := R__InitializeReadBasketBuffer b.fBufferRef uncompressedBufferLen
  let b := { b with fBufferRef := some own, fBuffer := BufferPtr.ownBuffer }
  let oldCase := oldCaseExpression br version b
  if decide (b.fObjlen > b.fNbytes - b.fKeylen) || oldCase then
    if b.notDecompressed && decide (b.fNevBuf = 1) then
      some (ReadBasketBuffersUncompressedCase b)
    else
      let own : TBuffer :=
        { own with data := writeAt own.data 0 (readBytes rawCompressedBuffer 0 b.fKeylen) }
      match unzipObject env oldCase b.fObjlen b.fKeylen rawCompressedBuffer with
      | UnzipExit.outOfFuel => none
      | UnzipExit.legacy nintot out =>
        let own : TBuffer := { own with data := writeAt own.data b.fKeylen.toNat out }
        let raw := readBytes rawCompressedBuffer (b.fKeylen + nintot + b.fKeylen) b.fObjlen
        let own : TBuffer := { own with data := writeAt own.data b.fKeylen.toNat raw }
        afterBuffer env br { b with fBufferRef := some own } len
      | UnzipExit.done _ _ noutot out =>
        let own : TBuffer := { own with data := writeAt own.data b.fKeylen.toNat out }
        let b := { b with fBufferRef := some own }
        if noutot ≠ b.fObjlen then some { basket := b, ret := 1 }
        else afterBuffer env br b (b.fObjlen + b.fKeylen)
  else
    let own : TBuffer :=
      { own with data := writeAt own.data 0 (readBytes rawCompressedBuffer 0 len) }
    afterBuffer env br { b with fBufferRef := some own } len

/-- Where the first part of `ReadBasketBuffers` leads: to a `return`, to the
label `AfterBuffer:` with a value of `len`, or on to the decoding of the record
held in `rawCompressedBuffer`. -/
inductive ReadStage where
  | returned (r : ReadResult)
  | after (b : Basket) (len : Int)
  | decode (rawCompressedBuffer : Bytes) (b : Basket)
  deriving DecidableEq, Repr

/-- `ReadBasketBuffers` up to "Initialize buffer to hold the uncompressed
data".  `readBufferRef` is the basket's own buffer or its compressed buffer
when that exists (`store` puts it back after each change) and a fresh buffer
otherwise.  `none` stands for a record whose flag byte is not 0 (see
`StreamerReadHeader`). -/
def readStage (env : Codec) (br : Branch) (file : ReadFile) (len : Int) (b : Basket) :
    Option ReadStage :=
  if !br.hasDirectory then some (ReadStage.returned { basket := b, ret := -1 })
  else
    match file.cache.bind (·.unzipBuffer) with
    | some buffer =>
      match ReadBasketBuffersUnzip env br file.version buffer b with
      | none => none
      | some r =>
        if r.ret ≤ 0 then some (ReadStage.returned { r with ret := -r.ret })
        else some (ReadStage.after r.basket r.ret)
    | none =>
      let readIsOwn := decide (br.compressionLevel = 0) && b.fBufferRef.isSome
      let readBufferRef := R__InitializeReadBasketBuffer
        (if br.compressionLevel = 0 then b.fBufferRef else b.fCompressedBufferRef) len
      let store (b : Basket) (buf : TBuffer) : Basket :=
        if br.compressionLevel = 0 then
          if b.fBufferRef.isSome then { b with fBufferRef := some buf } else b
        else
          if b.fCompressedBufferRef.isSome then { b with fCompressedBufferRef := some buf }
          else b
      match readRecord file with
      | none => some (ReadStage.returned { basket := store b readBufferRef, ret := 1 })
      | some record =>
        let readBufferRef : TBuffer :=
          { readBufferRef with data := writeAt readBufferRef.data 0 record }
        let b := store b readBufferRef
        match StreamerReadHeader env b readBufferRef.data with
        | none => none
        | some b =>
          if b.zombie then some (ReadStage.returned { basket := b, ret := 1 })
          else if readIsOwn then
            if b.fObjlen + b.fKeylen = b.fNbytes then some (ReadStage.after b len)
            else
              let b := InitializeCompressedBuffer b len
              let b := { b with fBufferRef := b.fBufferRef.map TBuffer.Reset }
              let raw := writeAt ((b.fCompressedBufferRef.map (·.data)).getD []) 0
                (readBytes readBufferRef.data 0 len)
              let b := { b with
                fCompressedBufferRef := b.fCompressedBufferRef.map
                  (fun (c : TBuffer) => { c with data := raw }) }
              some (ReadStage.decode raw b)
          else some (ReadStage.decode readBufferRef.data b)

/-- `TBasket::ReadBasketBuffers(pos, len, file)`. -/
def ReadBasketBuffers (env : Codec) (br : Branch) (file : ReadFile) (len : Int) (b : Basket) :
    Option ReadResult :=
  match readStage env br file len b with
  | none => none
  | some (ReadStage.returned r) => some r
  | some (ReadStage.after b len) => afterBuffer env br b len
  | some (ReadStage.decode raw b) => uncompress env br file.version raw len b

/-- The part of `ReadBasketBuffers` that `uncompress` translates, stopped where
the function returns or arrives at the label `AfterBuffer:` (with the value
`len` has there). -/
def decodeStage (env : Codec) (br : Branch) (version : Int) (rawCompressedBuffer : Bytes)
    (len : Int) (b : Basket) : Option ReadStage :=
  let uncompressedBufferLen := if len > b.fObjlen + b.fKeylen then len else b.fObjlen + b.fKeylen
  let own := R__InitializeReadBasketBuffer b.fBufferRef uncompressedBufferLen
  let b := { b with fBufferRef := some own, fBuffer := BufferPtr.ownBuffer }
  let oldCase := oldCaseExpression br version b
  if decide (b.fObjlen > b.fNbytes - b.fKeylen) || oldCase then
    if b.notDecompressed && decide (b.fNevBuf = 1) then
      some (ReadStage.returned (ReadBasketBuffersUncompressedCase b))
    else
      let own : TBuffer :=
        { own with data := writeAt own.data 0 (readBytes rawCompressedBuffer 0 b.fKeylen) }
      match unzipObject env oldCase b.fObjlen b.fKeylen rawCompressedBuffer with
      | UnzipExit.outOfFuel => none
      | UnzipExit.legacy nintot out =>
        let own : TBuffer := { own with data := writeAt own.data b.fKeylen.toNat out }
        let raw := readBytes rawCompressedBuffer (b.fKeylen + nintot + b.fKeylen) b.fObjlen
        let own : TBuffer := { own with data := writeAt own.data b.fKeylen.toNat raw }
        some (ReadStage.after { b with fBufferRef := some own } len)
      | UnzipExit.done _ _ noutot out =>
        let own : TBuffer := { own with data := writeAt own.data b.fKeylen.toNat out }
        let b := { b with fBufferRef := some own }
        if noutot ≠ b.fObjlen then some (ReadStage.returned { basket := b, ret := 1 })
        else some (ReadStage.after b (b.fObjlen + b.fKeylen))
  else
    let own : TBuffer :=
      { own with data := writeAt own.data 0 (readBytes rawCompressedBuffer 0 len) }
    some (ReadStage.after { b with fBufferRef := some own } len)

/-- The basket and the value of `len` with which `ReadBasketBuffers` arrives at
the label `AfterBuffer:`; `none` when it returns before. -/
def atAfterBuffer (env : Codec) (br : Branch) (file : ReadFile) (len : Int) (b : Basket) :
    Option (Basket × Int) :=
  match readStage env br file len b with
  | some (ReadStage.after b1 len1) => some (b1, len1)
  | some (ReadStage.decode raw b1) =>
    match decodeStage env br file.version raw len b1 with
    | some (ReadStage.after b2 len2) => some (b2, len2)
    | _ => none
  | _ => none

/-- The test that sends `ReadBasketBuffers` (source lines 562-563) and
`ReadBasketBuffersUnzip` (source line 380) to
`ReadBasketBuffersUncompressedCase`: the record is taken for a compressed one,
the basket carries the `kNotDecompressed` bit, and it holds one entry. -/
def bypassConditions (br : Branch) (version : Int) (b : Basket) : Bool :=
  (decide (b.fObjlen > b.fNbytes - b.fKeylen) || oldCaseExpression br version b) &&
    b.notDecompressed && decide (b.fNevBuf = 1)

/-- Whether the buffer `fBufferRef` of a basket carries the `kNotDecompressed`
bit. -/
def Basket.bufferFlagged (b : Basket) : Bool :=
  match b.fBufferRef with
  | some buf => buf.notDecompressed
  | none => false

/-! ## A small compression library -/

/-- A chunk without its trailing zero bytes. -/
def stripZeros (chunk : Bytes) : Bytes :=
  (chunk.reverse.dropWhile (· == 0)).reverse

/-- A lossless compressor: the two-byte chunk header (`nin`, the size of the
compressed chunk with its header, and `nbuf`, the size of the input) followed
by the input without its trailing zero bytes; nothing when that does not fit
the target size. -/
def sampleZip (src : Bytes) (tgtsize : Int) : Bytes :=
  let z := (2 + (stripZeros src).length) :: src.length :: stripZeros src
  if (z.length : Int) > tgtsize then [] else z

/-- The chunk header check of the sample library. -/
def sampleUnzipHeader (src : Bytes) : Option (Int × Int) :=
  match src with
  | nin :: nbuf :: _ => if 2 ≤ nin ∧ nin ≤ src.length then some (nin, nbuf) else none
  | _ => none

/-- The decompressor of the sample library. -/
def sampleUnzip (nin : Int) (src : Bytes) (nbuf : Int) : Bytes :=
  let body := (src.drop 2).take (nin.toNat - 2)
  body ++ List.replicate (nbuf.toNat - body.length) 0

/-- An environment for small examples: an eight-byte header holding one value
per byte, arrays written as their length followed by their values, the sample
compression library, and chunks of at most four bytes. -/
def sampleCodec : Codec :=
  { kMAXZIPBUF := 4
    writeHeader := fun h =>
      [h.fNbytes.toNat, h.fObjlen.toNat, h.fKeylen.toNat, h.fBufferSize.toNat,
       h.fNevBufSize.toNat, h.fNevBuf.toNat, h.fLast.toNat, h.flag.toNat]
    readHeader := fun d =>
      { fNbytes := d.getD 0 0, fObjlen := d.getD 1 0, fKeylen := d.getD 2 0
        fBufferSize := d.getD 3 0, fNevBufSize := d.getD 4 0, fNevBuf := d.getD 5 0
        fLast := d.getD 6 0, flag := d.getD 7 0 }
    writeArray := fun a => a.length :: a.map Int.toNat
    readArray := fun d =>
      match d with
      | [] => none
      | n :: rest =>
        if n = 0 ∨ rest.length < n then none
        else some ((rest.take n).map Int.ofNat, n + 1)
    zip := fun _ _ src tgtsize => sampleZip src tgtsize
    unzipHeader := sampleUnzipHeader
    unzip := sampleUnzip }

/-- A write-side basket with an eight-byte key in front of `payload`, holding
`nev` entries, with the given entry-offset and displacement tables. -/
def sampleWriteBasket (payload : Bytes) (nev : Int) (offsets disp : Option (List Int)) :
    Basket :=
  { fNbytes := 0, fObjlen := 56, fKeylen := 8, zombie := false
    notDecompressed := false, fBufferSize := 64, fNevBufSize := 4, fNevBuf := nev
    fLast := 8, fHeaderOnly := false, fDisplacement := disp, fEntryOffset := offsets
    fBufferRef := some { data := [0, 56, 8, 64, 4, 0, 8, 0] ++ payload
                         length := 8 + payload.length, bufSize := 64
                         notDecompressed := false, writing := true }
    fCompressedBufferRef := none, fOwnsCompressedBuffer := false
    fBuffer := BufferPtr.null, fLastWriteBufferSize := [0, 0, 0]
    fNextBufferSizeRecord := 0, fResetAllocation := false }

/-- A read-side basket as the reading constructor leaves it. -/
def emptyBasket : Basket :=
  { fNbytes := 0, fObjlen := 0, fKeylen := 0, zombie := false
    notDecompressed := false, fBufferSize := 0, fNevBufSize := 0, fNevBuf := 0
    fLast := 0, fHeaderOnly := false, fDisplacement := none, fEntryOffset := none
    fBufferRef := none, fCompressedBufferRef := none, fOwnsCompressedBuffer := false
    fBuffer := BufferPtr.null, fLastWriteBufferSize := [0, 0, 0]
    fNextBufferSizeRecord := 0, fResetAllocation := false }

/-- A branch in a directory with the given compression level and default
entry-offset length. -/
def sampleBranch (level entryOffsetLen : Int) : Branch :=
  { hasDirectory := true, compressionLevel := level, compressionAlgorithm := 1
    entryOffsetLen := entryOffsetLen }

/-- A writable file of a current format version on which writing succeeds. -/
def goodFile : WriteFile := { writable := true, version := 61000, writeFileKeepBuffer := 1 }

/-- Writing a basket and reading back the record it stored: `WriteBuffer`
followed by `ReadBasketBuffers` on a fresh basket, from a file without cache
that delivers the stored record. -/
def writeThenRead (env : Codec) (br : Branch) (file : WriteFile) (b : Basket) :
    Option ReadResult :=
  match WriteBuffer env br (some file) b with
  | none => none
  | some w =>
    match w.record with
    | none => none
    | some record =>
      ReadBasketBuffers env br { version := file.version, cache := none, stored := some record }
        record.length emptyBasket

/-- The payload of a basket: the bytes of `fBufferRef` from `fKeylen` up to
`fLast`. -/
def Basket.payload (b : Basket) : Bytes :=
  (((b.fBufferRef.map (·.data)).getD []).drop b.fKeylen.toNat).take (b.fLast - b.fKeylen).toNat

/-- A file that is not writable. -/
def readOnlyFile : WriteFile := { writable := false, version := 61000, writeFileKeepBuffer := 0 }

/-- The record `WriteBuffer` stores for the payload `[1,2,0,0,5,0,0,0]` at level
5, with the header of its second chunk damaged (`nin` reads 9). -/
def damagedRecord : Bytes := [15, 8, 8, 64, 4, 2, 16, 0, 4, 4, 1, 2, 9, 4, 5]

/-- A file without cache that delivers `record`. -/
def fileWith (record : Bytes) : ReadFile :=
  { version := 61000, cache := none, stored := some record }

/-- The basket after `Streamer` has read the header of `damagedRecord`. -/
def damagedHeaderBasket : Basket :=
  { emptyBasket with fNbytes := 15, fObjlen := 8, fKeylen := 8, fBufferSize := 64
                     fNevBufSize := 4, fNevBuf := 2, fLast := 16 }

/-- The record `WriteBuffer` stores at level 5 for a basket holding the single
entry `[5,0,0,0]`: the key followed by one compressed chunk of 3 bytes. -/
def singleEntryRecord : Bytes := [11, 4, 8, 64, 4, 1, 12, 0, 3, 4, 5]

/-- A read-side basket for which the bypass has been requested (it carries the
`kNotDecompressed` bit), with its buffer and its compressed buffer allocated. -/
def bypassBasket : Basket :=
  { emptyBasket with
    notDecompressed := true
    fBufferRef := some { data := [], length := 0, bufSize := 64, notDecompressed := false,
                         writing := false }
    fCompressedBufferRef := some { data := [], length := 0, bufSize := 64,
                                   notDecompressed := false, writing := false } }

/-- What `ReadBasketBuffers` leaves when `bypassBasket` reads `singleEntryRecord`
through a branch of the given compression level. -/
def bypassRead (level : Int) : ReadResult :=
  (ReadBasketBuffers sampleCodec (sampleBranch level 0) (fileWith singleEntryRecord) 11
    bypassBasket).getD { basket := emptyBasket, ret := -1 }

/-- A file of format version 30000 (not above 30401) without cache that
delivers `record`. -/
def legacyFile (record : Bytes) : ReadFile :=
  { version := 30000, cache := none, stored := some record }

/-- A record with `fObjlen = fNbytes - fKeylen = 4` whose payload starts with a
valid chunk header announcing 7 uncompressed bytes, more than `fObjlen`. -/
def legacyOversizeRecord : Bytes := [12, 4, 8, 64, 4, 1, 12, 0, 3, 7, 1, 2]

/-- The record `WriteBuffer` stores at level 0 for a basket holding the single
entry `[1,2,3,4]` without entry-offset table. -/
def plainRecord : Bytes := [12, 4, 8, 64, 4, 1, 12, 0, 1, 2, 3, 4]

/-- The basket with which `ReadBasketBuffers` arrives at `AfterBuffer:` when a
fresh basket reads `plainRecord` through a branch of level 0. -/
def plainBasketAtAfterBuffer : Basket :=
  { emptyBasket with
    fNbytes := 12, fObjlen := 4, fKeylen := 8, fBufferSize := 64, fNevBufSize := 4
    fNevBuf := 1, fLast := 12, fBuffer := BufferPtr.ownBuffer
    fBufferRef := some { data := plainRecord, length := 0, bufSize := 12
                         notDecompressed := false, writing := false } }

/-! ## `TBasket::Streamer`, writing -/

/-- The flag byte `Streamer` writes (source lines 893-901). -/
def streamerFlag (b : Basket) : Int :=
  if b.fHeaderOnly then 0
  else
    let flag : Int := 1
    let flag := if b.fEntryOffset.isNone then 2 else flag
    let flag := if b.fBufferRef.isSome then flag + 10 else flag
    let flag := if b.fDisplacement.isSome then flag + 40 else flag
    flag

/-- The first part of `Streamer` on a writing buffer (source lines 852-856): a
basket that is not header-only and has no `fSeekKey` takes the offset of its
buffer as `fLast` when that is larger, and `fBufferSize` is raised to `fLast`. -/
def streamerPrepare (seekKey : Int) (b : Basket) : Basket :=
  let b :=
    match b.fBufferRef with
    | some buf =>
      if !b.fHeaderOnly && decide (seekKey = 0) && decide (buf.length > b.fLast) then
        { b with fLast := buf.length }
      else b
    | none => b
  { b with fBufferSize := if b.fLast > b.fBufferSize then b.fLast else b.fBufferSize }

/-- The header values `Streamer` writes (source lines 850, 889-901). -/
def streamerHeader (seekKey : Int) (b : Basket) : Header :=
  let b := streamerPrepare seekKey b
  { fNbytes := b.fNbytes, fObjlen := b.fObjlen, fKeylen := b.fKeylen
    fBufferSize := b.fBufferSize, fNevBufSize := b.fNevBufSize, fNevBuf := b.fNevBuf
    fLast := b.fLast, flag := streamerFlag b }

/-- `TBasket::Streamer(b)` on a writing buffer `b` (source lines 850-911): the
basket after the call and the bytes appended to `b`.  `seekKey` is the member
`fSeekKey` of `TKey`.  `WriteArray(a, n)` writes the first `n` values of `a`,
`WriteFastArray(buf, fLast)` the first `fLast` bytes of the basket's buffer. -/
def StreamerWrite (env : Codec) (seekKey : Int) (b : Basket) : Basket × Bytes :=
  let bytes := env.writeHeader (streamerHeader seekKey b)
  let b := streamerPrepare seekKey b
  if b.fHeaderOnly then (b, bytes)
  else
    let tables : Bytes :=
      match b.fEntryOffset with
      | some offsets =>
        if b.fNevBuf ≠ 0 then
          env.writeArray (offsets.take b.fNevBuf.toNat) ++
            (match b.fDisplacement with
             | some disp => env.writeArray (disp.take b.fNevBuf.toNat)
             | none => [])
        else []
      | none => []
    let buffer : Bytes :=
      match b.fBufferRef with
      | some buf => readBytes buf.data 0 b.fLast
      | none => []
    (b, bytes ++ tables ++ buffer)

/-! ## The write constructor, `Update` and `MoveEntries` -/

/-- `TStorage::ReAllocInt(ovp, size, oldsize)`, whose source is outside the
translated files: the same array when the sizes agree, otherwise a new array of
`size` slots that carries over the first `min(size, oldsize)` values and holds 0
in the others. -/
def ReAllocInt (ovp : List Int) (size oldsize : Int) : List Int :=
  if oldsize = size then ovp
  else
    let kept := ovp.take (min size oldsize).toNat
    kept ++ List.replicate (size.toNat - kept.length) 0

/-- The store `a[i] = v` into an `Int_t` array; a store outside the array
leaves it unchanged. -/
def storeInt (a : List Int) (i v : Int) : List Int :=
  if 0 ≤ i then a.set i.toNat v else a

/-- The first `n` slots of an `Int_t` array; a slot outside it reads as 0. -/
def readInts (a : List Int) (n : Int) : List Int :=
  (List.range n.toNat).map (fun i => a.getD i 0)

/-- The write constructor `TBasket(name, title, branch)` (source lines 78-122),
reading the basket size, the entry-offset length and the header length from the
branch as `Reset` does; the compressed buffer, which the tree lends, is taken
as an empty buffer.  `none`: `new Int_t[fNevBufSize]` with a negative size
throws. -/
def construct (env : ResetEnv) : Option Basket :=
  if env.entryOffsetLen < 0 then none
  else
    let fBufferSize := if 0 > env.basketSize then 0 else env.basketSize
    some
      { fNbytes := 0, fObjlen := fBufferSize - env.headerLength, fKeylen := env.headerLength
        zombie := false, notDecompressed := false, fBufferSize := fBufferSize
        fNevBufSize := env.entryOffsetLen, fNevBuf := 0, fLast := env.headerLength
        fHeaderOnly := false, fDisplacement := none
        fEntryOffset :=
          if env.entryOffsetLen = 0 then none
          else some (List.replicate env.entryOffsetLen.toNat 0)
        fBufferRef := some { data := [], length := env.headerLength, bufSize := env.basketSize
                             notDecompressed := false, writing := true }
        fCompressedBufferRef := some { data := [], length := 0, bufSize := env.basketSize
                                       notDecompressed := false, writing := false }
        fOwnsCompressedBuffer := false, fBuffer := BufferPtr.null
        fLastWriteBufferSize := [0, 0, 0], fNextBufferSizeRecord := 0
        fResetAllocation := false }

/-- What `Update` leaves: the basket, and the value it passes to
`fBranch->SetEntryOffsetLen` when it calls it. -/
structure UpdateResult where
  basket : Basket
  entryOffsetLen : Option Int
  deriving DecidableEq, Repr

/-- `TBasket::Update(offset, skipped)` (source lines 918-951); `writeBasket` is
`fBranch->GetWriteBasket()`.  The call `SetBufferDisplacement(skipped)` on the
buffer does not touch the members modelled here. -/
def Update (writeBasket : Int) (b : Basket) (offset skipped : Int) : UpdateResult :=
  match b.fEntryOffset with
  | none => { basket := { b with fNevBuf := b.fNevBuf + 1 }, entryOffsetLen := none }
  | some table =>
    let full := decide (b.fNevBuf + 1 ≥ b.fNevBufSize)
    let newsize := max 10 (2 * b.fNevBufSize)
    let table := if full then ReAllocInt table newsize b.fNevBufSize else table
    let disp :=
      if full then b.fDisplacement.map (fun d => ReAllocInt d newsize b.fNevBufSize)
      else b.fDisplacement
    let size := if full then newsize else b.fNevBufSize
    let report := if full && decide (writeBasket < 10) then some newsize else none
    let table := storeInt table b.fNevBuf offset
    let disp :=
      match disp with
      | none => if skipped ≠ offset then some (readInts table size) else none
      | some d => some d
    let disp := disp.map (fun d => storeInt d b.fNevBuf skipped)
    { basket := { b with fEntryOffset := some table, fDisplacement := disp
                         fNevBufSize := size, fNevBuf := b.fNevBuf + 1 }
      entryOffsetLen := report }

/-- `TBasket::MoveEntries(dentries)` (source lines 292-332).  `none`: a
negative `dentries` (the entries before the first one are addressed) or a basket
without buffer. -/
def MoveEntries (b : Basket) (dentries : Int) : Option Basket :=
  if dentries ≥ b.fNevBuf then some b
  else if dentries < 0 then none
  else
    match b.fBufferRef with
    | none => none
    | some buf =>
      let tables : Int × Option (List Int) × Option (List Int) :=
        match b.fEntryOffset with
        | some table =>
          let bufbegin := table.getD dentries.toNat 0
          let moved := bufbegin - b.fKeylen
          let n := b.fNevBufSize
          let oldDisp := (b.fDisplacement.getD []).drop n.toNat
          let newDisp := (List.range n.toNat).map
            (fun (i : Nat) =>
              if (i : Int) < n - dentries then table.getD (i + dentries.toNat) 0 else 0)
          let newTable := (List.range n.toNat).map
            (fun (i : Nat) =>
              if (i : Int) < n - dentries then table.getD (i + dentries.toNat) 0 - moved else 0)
          (bufbegin, some (newTable ++ table.drop n.toNat), some (newDisp ++ oldDisp))
        | none => (b.fKeylen + dentries * b.fNevBufSize, none, b.fDisplacement)
      let bufbegin := tables.1
      let moved := bufbegin - b.fKeylen
      let buf : TBuffer :=
        { buf with
          data := writeAt buf.data b.fKeylen.toNat (readBytes buf.data bufbegin (buf.length - bufbegin))
          length := buf.length - moved }
      some { b with fEntryOffset := tables.2.1, fDisplacement := tables.2.2
                    fBufferRef := some buf, fNevBuf := b.fNevBuf - dentries }

/-- One call on a write-side basket. -/
inductive BasketOp where
  | update (writeBasket offset skipped : Int)
  | moveEntries (dentries : Int)
  | reset (env : ResetEnv)

/-- The basket after one call; `none` when the call does not complete (`Reset`
for a branch with a negative entry-offset length throws in
`new Int_t[newNevBufSize]`). -/
def applyOp (b : Basket) : BasketOp → Option Basket
  | BasketOp.update writeBasket offset skipped => some (Update writeBasket b offset skipped).basket
  | BasketOp.moveEntries dentries => MoveEntries b dentries
  | BasketOp.reset env => if env.entryOffsetLen < 0 then none else Reset env b

/-- The basket after a sequence of calls. -/
def applyOps (b : Basket) : List BasketOp → Option Basket
  | [] => some b
  | op :: ops =>
    match applyOp b op with
    | none => none
    | some b1 => applyOps b1 ops

/-- A write-side basket with buffer bytes and without entry-offset table. -/
def fixedSizeBasket : Basket := sampleWriteBasket [1, 2, 3, 4] 1 none none

/-- The state of the entry-offset table the write-side calls maintain: when a
table is present, `fNevBuf` is not negative, `fNevBuf + 1 <= fNevBufSize`, and
the table has `fNevBufSize` slots. -/
def Basket.offsetTableOk (b : Basket) : Bool :=
  match b.fEntryOffset with
  | none => true
  | some table =>
    decide (0 ≤ b.fNevBuf) && decide (b.fNevBuf + 1 ≤ b.fNevBufSize) &&
      decide (table.length = b.fNevBufSize.toNat)

/-- A branch with basket size 64, key length 8 and the given entry-offset
length. -/
def sampleWriteEnv (entryOffsetLen : Int) : ResetEnv :=
  { sampleResetEnv 64 0 0 with entryOffsetLen := entryOffsetLen, headerLength := 8 }

/-- A sequence of calls on a write-side basket: two entries, relocation of
the second to the front, a reset for an entry-offset length of 4, one entry. -/
def sampleOps : List BasketOp :=
  [BasketOp.update 0 8 8, BasketOp.update 0 12 12, BasketOp.moveEntries 1,
   BasketOp.reset (sampleWriteEnv 4), BasketOp.update 0 8 8]

/-- The basket the write constructor makes for an entry-offset length of 2. -/
def sampleConstructed : Basket := (construct (sampleWriteEnv 2)).getD emptyBasket

/-- The basket after `sampleOps`. -/
def sampleFilled : Basket := (applyOps sampleConstructed sampleOps).getD emptyBasket

/-- A basket whose entry-offset table of 2 slots is full after one entry, with
a displacement table. -/
def fullTableBasket : Basket :=
  { sampleWriteBasket [1, 2, 3, 4] 1 (some [8, 0]) (some [20, 0]) with fNevBufSize := 2 }

/-! ## `TBasket::Streamer`, reading -/

/-- The `TBuffer` primitives the reading `Streamer` uses besides those of
`Codec`, all outside the translated sources.

* `headerLength bytes`: the number of bytes `TKey::Streamer`, `ReadVersion` and
  the extraction of `fBufferSize`, `fNevBufSize`, `fNevBuf`, `fLast` and the flag
  consume.
* `version bytes`: the value `v` of `b.ReadVersion()`.
* `countLength`: the number of bytes `ReadArray` consumes when it returns 0
  (it has read the count only).
* `readChars bytes`: the bytes `ReadArray(buf)` stores for a `char` array and
  the number of bytes it consumes. -/
structure StreamIO where
  headerLength : Bytes → Nat
  version : Bytes → Int
  countLength : Nat
  readChars : Bytes → Bytes × Nat

/-- `b.ReadArray(a)` for an `Int_t` array `a` that is already allocated: the
values read replace the first slots of `a`; the array and the number of bytes
consumed. -/
def readIntoArray (env : Codec) (io : StreamIO) (a : List Int) (data : Bytes) :
    List Int × Nat :=
  match env.readArray data with
  | none => (a, io.countLength)
  | some (vals, used) => (vals ++ a.drop vals.length, used)

/-- `x & ~kDisplacementMask` for an `Int_t` `x`: `kDisplacementMask` is the
`UInt_t` `0xFF000000`, so `x` is converted to `UInt_t` and its bits are taken
with `0x00FFFFFF`. -/
def maskOffset (x : Int) : Int :=
  (((x % 4294967296).toNat &&& (4294967295 - 4278190080) : Nat) : Int)

/-- The loop `for (i = 0; i < fNevBuf; i++) fEntryOffset[i] &= ~kDisplacementMask`. -/
def maskFirst (n : Int) (table : List Int) : List Int :=
  (table.take n.toNat).map maskOffset ++ table.drop n.toNat

/-- The basket after the first part of the reading `Streamer` (source lines
808-820): the key and the basket header are taken from the bytes. -/
def streamerReadFields (env : Codec) (b : Basket) (data : Bytes) : Basket :=
  let h := env.readHeader data
  { b with
    fNbytes := h.fNbytes, fObjlen := h.fObjlen, fKeylen := h.fKeylen
    zombie := b.zombie || decide (h.fNevBufSize < 0)
    fNevBufSize := if h.fNevBufSize < 0 then 0 else h.fNevBufSize
    fNevBuf := h.fNevBuf
    fLast := h.fLast
    fBufferSize := if h.fLast > h.fBufferSize then h.fLast else h.fBufferSize }

/-- The array `fEntryOffset` right after `if (fNevBuf) b.ReadArray(fEntryOffset)`
(source lines 825-827), before any masking, and the number of bytes consumed;
the slots of `new Int_t[fNevBufSize]` that are not read into hold 0 here. -/
def decodedOffsets (env : Codec) (io : StreamIO) (b : Basket) (data : Bytes) :
    List Int × Nat :=
  let b1 := streamerReadFields env b data
  let table := List.replicate b1.fNevBufSize.toNat 0
  if b1.fNevBuf ≠ 0 then readIntoArray env io table (data.drop (io.headerLength data))
  else (table, 0)

/-- `TBasket::Streamer(b)` on a reading buffer whose storage holds `data` at its
offset (source lines 807-848): the basket after the call and the number of
bytes consumed. -/
def StreamerRead (env : Codec) (io : StreamIO) (b : Basket) (data : Bytes) : Basket × Nat :=
  let flag := (env.readHeader data).flag
  let v := io.version data
  let pos := io.headerLength data
  let b1 := streamerReadFields env b data
  if flag = 0 then (b1, pos)
  else
    let r : Basket × Nat :=
      if Int.tmod flag 10 ≠ 2 then
        let t := decodedOffsets env io b data
        let table := if 20 < flag ∧ flag < 40 then maskFirst b1.fNevBuf t.1 else t.1
        let pos := pos + t.2
        if flag > 40 then
          let d := readIntoArray env io (List.replicate b1.fNevBufSize.toNat 0) (data.drop pos)
          ({ b1 with fEntryOffset := some table, fDisplacement := some d.1 }, pos + d.2)
        else ({ b1 with fEntryOffset := some table }, pos)
      else (b1, pos)
    if flag = 1 ∨ flag > 10 then
      let c : Bytes × Nat :=
        if v > 1 then (readBytes data r.2 r.1.fLast, r.1.fLast.toNat)
        else io.readChars (data.drop r.2)
      ({ r.1 with
         fBufferRef := some { data := c.1, length := r.1.fLast, bufSize := r.1.fBufferSize
                              notDecompressed := false, writing := false } },
        r.2 + c.2)
    else r

/-- The `TBuffer` primitives of `sampleCodec`: an eight-byte header, class
version 3, counts of one byte. -/
def sampleIO : StreamIO :=
  { headerLength := fun _ => 8
    version := fun _ => 3
    countLength := 1
    readChars := fun d => (d.drop 1, d.length) }

/-- A basket streamed with the flag 21 of the legacy encoding: two entries whose
offsets 8 and 12 carry the markers 1 and 2 in their high byte, followed by the
ten bytes of the buffer. -/
def legacyStream : Bytes :=
  [0, 0, 8, 64, 4, 2, 10, 21, 2, 16777224, 33554444, 0, 0, 8, 64, 4, 2, 10, 21, 5, 6]

/-- A write-side basket after an entry was relocated and the basket reset: the
write constructor for an entry-offset length of 4, `Update(8, 20)`, `Reset`. -/
def relocatedThenReset : Basket :=
  (applyOps ((construct (sampleWriteEnv 4)).getD emptyBasket)
    [BasketOp.update 0 8 20, BasketOp.reset (sampleWriteEnv 4)]).getD emptyBasket

/-- A basket in the state of `relocatedThenReset` (no entry, both tables
present) whose buffer holds the eight bytes of its key. -/
def emptyRelocatedBasket : Basket :=
  sampleWriteBasket [] 0 (some [0, 0, 0, 0]) (some [20, 0, 0, 0])

/-- `TBasket::Update(newlast)` of `TBasket.h`: `Update(newlast, newlast)`. -/
def UpdateLast (writeBasket : Int) (b : Basket) (newlast : Int) : Basket :=
  (Update writeBasket b newlast newlast).basket

/-- A basket filled through `Update(newlast)` only, one call per offset. -/
def fillBasket (writeBasket : Int) (b : Basket) : List Int → Basket
  | [] => b
  | newlast :: rest => fillBasket writeBasket (UpdateLast writeBasket b newlast) rest

/-- A basket built by the write constructor that holds two entries at the
offsets 8 and 12. -/
def twoEntryBasket : Basket := fillBasket 0 sampleConstructed [8, 12]

/-- A write-side basket holding the single entry `[5,0,0,0]` behind its key,
with an entry-offset table. -/
def oneEntryBasket : Basket := sampleWriteBasket [5, 0, 0, 0] 1 (some [8, 0, 0, 0]) none

/-- A read-side basket whose compressed buffer still holds the 24 bytes
`100, 101, ..., 123` of an earlier read. -/
def staleBufferBasket : Basket :=
  { emptyBasket with
    fCompressedBufferRef :=
      some { data := (List.range 24).map (fun i => 100 + i), length := 0, bufSize := 64
             notDecompressed := false, writing := false } }

/-- `TBasket::GetEntryPointer(entry)` (source lines 213-220): the offset
returned and the basket, whose buffer the call puts at that offset.  A slot
outside the entry-offset table reads as 0. -/
def GetEntryPointer (b : Basket) (entry : Int) : Int × Basket :=
  let offset :=
    match b.fEntryOffset with
    | some table => if entry < 0 then 0 else table.getD entry.toNat 0
    | none => b.fKeylen + entry * b.fNevBufSize
  (offset,
    { b with fBufferRef := b.fBufferRef.map (fun (buf : TBuffer) => { buf with length := offset }) })

/-- A write-side basket with three entries of two bytes at the offsets 8, 10
and 12, with an entry-offset table. -/
def threeEntryBasket : Basket :=
  sampleWriteBasket [11, 12, 21, 22, 31, 32] 3 (some [8, 10, 12, 0]) none

/-- A write-side basket with three entries of the fixed size 2, without
entry-offset table. -/
def threeFixedBasket : Basket :=
  { sampleWriteBasket [11, 12, 21, 22, 31, 32] 3 none none with fNevBufSize := 2 }

/-- The buffer of the basket the bypass read leaves for `singleEntryRecord`: it
holds the record as read and carries the `kNotDecompressed` bit. -/
def flaggedBuffer : TBuffer :=
  (bypassRead 0).basket.fBufferRef.getD (TBuffer.mk [] 0 0 false false)

end TBasket

namespace PyROOT

/-! ## `ClusterBuffer` -/

/-- What one call of `GetBulkRead().GetEntriesSerialized(entry, fBufferFile)`
delivers: the returned entry count and the bytes it leaves at
`fBufferFile.GetCurrent()`. -/
structure Delivery where
  numentries : Int
  bytes : Bytes
  deriving DecidableEq, Repr

/-- The two messages `ReadOne` can store in `error_string`. -/
inductive ErrorString where
  | illegalItemSize
  | failedToRead
  deriving DecidableEq, Repr

/-- The data members of `ClusterBuffer`.  `fBufferFile` holds the bytes at
`fBufferFile.GetCurrent()`, `fExtra` the elements of the `std::vector<char>`.
`faulted` records that a `memmove` or `memcpy` of `CopyToExtra` has read
outside its source (undefined behaviour in C++); the bytes such a read yields
are unspecified and appear as 0 here. -/
structure ClusterBuffer where
  fItemSize : Int
  fSwapBytes : Bool
  fBufferFile : Bytes
  fExtra : Bytes
  fUsingExtra : Bool
  bfEntryStart : Int
  bfEntryEnd : Int
  exEntryStart : Int
  exEntryEnd : Int
  faulted : Bool
  deriving DecidableEq, Repr

/-- `ClusterBuffer::CopyToExtra(keep_start)`. -/
def ClusterBuffer.CopyToExtra (c : ClusterBuffer) (keep_start : Int) : ClusterBuffer :=
  let c :=
    if c.exEntryStart < keep_start then
      let offset := (keep_start - c.exEntryStart) * c.fItemSize
      let newsize := (c.exEntryEnd - keep_start) * c.fItemSize
      { c with
        fExtra := readBytes c.fExtra offset newsize
        faulted := c.faulted || !inBounds c.fExtra.length offset newsize
        exEntryStart := keep_start }
    else c
  let additional := (c.bfEntryEnd - c.bfEntryStart) * c.fItemSize
  if additional > 0 then
    { c with
      fExtra := c.fExtra ++ readBytes c.fBufferFile 0 additional
      faulted := c.faulted || !inBounds c.fBufferFile.length 0 additional
      exEntryEnd := c.bfEntryEnd }
  else c

/-- The byte swap of `ReadOne`: the first `n` items of `k` bytes each are
reversed in place. -/
def swapItems (k : Nat) : Nat → Bytes → Bytes
  | 0, bs => bs
  | n + 1, bs => (bs.take k).reverse ++ swapItems k n (bs.drop k)

/-- First block of `ReadOne` (source lines 88-92): the staging buffer is taken
into use when the basket buffer still holds entries from `keep_start` on. -/
def ClusterBuffer.startUsingExtra (c : ClusterBuffer) (keep_start : Int) : ClusterBuffer :=
  if !c.fUsingExtra && decide (c.bfEntryEnd > keep_start) then
    { c.CopyToExtra 0 with fUsingExtra := true }
  else c

/-- The `switch (fItemSize)` of `ReadOne` (source lines 97-127); `none` is the
`default` case, which stores "illegal fItemSize" and returns. -/
def ClusterBuffer.swapBytes (c : ClusterBuffer) (numentries : Int) : Option ClusterBuffer :=
  if c.fSwapBytes then
    if c.fItemSize = 8 then
      some { c with fBufferFile := swapItems 8 numentries.toNat c.fBufferFile }
    else if c.fItemSize = 4 then
      some { c with fBufferFile := swapItems 4 numentries.toNat c.fBufferFile }
    else if c.fItemSize = 2 then
      some { c with fBufferFile := swapItems 2 numentries.toNat c.fBufferFile }
    else none
  else some c

/-- Last blocks of `ReadOne` (source lines 129-141): the range update, the
error check and the mirroring into the staging buffer. -/
def ClusterBuffer.updateRange (c : ClusterBuffer) (numentries keep_start : Int)
    (error_string : Option ErrorString) : ClusterBuffer × Option ErrorString :=
  let c := { c with bfEntryStart := c.bfEntryEnd, bfEntryEnd := c.bfEntryEnd + numentries }
  let r : ClusterBuffer × Option ErrorString :=
    if numentries ≤ 0 then
      ({ c with bfEntryEnd := c.bfEntryStart }, some ErrorString.failedToRead)
    else (c, error_string)
  if r.1.fUsingExtra then (r.1.CopyToExtra keep_start, r.2) else r

/-- `ClusterBuffer::ReadOne(keep_start, error_string)`; `bulk` is the bulk
reader of the branch, called with the old `bfEntryEnd`.  The result pairs the
buffer with the new value of `error_string`. -/
def ClusterBuffer.ReadOne (bulk : Int → Delivery) (c : ClusterBuffer) (keep_start : Int)
    (error_string : Option ErrorString) : ClusterBuffer × Option ErrorString :=
  let c := c.startUsingExtra keep_start
  let numentries := (bulk c.bfEntryEnd).numentries
  let c := { c with fBufferFile := (bulk c.bfEntryEnd).bytes }
  match c.swapBytes numentries with
  | none => (c, some ErrorString.illegalItemSize)
  | some c => c.updateRange numentries keep_start error_string

/-- Where the pointer returned by `GetBuffer` points: into the staging vector
`fExtra` or into the basket buffer `fBufferFile`, at a byte offset. -/
inductive BufferAddress where
  | inExtra (offset : Int)
  | inBufferFile (offset : Int)
  deriving DecidableEq, Repr

/-- `ClusterBuffer::GetBuffer(numbytes, entry_start, EntryEnd)`: the value
stored in `numbytes` and the returned pointer. -/
def ClusterBuffer.GetBuffer (c : ClusterBuffer) (entry_start EntryEnd : Int) :
    Int × BufferAddress :=
  let numbytes := (EntryEnd - entry_start) * c.fItemSize
  if c.fUsingExtra then
    (numbytes, BufferAddress.inExtra ((entry_start - c.exEntryStart) * c.fItemSize))
  else
    (numbytes, BufferAddress.inBufferFile ((entry_start - c.bfEntryStart) * c.fItemSize))

/-- The `numbytes` bytes found at an address returned by `GetBuffer`, when
they all lie inside the storage pointed into. -/
def ClusterBuffer.bytesAt (c : ClusterBuffer) (r : Int × BufferAddress) : Option Bytes :=
  match r.2 with
  | BufferAddress.inExtra off =>
    if inBounds c.fExtra.length off r.1 then some (readBytes c.fExtra off r.1) else none
  | BufferAddress.inBufferFile off =>
    if inBounds c.fBufferFile.length off r.1 then some (readBytes c.fBufferFile off r.1)
    else none

/-- `ClusterBuffer::EntryEnd()`. -/
def ClusterBuffer.EntryEnd (c : ClusterBuffer) : Int := c.bfEntryEnd

/-- `ClusterBuffer::Reset()`. -/
def ClusterBuffer.Reset (c : ClusterBuffer) : ClusterBuffer :=
  { c with fExtra := [], bfEntryStart := 0, bfEntryEnd := 0, exEntryStart := 0,
           exEntryEnd := 0 }

/-- A `ClusterBuffer` as its constructor leaves it. -/
def ClusterBuffer.init (itemsize : Int) (swap_bytes : Bool) : ClusterBuffer :=
  { fItemSize := itemsize, fSwapBytes := swap_bytes, fBufferFile := [], fExtra := []
    fUsingExtra := false, bfEntryStart := 0, bfEntryEnd := 0, exEntryStart := 0
    exEntryEnd := 0, faulted := false }

/-! ## `NumpyIterator` -/

/-- The data members of `NumpyIterator` that `StepForward` and `arrays` use. -/
structure NumpyIterator where
  fClusterBuffers : List ClusterBuffer
  fNumEntries : Int
  fCurrentStart : Int
  fCurrentEnd : Int
  deriving DecidableEq, Repr

/-- The result of one loop over the cluster buffers: the buffers, the value of
`error_string`, the entry counts delivered by the basket reads of the loop in
the order they were made, and whether the loop left `StepForward` through
`return true`. -/
structure Pass where
  buffers : List ClusterBuffer
  error_string : Option ErrorString
  reads : List Int
  returned : Bool
  deriving DecidableEq, Repr

/-- First loop of `StepForward` from buffer `i` on: every buffer whose
`EntryEnd()` equals `start` reads one basket; `StepForward` returns at the
first read after which `error_string` is set. -/
def advanceFront (bulk : Nat → Int → Delivery) (start : Int) (error_string : Option ErrorString) :
    Nat → List ClusterBuffer → Pass
  | _, [] => { buffers := [], error_string := error_string, reads := [], returned := false }
  | i, c :: cs =>
    if c.EntryEnd = start then
      let n := (bulk i c.bfEntryEnd).numentries
      let r := c.ReadOne (bulk i) start error_string
      if r.2 ≠ none then
        { buffers := r.1 :: cs, error_string := r.2, reads := [n], returned := true }
      else
        let rest := advanceFront bulk start r.2 (i + 1) cs
        { rest with buffers := r.1 :: rest.buffers, reads := n :: rest.reads }
    else
      let rest := advanceFront bulk start error_string (i + 1) cs
      { rest with buffers := c :: rest.buffers }

/-- Second loop of `StepForward`: the maximum of `cur` and every `EntryEnd()`. -/
def maxEntryEnd (cur : Int) : List ClusterBuffer → Int
  | [] => cur
  | c :: cs => maxEntryEnd (if c.EntryEnd > cur then c.EntryEnd else cur) cs

/-- The result of the inner `while` loop for one buffer. -/
structure CatchUp where
  buffer : ClusterBuffer
  error_string : Option ErrorString
  reads : List Int
  returned : Bool
  deriving DecidableEq, Repr

/-- The `while (buf.EntryEnd() < fCurrentEnd)` loop of `StepForward` for one
buffer, for at most `fuel` iterations. -/
def catchUp (bulk : Int → Delivery) (start target : Int) :
    Nat → ClusterBuffer → Option ErrorString → CatchUp
  | 0, c, e => { buffer := c, error_string := e, reads := [], returned := false }
  | fuel + 1, c, e =>
    if c.EntryEnd < target then
      let n := (bulk c.bfEntryEnd).numentries
      let r := c.ReadOne bulk start e
      if r.2 ≠ none then
        { buffer := r.1, error_string := r.2, reads := [n], returned := true }
      else
        let rest := catchUp bulk start target fuel r.1 r.2
        { rest with reads := n :: rest.reads }
    else { buffer := c, error_string := e, reads := [], returned := false }

/-- Third loop of `StepForward` from buffer `i` on: every buffer is brought up
to `target`.  A read that does not set `error_string` raises `EntryEnd()` by
at least one entry, so the distance to `target` bounds the iterations of the
inner loop. -/
def catchUpAll (bulk : Nat → Int → Delivery) (start target : Int)
    (error_string : Option ErrorString) : Nat → List ClusterBuffer → Pass
  | _, [] => { buffers := [], error_string := error_string, reads := [], returned := false }
  | i, c :: cs =>
    let r := catchUp (bulk i) start target (target - c.EntryEnd).toNat c error_string
    if r.returned then
      { buffers := r.buffer :: cs, error_string := r.error_string, reads := r.reads,
        returned := true }
    else
      let rest := catchUpAll bulk start target r.error_string (i + 1) cs
      { rest with buffers := r.buffer :: rest.buffers, reads := r.reads ++ rest.reads }

/-- What `StepForward` leaves: the iterator, the returned flag, the value of
`error_string`, and the entry counts delivered by its basket reads. -/
structure StepResult where
  iter : NumpyIterator
  done : Bool
  error_string : Option ErrorString
  reads : List Int
  deriving DecidableEq, Repr

/-- `NumpyIterator::StepForward(error_string)`; `bulk i` is the bulk reader of
the branch behind `fClusterBuffers[i]`. -/
def NumpyIterator.StepForward (bulk : Nat → Int → Delivery) (it : NumpyIterator)
    (error_string : Option ErrorString) : StepResult :=
  let it := { it with fCurrentStart := it.fCurrentEnd }
  if it.fCurrentEnd ≥ it.fNumEntries then
    { iter := it, done := true, error_string := error_string, reads := [] }
  else
    let p1 := advanceFront bulk it.fCurrentStart error_string 0 it.fClusterBuffers
    let it := { it with fClusterBuffers := p1.buffers }
    if p1.returned then
      { iter := it, done := true, error_string := p1.error_string, reads := p1.reads }
    else
      let it := { it with fCurrentEnd := maxEntryEnd (-1) it.fClusterBuffers }
      let p3 := catchUpAll bulk it.fCurrentStart it.fCurrentEnd p1.error_string 0
        it.fClusterBuffers
      let it := { it with fClusterBuffers := p3.buffers }
      { iter := it, done := p3.returned, error_string := p3.error_string,
        reads := p1.reads ++ p3.reads }

/-- The tuple built by `arrays()`: `fCurrentStart`, `fCurrentEnd` and, for
every cluster buffer, what `GetBuffer` returned. -/
structure ArrayTuple where
  start : Int
  stop : Int
  arrays : List (Int × BufferAddress)
  deriving DecidableEq, Repr

/-- `NumpyIterator::arrays()`: the iterator afterwards and the returned tuple,
`none` when it returns 0 (with `IOError` or `StopIteration` set). -/
def NumpyIterator.arrays (bulk : Nat → Int → Delivery) (it : NumpyIterator) :
    NumpyIterator × Option ArrayTuple :=
  let r := it.StepForward bulk none
  if r.done then (r.iter, none)
  else
    (r.iter, some
      { start := r.iter.fCurrentStart
        stop := r.iter.fCurrentEnd
        arrays := r.iter.fClusterBuffers.map
          (fun buf => buf.GetBuffer r.iter.fCurrentStart r.iter.fCurrentEnd) })

/-- A bulk reader over a branch whose baskets start at the given entries and
hold the given item bytes; past the last basket it delivers nothing. -/
def bulkOf (baskets : List (Int × Delivery)) (entry : Int) : Delivery :=
  match baskets.find? (fun b => b.1 == entry) with
  | some b => b.2
  | none => { numentries := 0, bytes := [] }

/-- Two branches over three one-byte entries: the first has baskets `[0,1)` and
`[1,3)`, the second `[0,1)`, `[1,2)` and `[2,3)`. -/
def unevenBulk (i : Nat) : Int → Delivery :=
  if i = 0 then bulkOf [(0, ⟨1, [10]⟩), (1, ⟨2, [11, 12]⟩)]
  else bulkOf [(0, ⟨1, [20]⟩), (1, ⟨1, [21]⟩), (2, ⟨1, [22]⟩)]

/-- The branches of `unevenBulk` when the last basket of the second branch
cannot be read. -/
def truncatedBulk (i : Nat) : Int → Delivery :=
  if i = 0 then bulkOf [(0, ⟨1, [10]⟩), (1, ⟨2, [11, 12]⟩)]
  else bulkOf [(0, ⟨1, [20]⟩), (1, ⟨1, [21]⟩)]

/-- Two branches over four one-byte entries: the first has baskets `[0,2)` and
`[2,4)`, the second `[0,1)`, `[1,2)` and `[2,4)`. -/
def alignedBulk (i : Nat) : Int → Delivery :=
  if i = 0 then bulkOf [(0, ⟨2, [10, 11]⟩), (2, ⟨2, [12, 13]⟩)]
  else bulkOf [(0, ⟨1, [20]⟩), (1, ⟨1, [21]⟩), (2, ⟨2, [22, 23]⟩)]

/-- An iterator over `numEntries` entries with two one-byte cluster buffers,
after `NumpyIterator::Reset()`. -/
def twoBuffers (numEntries : Int) : NumpyIterator :=
  { fClusterBuffers := [(ClusterBuffer.init 1 false).Reset, (ClusterBuffer.init 1 false).Reset]
    fNumEntries := numEntries, fCurrentStart := 0, fCurrentEnd := 0 }

/-- The second cluster buffer of `twoBuffers 3` over `unevenBulk` in the second
step, at the point where `ReadOne(1)` of the catching-up loop is about to call
`CopyToExtra(1)`: the first step and the first loop of the second step are
over, `ReadOne(1)` has taken the staging buffer into use and has read basket
`[2,3)`. -/
def stagedBeforeTrim : ClusterBuffer :=
  let c0 := (((twoBuffers 3).arrays unevenBulk).1.fClusterBuffers.getD 1
    (ClusterBuffer.init 1 false))
  let c1 := (c0.ReadOne (unevenBulk 1) 1 none).1
  let c2 := c1.startUsingExtra 1
  { c2 with
    fBufferFile := (unevenBulk 1 c2.bfEntryEnd).bytes
    bfEntryStart := c2.bfEntryEnd
    bfEntryEnd := c2.bfEntryEnd + (unevenBulk 1 c2.bfEntryEnd).numentries }

/-- The second cluster buffer of `twoBuffers 3` over `unevenBulk` after the
first loop of the second step. -/
def stagedBeforeCatchUp : ClusterBuffer :=
  ((((twoBuffers 3).arrays unevenBulk).1.fClusterBuffers.getD 1
    (ClusterBuffer.init 1 false)).ReadOne (unevenBulk 1) 1 none).1

/-- `NumpyIterator::Reset()` (source lines 264-270). -/
def NumpyIterator.Reset (it : NumpyIterator) : NumpyIterator :=
  { it with fCurrentStart := 0, fCurrentEnd := 0
            fClusterBuffers := it.fClusterBuffers.map ClusterBuffer.Reset }

/-- The ranges `(fCurrentStart, fCurrentEnd)` that up to `n` successive calls of
`StepForward` (each with a null `error_string`, as `arrays()` makes them) yield
before the first call that returns true. -/
def yieldedRanges (bulk : Nat → Int → Delivery) : Nat → NumpyIterator → List (Int × Int)
  | 0, _ => []
  | n + 1, it =>
    if (it.StepForward bulk none).done then []
    else
      ((it.StepForward bulk none).iter.fCurrentStart,
        (it.StepForward bulk none).iter.fCurrentEnd) ::
        yieldedRanges bulk n (it.StepForward bulk none).iter

/-! ## `getdim` -/

/-- `v.back() = f(v.back())` on a `std::vector`; nothing on an empty one. -/
def modifyBack {α : Type} (f : α → α) (v : List α) : List α :=
  match v.reverse with
  | [] => []
  | x :: rest => (f x :: rest).reverse

/-- The variables of `getdim` while it scans the title: the vectors `dims` and
`counters` (a `std::string` is the list of its characters) and `iscounter`.
`faulted` records a `pop_back()` or `back()` on an empty vector (undefined
behaviour in C++). -/
structure DimState where
  dims : List Int
  counters : List (List Char)
  iscounter : Bool
  faulted : Bool
  deriving DecidableEq, Repr

/-- Whether a character is a decimal digit: the test
`'0' <= *c && *c <= '9'` (the codes 48 to 57). -/
def isDigitChar (c : Char) : Bool := decide (48 ≤ c.toNat) && decide (c.toNat ≤ 57)

/-- The body of the loop of `getdim` for the character `c`; the codes 91 and 93
are the opening and the closing bracket, `*c - '0'` is the code minus 48. -/
def getdimStep (s : DimState) (c : Char) : DimState :=
  if c.toNat = 91 then
    { s with dims := s.dims ++ [0], counters := s.counters ++ [[]], iscounter := false }
  else if c.toNat = 93 then
    if s.iscounter then
      { s with dims := s.dims.dropLast, faulted := s.faulted || s.dims.isEmpty }
    else
      { s with counters := s.counters.dropLast, faulted := s.faulted || s.counters.isEmpty }
  else if !s.dims.isEmpty then
    let s :=
      if isDigitChar c then
        { s with dims := modifyBack (fun v => v * 10 + ((c.toNat : Int) - 48)) s.dims }
      else { s with iscounter := true }
    { s with counters := modifyBack (fun t => t ++ [c]) s.counters
             faulted := s.faulted || s.counters.isEmpty }
  else s

/-- `getdim(leaf, dims, counters)` (`NumpyIterator.cxx` lines 370-398; the
function of the same name in `numpyinterface.cxx`, lines 333-361, has the same
text): `title` is `leaf->GetTitle()`, scanned up to its terminating 0. -/
def getdim (title : List Char) (dims : List Int) (counters : List (List Char)) : DimState :=
  title.foldl getdimStep { dims := dims, counters := counters, iscounter := false,
                           faulted := false }

/-- A text without brackets. -/
abbrev bracketFree (text : List Char) : Prop := ∀ c ∈ text, c.toNat ≠ 91 ∧ c.toNat ≠ 93

/-- The decimal value of a text made of digits. -/
def decimalValue (text : List Char) : Int :=
  text.foldl (fun v c => v * 10 + ((c.toNat : Int) - 48)) 0

/-- A leaf title: a name followed by bracket groups with the given texts. -/
def leafTitle (name : List Char) (groups : List (List Char)) : List Char :=
  name ++ (groups.map (fun g => Char.ofNat 91 :: g ++ [Char.ofNat 93])).flatten

/-- The second cluster buffer of `twoBuffers 4` over `alignedBulk` after the
first step: its baskets `[0,1)` and `[1,2)` are staged. -/
def stagedAligned : ClusterBuffer :=
  ((twoBuffers 4).arrays alignedBulk).1.fClusterBuffers.getD 1 (ClusterBuffer.init 1 false)

end PyROOT

namespace NumpyInterface

/-! ## `BranchData::getdata` -/

/-- A `BasketBuffer`: the entry range it holds, the bytes at
`buffer.GetCurrent()`, the value of `buffer.BufferSize()` and the address
`(size_t)buffer.GetCurrent()`. -/
structure BasketBuffer where
  entry_start : Int
  entry_end : Int
  current : Bytes
  bufferSize : Int
  address : Nat
  deriving DecidableEq, Repr

/-- The data members of `BranchData` that `getdata` uses: the deque `buffers`,
the vector `extra_buffer`, and whether `counter` is not `NULL`. -/
structure BranchData where
  buffers : List BasketBuffer
  extra_buffer : Bytes
  hasCounter : Bool
  deriving DecidableEq, Repr

/-- The pointer `getdata` returns: `NULL`, `buffers[i]->buffer.GetCurrent()`, or
`extra_buffer.data()`. -/
inductive DataPointer where
  | null
  | basket (i : Nat)
  | extra
  deriving DecidableEq, Repr

/-- What `getdata` leaves: `extra_buffer`, the value stored in `numbytes` (the
copying path stores none) and the returned pointer. -/
structure GetData where
  extra_buffer : Bytes
  numbytes : Option Int
  pointer : DataPointer
  deriving DecidableEq, Repr

/-- The loop `for (i = 0; i < buffers.size(); ++i)` of `getdata` from buffer `i`
on, followed by the test of `fill_end`.  The slices copied lie inside the
buffers whenever these hold their entries; a `resize` to a negative size, which
needs `entry_end < entry_start`, appears as a resize to 0. -/
def getdataLoop (itemsize entry_start entry_end alignment : Int) :
    Nat → List BasketBuffer → Int → Bytes → GetData
  | _, [], fill_end, extra =>
    { extra_buffer := extra, numbytes := none
      pointer := if fill_end ≠ entry_end then DataPointer.null else DataPointer.extra }
  | i, buf :: rest, fill_end, extra =>
    if entry_start = buf.entry_start ∧ entry_end = buf.entry_end ∧
        (alignment ≤ 0 ∨ buf.address % alignment.toNat = 0) then
      { extra_buffer := extra, numbytes := some buf.bufferSize, pointer := DataPointer.basket i }
    else if buf.entry_start ≤ entry_start ∧ entry_start < buf.entry_end then
      let fill_end := if entry_end ≤ buf.entry_end then entry_end else buf.entry_end
      let byte_start := (entry_start - buf.entry_start) * itemsize
      let byte_end := (fill_end - buf.entry_start) * itemsize
      getdataLoop itemsize entry_start entry_end alignment (i + 1) rest fill_end
        (readBytes buf.current byte_start (byte_end - byte_start))
    else if entry_start < buf.entry_start ∧ buf.entry_start < entry_end then
      let fill_end := if entry_end ≤ buf.entry_end then entry_end else buf.entry_end
      let byte_end := (fill_end - buf.entry_start) * itemsize
      getdataLoop itemsize entry_start entry_end alignment (i + 1) rest fill_end
        (extra ++ readBytes buf.current 0 byte_end)
    else getdataLoop itemsize entry_start entry_end alignment (i + 1) rest fill_end extra

/-- `BranchData::getdata(numbytes, itemsize, entry_start, entry_end, alignment)`. -/
def BranchData.getdata (d : BranchData) (itemsize entry_start entry_end alignment : Int) :
    GetData :=
  if !d.hasCounter then
    getdataLoop itemsize entry_start entry_end alignment 0 d.buffers (-1) d.extra_buffer
  else { extra_buffer := d.extra_buffer, numbytes := none, pointer := DataPointer.null }

/-- Whether the buffers hold consecutive entry ranges in deque order: every
range is `[entry_start, entry_end)` with `entry_start < entry_end` and starts
where the range before it ends. -/
def consecutiveRanges : List BasketBuffer → Bool
  | [] => true
  | [a] => decide (a.entry_start < a.entry_end)
  | a :: b :: rest =>
    decide (a.entry_start < a.entry_end) && decide (a.entry_end = b.entry_start) &&
      consecutiveRanges (b :: rest)

/-- Whether entry `e` lies in the range of one of the buffers. -/
def entryLoaded (buffers : List BasketBuffer) (e : Int) : Bool :=
  buffers.any (fun buf => decide (buf.entry_start ≤ e) && decide (e < buf.entry_end))

/-- A branch of one-byte items whose loaded baskets hold the entries `[5,8)`
and `[8,10)`, entry `e` being the byte `50 + e`, with the given content of
`extra_buffer`. -/
def loadedFromFive (extra : Bytes) : BranchData :=
  { buffers :=
      [{ entry_start := 5, entry_end := 8, current := [55, 56, 57], bufferSize := 32768
         address := 4096 },
       { entry_start := 8, entry_end := 10, current := [58, 59], bufferSize := 32768
         address := 8192 }]
    extra_buffer := extra
    hasCounter := false }

end NumpyInterface

namespace TLeafElement

/-! ## `TLeafElement::IncludeRange` -/

/-- The range of a leaf as its accessors report it: `fMinimum` is what
`GetMinimum()` returns and `fMaximum` what `GetMaximum()` returns.  The
accessors are declared outside the translated sources; for the leaf
`IncludeRange` is called on, `GetMaximum()` is taken to read the member
`fMaximum` of its branch, the one `IncludeRange` stores into, and
`GetMinimum()` not to depend on that member. -/
structure LeafRange where
  fMinimum : Int
  fMaximum : Int
  deriving DecidableEq, Repr

/-- `TLeafElement::IncludeRange(input)` (source lines 122-131): the leaf
afterwards and the value returned; `none` is a null `input`. -/
def IncludeRange (leaf : LeafRange) (input : Option LeafRange) : LeafRange × Bool :=
  match input with
  | some i =>
    let leaf := if i.fMaximum > leaf.fMaximum then { leaf with fMaximum := i.fMaximum } else leaf
    (leaf, true)
  | none => (leaf, false)

/-! ## `TLeafElement::GetDeserializeType` -/

/-- `TLeaf::DeserializeType`. -/
inductive DeserializeType where
  | kInvalid
  | kDestructive
  | kInPlace
  | kZeroCopy
  deriving DecidableEq, Repr

/-- The values of the `EDataType` enumerators that `GetDeserializeType` names;
the enumeration is declared outside the translated sources. -/
structure EDataTypes where
  kOther_t : Int
  kChar_t : Int
  kUChar_t : Int
  kBool_t : Int
  kFloat_t : Int
  kDouble_t : Int
  kInt_t : Int
  kUInt_t : Int
  kLong64_t : Int
  kULong64_t : Int
  deriving DecidableEq, Repr

/-- What `fBranch->GetExpectedType(clptr, type)` answers: its return value
(non-zero in case of failure), whether `clptr` is not null afterwards, and the
value of `type` afterwards. -/
structure ExpectedType where
  status : Int
  hasClass : Bool
  type : Int
  deriving DecidableEq, Repr

/-- The members of `TLeafElement` that `GetDeserializeType` uses. -/
structure LeafElement where
  fType : Int
  fDeserializeTypeCache : DeserializeType
  fDataTypeCache : Int
  deriving DecidableEq, Repr

/-- `TLeafElement::GetDeserializeType()` (source lines 68-98): the value
returned and the leaf with its two caches. -/
def GetDeserializeType (t : EDataTypes) (expected : ExpectedType) (leaf : LeafElement) :
    DeserializeType × LeafElement :=
  if leaf.fDeserializeTypeCache ≠ DeserializeType.kInvalid then
    (leaf.fDeserializeTypeCache, leaf)
  else if expected.status ≠ 0 then
    (DeserializeType.kDestructive,
      { leaf with fDeserializeTypeCache := DeserializeType.kDestructive })
  else
    let leaf := { leaf with fDataTypeCache := expected.type }
    if expected.hasClass then
      (DeserializeType.kDestructive,
        { leaf with fDeserializeTypeCache := DeserializeType.kDestructive })
    else if leaf.fType = t.kChar_t ∨ leaf.fType = t.kUChar_t ∨ expected.type = t.kBool_t then
      (DeserializeType.kZeroCopy,
        { leaf with fDeserializeTypeCache := DeserializeType.kZeroCopy })
    else if expected.type = t.kFloat_t ∨ expected.type = t.kDouble_t ∨
        expected.type = t.kInt_t ∨ expected.type = t.kUInt_t ∨
        expected.type = t.kLong64_t ∨ expected.type = t.kULong64_t then
      (DeserializeType.kInPlace,
        { leaf with fDeserializeTypeCache := DeserializeType.kInPlace })
    else
      (DeserializeType.kDestructive,
        { leaf with fDeserializeTypeCache := DeserializeType.kDestructive })

/-- The values the enumerators have in ROOT. -/
def rootDataTypes : EDataTypes :=
  { kOther_t := -1, kChar_t := 1, kUChar_t := 11, kBool_t := 18, kFloat_t := 5
    kDouble_t := 8, kInt_t := 3, kUInt_t := 13, kLong64_t := 16, kULong64_t := 17 }

/-- A leaf whose caches have not been filled, with the given `fType`. -/
def freshLeaf (fType : Int) : LeafElement :=
  { fType := fType, fDeserializeTypeCache := DeserializeType.kInvalid
    fDataTypeCache := rootDataTypes.kOther_t }

/-- The answer of a branch whose expected type is the basic type `type`. -/
def basicType (type : Int) : ExpectedType := { status := 0, hasClass := false, type := type }

end TLeafElement

namespace TTreeReaderFast

/-! ## `TTreeReaderFast::Iterator_t` -/

/-- The data members of `Iterator_t`; `fReader` is the address of the reader,
`none` for `nullptr`. -/
structure Iterator_t where
  fIdx : Int
  fCount : Int
  fEntry : Int
  fReader : Option Nat
  deriving DecidableEq, Repr

/-- `Iterator_t::IsValid()`. -/
def Iterator_t.IsValid (a : Iterator_t) : Bool := decide (a.fEntry ≥ 0)

/-- The default constructor `Iterator_t()`, which `end()` returns. -/
def pastTheEnd : Iterator_t := { fIdx := 0, fCount := 0, fEntry := -1, fReader := none }

/-- The constructor `Iterator_t(reader, first, count)`. -/
def Iterator_t.make (reader : Nat) (first count : Int) : Iterator_t :=
  { fIdx := 0, fCount := count, fEntry := first, fReader := some reader }

/-- `Iterator_t::operator==`. -/
def Iterator_t.equal (a lhs : Iterator_t) : Bool :=
  if !a.IsValid && !lhs.IsValid then true
  else decide (a.fEntry = lhs.fEntry) && decide (a.fReader = lhs.fReader)

/-- `Iterator_t::operator!=`. -/
def Iterator_t.notEqual (a lhs : Iterator_t) : Bool := !a.equal lhs

/-- `Iterator_t::operator++()` (prefix).  `GetNextRange` is defined outside the
translated sources: it takes the state `s` of the reader and its argument to the
count it returns and the state it leaves. -/
def Iterator_t.increment {σ : Type} (GetNextRange : σ → Int → Int × σ) (a : Iterator_t)
    (s : σ) : Iterator_t × σ :=
  let fIdx := a.fIdx + 1
  if fIdx = a.fCount then
    let fEntry := a.fEntry + a.fCount
    let r := GetNextRange s a.fCount
    ({ a with fIdx := 0, fCount := r.1, fEntry := if r.1 = 0 then -1 else fEntry }, r.2)
  else ({ a with fIdx := fIdx }, s)

/-- `Iterator_t::operator*()`. -/
def Iterator_t.deref (a : Iterator_t) : Int := a.fEntry + a.fIdx

/-- `TTreeReaderFast::begin()` for the reader at address `reader`. -/
def begin {σ : Type} (GetNextRange : σ → Int → Int × σ) (reader : Nat) (s : σ) :
    Iterator_t × σ :=
  (Iterator_t.make reader 0 (GetNextRange s 0).1, (GetNextRange s 0).2)

/-- The iterator after `k` increments. -/
def incrementTimes {σ : Type} (GetNextRange : σ → Int → Int × σ) :
    Nat → Iterator_t × σ → Iterator_t × σ
  | 0, p => p
  | k + 1, p => incrementTimes GetNextRange k (p.1.increment GetNextRange p.2)

/-- A reader for examples: its state is the list of the ranges still to come,
`GetNextRange` hands out the first of them, 0 when there is none. -/
def listRanges (s : List Int) (_ : Int) : Int × List Int := (s.headD 0, s.tail)

end TTreeReaderFast

/-! # Theorems -/

namespace TBasket

/-! ## `Reset` -/

theorem tmod_512_lt (m : Int) : Int.tmod m 512 < 512 :=
  Int.tmod_lt_of_pos m (by norm_num)

theorem historicalAverageSize_gt (env : ResetEnv) (curSize curLen : Int)
    (h : historicalAverageSize env curSize curLen ≠ -1) :
    curLen < historicalAverageSize env curSize curLen := by
  have h1 := tmod_512_lt env.basketSize
  have h2 := tmod_512_lt curLen
  have h3 := tmod_512_lt (Int.tdiv env.totBytes (1 + env.writeBasket))
  unfold historicalAverageSize at *
  simp only at *
  split_ifs at * <;> first | exact absurd rfl h | omega

/-- C8 (evaluation at the failing input): a basket with nominal size 200,
occupied length 150, average 100 and a 450-byte buffer is resized by the
historical-average rule of `Reset` to 512 bytes, which is larger than before. -/
theorem Reset_grows_small_buffer :
    capacity (sampleResetBasket 70 450 [150, 150, 150] 0) = 450 ∧
    (Reset (sampleResetEnv 200 300 2) (sampleResetBasket 70 450 [150, 150, 150] 0)).map
      capacity = some 512 := by
  decide

theorem Reset_capacity (env : ResetEnv) (b r : Basket) (buf : TBuffer)
    (hb : b.fBufferRef = some buf) (hr : Reset env b = some r) :
    capacity r =
      (if targetRatioSize env b buf.bufSize
            (historicalAverageSize env buf.bufSize (b.fObjlen + b.fKeylen)) ≠ -1
       then targetRatioSize env b buf.bufSize
            (historicalAverageSize env buf.bufSize (b.fObjlen + b.fKeylen))
       else buf.bufSize) := by
  unfold Reset at hr
  rw [hb] at hr
  simp only [Option.some.injEq] at hr
  subst hr
  simp only [capacity, TBuffer.Reset, TBuffer.Expand, Bool.false_and, Bool.false_eq_true,
    if_false]
  split_ifs <;> rfl

/-- C9 (counterexample): two baskets whose buffer `Reset` leaves smaller than
a value of the size history after the call.  After a first basket of 130000
bytes and a second of 900 bytes in a 250000-byte buffer (nominal size 32000,
average 65450), the historical-average rule shrinks the buffer to 65536 bytes
although the history still holds 130000, the occupied length of the first
basket.  After three baskets of 1000 bytes and one of 50000 bytes in a
65536-byte buffer (target memory ratio 1.1), the historical-average rule asks
for nothing and the target-memory-ratio rule shrinks the buffer to 1536 bytes,
below the 50000 bytes of the basket just flushed, which the call records. -/
theorem Reset_below_history_maximum :
    (Reset (sampleResetEnv 32000 130900 1)
        (sampleResetBasket 820 250000 [130000, 0, 0] 1)).map
      (fun r => (capacity r, r.fLastWriteBufferSize)) =
      some (65536, [130000, 900, 0]) ∧
    historicalAverageSize (sampleResetEnv 32000 100000 1) 65536 50000 = -1 ∧
    (Reset (sampleResetEnv 32000 100000 1)
        (sampleResetBasket 49920 65536 [1000, 1000, 1000] 0)).map
      (fun r => (capacity r, r.fLastWriteBufferSize)) =
      some (1536, [50000, 1000, 1000]) := by
  decide

/-- C9 (amended): `Reset` records the occupied length of the basket just
flushed in the slot `fNextBufferSizeRecord` of the size history.  When the
target-memory-ratio block leaves `newSize` as the historical-average block set
it, and that length fits the buffer before the call, the capacity after the
call is not below it.  Otherwise the historical-average block asked for
nothing and the target-memory-ratio block resizes: the capacity after the call
is the target size of the largest of the three history values before the call
plus `512 - target % 512`, which is above that target size, at least 8192 below
the capacity before the call, and not within the target memory ratio of it. -/
theorem Reset_capacity_ge_flushed_length (env : ResetEnv) (b r : Basket)
    (hr : Reset env b = some r)
    (hfit : b.fObjlen + b.fKeylen ≤ capacity b)
    (hslot : b.fNextBufferSizeRecord.toNat < b.fLastWriteBufferSize.length) :
    lastWriteBufferSize r b.fNextBufferSizeRecord.toNat = b.fObjlen + b.fKeylen ∧
    (targetRatioSize env b (capacity b)
        (historicalAverageSize env (capacity b) (b.fObjlen + b.fKeylen)) =
      historicalAverageSize env (capacity b) (b.fObjlen + b.fKeylen) →
      lastWriteBufferSize r b.fNextBufferSizeRecord.toNat ≤ capacity r) ∧
    (targetRatioSize env b (capacity b)
        (historicalAverageSize env (capacity b) (b.fObjlen + b.fKeylen)) ≠
      historicalAverageSize env (capacity b) (b.fObjlen + b.fKeylen) →
      historicalAverageSize env (capacity b) (b.fObjlen + b.fKeylen) = -1 ∧
      capacity r =
        env.targetSize (max (lastWriteBufferSize b 0)
          (max (lastWriteBufferSize b 1) (lastWriteBufferSize b 2))) + 512 -
        Int.tmod (env.targetSize (max (lastWriteBufferSize b 0)
          (max (lastWriteBufferSize b 1) (lastWriteBufferSize b 2)))) 512 ∧
      env.targetSize (max (lastWriteBufferSize b 0)
        (max (lastWriteBufferSize b 1) (lastWriteBufferSize b 2))) < capacity r ∧
      capacity r ≤ capacity b - 8 * 1024 ∧
      env.ratioBelow (capacity b) (capacity r) = false) := by
  cases hb : b.fBufferRef with
  | none => simp [Reset, hb] at hr
  | some buf =>
    have hcap : capacity b = buf.bufSize := by simp [capacity, hb]
    have hc := Reset_capacity env b r buf hb hr
    rw [hcap] at hfit ⊢
    have hrec : lastWriteBufferSize r b.fNextBufferSizeRecord.toNat =
        b.fObjlen + b.fKeylen := by
      unfold Reset at hr
      rw [hb] at hr
      simp only [Option.some.injEq] at hr
      subst hr
      simp [lastWriteBufferSize, List.getD, hslot]
    refine ⟨hrec, ?_, ?_⟩
    · intro htarget
      rw [htarget] at hc
      rw [hrec, hc]
      split_ifs with h
      · exact le_of_lt (historicalAverageSize_gt env _ _ h)
      · exact hfit
    · intro htarget
      generalize historicalAverageSize env buf.bufSize (b.fObjlen + b.fKeylen) = H at hc htarget ⊢
      have ht := tmod_512_lt (env.targetSize (max (lastWriteBufferSize b 0)
        (max (lastWriteBufferSize b 1) (lastWriteBufferSize b 2))))
      unfold targetRatioSize at hc htarget
      simp only at hc htarget
      by_cases h1 : max (lastWriteBufferSize b 0)
            (max (lastWriteBufferSize b 1) (lastWriteBufferSize b 2)) ≠ 0 ∧
          buf.bufSize > env.targetSize (max (lastWriteBufferSize b 0)
            (max (lastWriteBufferSize b 1) (lastWriteBufferSize b 2))) ∧ H = -1
      · rw [if_pos h1] at hc htarget
        by_cases h2 : env.targetSize (max (lastWriteBufferSize b 0)
              (max (lastWriteBufferSize b 1) (lastWriteBufferSize b 2))) + 512 -
              Int.tmod (env.targetSize (max (lastWriteBufferSize b 0)
                (max (lastWriteBufferSize b 1) (lastWriteBufferSize b 2)))) 512 >
              buf.bufSize - 8 * 1024 ∨
            env.ratioBelow buf.bufSize
              (env.targetSize (max (lastWriteBufferSize b 0)
                (max (lastWriteBufferSize b 1) (lastWriteBufferSize b 2))) + 512 -
              Int.tmod (env.targetSize (max (lastWriteBufferSize b 0)
                (max (lastWriteBufferSize b 1) (lastWriteBufferSize b 2)))) 512) = true
        · rw [if_pos h2] at htarget
          exact absurd h1.2.2.symm htarget
        · rw [if_neg h2] at hc htarget
          rw [if_pos (by rw [h1.2.2] at htarget; exact htarget)] at hc
          rw [not_or] at h2
          rw [hc]
          refine ⟨h1.2.2, rfl, by omega, by omega, ?_⟩
          simpa using h2.2
      · rw [if_neg h1] at htarget
        exact absurd rfl htarget

/-- Witness for `Reset_capacity_ge_flushed_length`: the second basket of the C9
counterexample, resized by the target-memory-ratio block to
`1100 + 512 - 1100 % 512 = 1536` bytes. -/
theorem Reset_capacity_ge_flushed_length_witness :
    lastWriteBufferSize
        ((Reset (sampleResetEnv 32000 100000 1)
          (sampleResetBasket 49920 65536 [1000, 1000, 1000] 0)).getD
          (sampleResetBasket 0 0 [] 0)) 0 = 50000 ∧
    capacity ((Reset (sampleResetEnv 32000 100000 1)
        (sampleResetBasket 49920 65536 [1000, 1000, 1000] 0)).getD
        (sampleResetBasket 0 0 [] 0)) = 1100 + 512 - Int.tmod 1100 512 ∧
    capacity ((Reset (sampleResetEnv 32000 100000 1)
        (sampleResetBasket 49920 65536 [1000, 1000, 1000] 0)).getD
        (sampleResetBasket 0 0 [] 0)) ≤ 65536 - 8 * 1024 :=
  have h := Reset_capacity_ge_flushed_length (sampleResetEnv 32000 100000 1)
    (sampleResetBasket 49920 65536 [1000, 1000, 1000] 0)
    ((Reset (sampleResetEnv 32000 100000 1)
      (sampleResetBasket 49920 65536 [1000, 1000, 1000] 0)).getD
      (sampleResetBasket 0 0 [] 0)) (by decide) (by decide) (by decide)
  ⟨h.1, (h.2.2 (by decide)).2.1, (h.2.2 (by decide)).2.2.2.1⟩

/-- C10 (counterexample): with nominal size 1024 (already a multiple of 512),
occupied length 100 and average 150 in a 5000-byte buffer, `Reset` resizes to
1536 bytes, not to 1024, the least multiple of 512 not below the maximum. -/
theorem Reset_aligned_maximum_gets_extra_block :
    (5000 : Int) > 2 * 100 ∧ (5000 : Int) > 2 * 1024 ∧
    (5000 : Int) > 2 * Int.tdiv 600 (1 + 3) ∧
    alignUp512 (max 1024 (max 100 (Int.tdiv 600 (1 + 3)))) = 1024 ∧
    (Reset (sampleResetEnv 1024 600 3) (sampleResetBasket 20 5000 [250, 150, 200] 0)).map
      capacity = some 1536 := by
  decide

/-- C10 (amended): when the capacity exceeds twice the just-flushed occupied
length (which is not negative), twice the nominal basket size and twice the
average bytes per basket, `Reset` resizes the buffer to the least multiple of
512 strictly above `max(nominal size, occupied length, average)`: the new
capacity is a multiple of 512, exceeds the maximum, and by at most 512. -/
theorem Reset_historical_average_rule (env : ResetEnv) (b r : Basket)
    (hr : Reset env b = some r)
    (hlen : 0 ≤ b.fObjlen + b.fKeylen)
    (h1 : capacity b > 2 * (b.fObjlen + b.fKeylen))
    (h2 : capacity b > 2 * env.basketSize)
    (h3 : capacity b > 2 * Int.tdiv env.totBytes (1 + env.writeBasket)) :
    (512 : Int) ∣ capacity r ∧
    max env.basketSize (max (b.fObjlen + b.fKeylen)
      (Int.tdiv env.totBytes (1 + env.writeBasket))) < capacity r ∧
    capacity r ≤ max env.basketSize (max (b.fObjlen + b.fKeylen)
      (Int.tdiv env.totBytes (1 + env.writeBasket))) + 512 := by
  cases hb : b.fBufferRef with
  | none => simp [Reset, hb] at hr
  | some buf =>
    have hcap : capacity b = buf.bufSize := by simp [capacity, hb]
    have hc := Reset_capacity env b r buf hb hr
    rw [hcap] at h1 h2 h3
    generalize hm : max env.basketSize (max (b.fObjlen + b.fKeylen)
      (Int.tdiv env.totBytes (1 + env.writeBasket))) = m
    have hm0 : 0 ≤ m := by rw [← hm]; omega
    have hh : historicalAverageSize env buf.bufSize (b.fObjlen + b.fKeylen) =
        m + 512 - Int.tmod m 512 := by
      unfold historicalAverageSize
      simp only [gt_iff_lt, h1, h2, h3, if_true]
      rw [← hm]
      split_ifs <;> congr 2 <;> omega
    have hmod : Int.tmod m 512 = m % 512 := Int.tmod_eq_emod hm0 (by norm_num)
    have hne : m + 512 - Int.tmod m 512 ≠ -1 := by rw [hmod]; omega
    have ht : targetRatioSize env b buf.bufSize (m + 512 - Int.tmod m 512) =
        m + 512 - Int.tmod m 512 := by
      unfold targetRatioSize
      simp only [hne, and_false, if_false]
    rw [hh, ht, if_pos hne, hmod] at hc
    rw [hc]
    refine ⟨?_, by omega, by omega⟩
    have : m + 512 - m % 512 = 512 * (m / 512 + 1) := by omega
    rw [this]
    exact Dvd.intro _ rfl

/-- Witness for `Reset_historical_average_rule`: the basket of the C10
counterexample. -/
theorem Reset_historical_average_rule_witness :
    (512 : Int) ∣ capacity ((Reset (sampleResetEnv 1024 600 3)
        (sampleResetBasket 20 5000 [250, 150, 200] 0)).getD (sampleResetBasket 0 0 [] 0)) ∧
    max (sampleResetEnv 1024 600 3).basketSize
        (max ((sampleResetBasket 20 5000 [250, 150, 200] 0).fObjlen +
            (sampleResetBasket 20 5000 [250, 150, 200] 0).fKeylen)
          (Int.tdiv (sampleResetEnv 1024 600 3).totBytes
            (1 + (sampleResetEnv 1024 600 3).writeBasket))) <
      capacity ((Reset (sampleResetEnv 1024 600 3)
        (sampleResetBasket 20 5000 [250, 150, 200] 0)).getD (sampleResetBasket 0 0 [] 0)) ∧
    capacity ((Reset (sampleResetEnv 1024 600 3)
        (sampleResetBasket 20 5000 [250, 150, 200] 0)).getD (sampleResetBasket 0 0 [] 0)) ≤
      max (sampleResetEnv 1024 600 3).basketSize
        (max ((sampleResetBasket 20 5000 [250, 150, 200] 0).fObjlen +
            (sampleResetBasket 20 5000 [250, 150, 200] 0).fKeylen)
          (Int.tdiv (sampleResetEnv 1024 600 3).totBytes
            (1 + (sampleResetEnv 1024 600 3).writeBasket))) + 512 :=
  Reset_historical_average_rule (sampleResetEnv 1024 600 3)
    (sampleResetBasket 20 5000 [250, 150, 200] 0) _ (by decide) (by decide) (by decide)
    (by decide) (by decide)

/-- C11: let `cand` be the size the target-memory-ratio block of `Reset`
computes, `target_size + 512 - target_size % 512` for the target size of the
largest of the three recorded occupied sizes.  When the historical-average
block has asked for no resize: if `Reset` resizes the buffer, the new capacity
is `cand` and it is at least 8192 bytes below the old capacity; and if adopting
`cand` would save less than 8192 bytes, `Reset` does not resize and the
capacity stays what it was. -/
theorem Reset_target_ratio_saves_8192 (env : ResetEnv) (b r : Basket)
    (hr : Reset env b = some r)
    (hhist : historicalAverageSize env (capacity b) (b.fObjlen + b.fKeylen) = -1) :
    (r.fResetAllocation = true →
      capacity r = env.targetSize (max (lastWriteBufferSize b 0)
          (max (lastWriteBufferSize b 1) (lastWriteBufferSize b 2))) + 512 -
        Int.tmod (env.targetSize (max (lastWriteBufferSize b 0)
          (max (lastWriteBufferSize b 1) (lastWriteBufferSize b 2)))) 512 ∧
      capacity r + 8 * 1024 ≤ capacity b) ∧
    (capacity b - (env.targetSize (max (lastWriteBufferSize b 0)
          (max (lastWriteBufferSize b 1) (lastWriteBufferSize b 2))) + 512 -
        Int.tmod (env.targetSize (max (lastWriteBufferSize b 0)
          (max (lastWriteBufferSize b 1) (lastWriteBufferSize b 2)))) 512) < 8 * 1024 →
      r.fResetAllocation = false ∧ capacity r = capacity b) := by
  cases hb : b.fBufferRef with
  | none => simp [Reset, hb] at hr
  | some buf =>
    have hcap : capacity b = buf.bufSize := by simp [capacity, hb]
    have hc := Reset_capacity env b r buf hb hr
    rw [hcap] at hhist ⊢
    have hflag : r.fResetAllocation = decide (targetRatioSize env b buf.bufSize
        (historicalAverageSize env buf.bufSize (b.fObjlen + b.fKeylen)) ≠ -1) := by
      unfold Reset at hr
      rw [hb] at hr
      simp only [Option.some.injEq] at hr
      subst hr
      rfl
    rw [hhist] at hc hflag
    have ht : targetRatioSize env b buf.bufSize (-1) = -1 ∨
        (targetRatioSize env b buf.bufSize (-1) =
            env.targetSize (max (lastWriteBufferSize b 0)
              (max (lastWriteBufferSize b 1) (lastWriteBufferSize b 2))) + 512 -
            Int.tmod (env.targetSize (max (lastWriteBufferSize b 0)
              (max (lastWriteBufferSize b 1) (lastWriteBufferSize b 2)))) 512 ∧
          env.targetSize (max (lastWriteBufferSize b 0)
              (max (lastWriteBufferSize b 1) (lastWriteBufferSize b 2))) + 512 -
            Int.tmod (env.targetSize (max (lastWriteBufferSize b 0)
              (max (lastWriteBufferSize b 1) (lastWriteBufferSize b 2)))) 512 ≤
            buf.bufSize - 8 * 1024) := by
      unfold targetRatioSize
      simp only
      split_ifs with h1 h2
      · left; rfl
      · right; exact ⟨rfl, by omega⟩
      · left; rfl
    generalize env.targetSize (max (lastWriteBufferSize b 0)
      (max (lastWriteBufferSize b 1) (lastWriteBufferSize b 2))) = t at *
    rcases ht with ht | ⟨ht, hle⟩
    · rw [ht] at hc hflag
      simp only [ne_eq, not_true_eq_false, decide_False, if_false] at hc hflag
      refine ⟨fun h => ?_, fun _ => ⟨hflag, hc⟩⟩
      rw [hflag] at h
      exact absurd h (by simp)
    · rw [ht] at hc hflag
      by_cases hne : t + 512 - Int.tmod t 512 = -1
      · rw [hne] at hc hflag
        simp only [ne_eq, not_true_eq_false, decide_False, if_false] at hc hflag
        refine ⟨fun h => ?_, fun _ => ⟨hflag, hc⟩⟩
        rw [hflag] at h
        exact absurd h (by simp)
      · rw [if_pos hne] at hc
        refine ⟨fun _ => ⟨hc, by rw [hc]; omega⟩, fun h => ?_⟩
        omega

/-- Witness for `Reset_target_ratio_saves_8192`: a 100000-byte buffer whose
largest recorded occupied size is 50000 is resized to 55296 bytes. -/
theorem Reset_target_ratio_saves_8192_witness :
    capacity ((Reset (sampleResetEnv 100000 130900 1)
        (sampleResetBasket 820 100000 [50000, 0, 0] 1)).getD (sampleResetBasket 0 0 [] 0)) =
      55296 ∧
    capacity ((Reset (sampleResetEnv 100000 130900 1)
        (sampleResetBasket 820 100000 [50000, 0, 0] 1)).getD (sampleResetBasket 0 0 [] 0)) +
      8 * 1024 ≤ capacity (sampleResetBasket 820 100000 [50000, 0, 0] 1) :=
  (Reset_target_ratio_saves_8192 (sampleResetEnv 100000 130900 1)
    (sampleResetBasket 820 100000 [50000, 0, 0] 1) _ (by decide) (by decide)).1 (by decide)

end TBasket

namespace PyROOT

/-! ## `ClusterBuffer::ReadOne` -/

theorem CopyToExtra_bfEntryEnd (c : ClusterBuffer) (k : Int) :
    (c.CopyToExtra k).bfEntryEnd = c.bfEntryEnd := by
  unfold ClusterBuffer.CopyToExtra
  simp only
  split_ifs <;> rfl

theorem startUsingExtra_bfEntryEnd (c : ClusterBuffer) (k : Int) :
    (c.startUsingExtra k).bfEntryEnd = c.bfEntryEnd := by
  unfold ClusterBuffer.startUsingExtra
  split_ifs
  · exact CopyToExtra_bfEntryEnd c 0
  · rfl

theorem swapBytes_bfEntryEnd (c d : ClusterBuffer) (n : Int) (h : c.swapBytes n = some d) :
    d.bfEntryEnd = c.bfEntryEnd := by
  unfold ClusterBuffer.swapBytes at h
  split_ifs at h <;> simp only [Option.some.injEq] at h <;> subst h <;> rfl

theorem updateRange_error (c : ClusterBuffer) (n k : Int) (e : Option ErrorString) :
    (c.updateRange n k e).2 = if n ≤ 0 then some ErrorString.failedToRead else e := by
  unfold ClusterBuffer.updateRange
  simp only
  split_ifs <;> rfl

theorem updateRange_bfEntryEnd (c : ClusterBuffer) (n k : Int) (e : Option ErrorString)
    (h : 0 < n) : (c.updateRange n k e).1.bfEntryEnd = c.bfEntryEnd + n := by
  unfold ClusterBuffer.updateRange
  simp only [not_le.mpr h, if_false]
  split_ifs
  · exact CopyToExtra_bfEntryEnd _ k
  · rfl

/-- A basket read that delivers no entries always leaves `error_string` set. -/
theorem ReadOne_error_of_nonpos (bulk : Int → Delivery) (c : ClusterBuffer) (k : Int)
    (e : Option ErrorString) (h : (bulk c.bfEntryEnd).numentries ≤ 0) :
    (c.ReadOne bulk k e).2 ≠ none := by
  unfold ClusterBuffer.ReadOne
  simp only [startUsingExtra_bfEntryEnd]
  split
  · simp
  · rw [updateRange_error, if_pos h]; simp

/-- A basket read after which `error_string` is null delivered at least one
entry and advanced `EntryEnd()` by the delivered count. -/
theorem ReadOne_ok (bulk : Int → Delivery) (c : ClusterBuffer) (k : Int)
    (e : Option ErrorString) (h : (c.ReadOne bulk k e).2 = none) :
    0 < (bulk c.bfEntryEnd).numentries ∧
    (c.ReadOne bulk k e).1.bfEntryEnd = c.bfEntryEnd + (bulk c.bfEntryEnd).numentries := by
  unfold ClusterBuffer.ReadOne at h ⊢
  simp only [startUsingExtra_bfEntryEnd] at h ⊢
  split at h
  · simp at h
  · rename_i d hd
    rw [updateRange_error] at h
    have hpos : 0 < (bulk c.bfEntryEnd).numentries := by
      by_contra hn
      rw [if_pos (not_lt.mp hn)] at h
      simp at h
    refine ⟨hpos, ?_⟩
    rw [updateRange_bfEntryEnd _ _ _ _ hpos, swapBytes_bfEntryEnd _ _ _ hd]

/-! ## `NumpyIterator::StepForward` -/

theorem advanceFront_spec (bulk : Nat → Int → Delivery) (start : Int)
    (cs : List ClusterBuffer) :
    ∀ (i : Nat) (e : Option ErrorString),
      ((advanceFront bulk start e i cs).returned = true →
        (advanceFront bulk start e i cs).error_string ≠ none) ∧
      ((∃ n ∈ (advanceFront bulk start e i cs).reads, n ≤ 0) →
        (advanceFront bulk start e i cs).returned = true) := by
  induction cs with
  | nil => intro i e; simp [advanceFront]
  | cons c cs ih =>
    intro i e
    by_cases h1 : c.EntryEnd = start
    · by_cases h2 : (c.ReadOne (bulk i) start e).2 = none
      · obtain ⟨ha, hb⟩ := ih (i + 1) (c.ReadOne (bulk i) start e).2
        simp only [advanceFront, h1, h2, if_true, ne_eq, not_true_eq_false, if_false]
        refine ⟨by simpa [h2] using ha, ?_⟩
        rintro ⟨n, hn, hle⟩
        simp only [List.mem_cons] at hn
        rcases hn with rfl | hn
        · exact absurd h2 (ReadOne_error_of_nonpos (bulk i) c start e hle)
        · simpa [h2] using hb (by simpa [h2] using ⟨n, hn, hle⟩)
      · simp [advanceFront, h1, h2]
    · simpa [advanceFront, h1] using ih (i + 1) e

theorem catchUp_spec (bulk : Int → Delivery) (start target : Int) (fuel : Nat) :
    ∀ (c : ClusterBuffer) (e : Option ErrorString),
      ((catchUp bulk start target fuel c e).returned = true →
        (catchUp bulk start target fuel c e).error_string ≠ none) ∧
      ((∃ n ∈ (catchUp bulk start target fuel c e).reads, n ≤ 0) →
        (catchUp bulk start target fuel c e).returned = true) ∧
      ((target - c.EntryEnd).toNat ≤ fuel →
        (catchUp bulk start target fuel c e).returned = false →
        target ≤ (catchUp bulk start target fuel c e).buffer.EntryEnd) := by
  induction fuel with
  | zero =>
    intro c e
    simp only [catchUp, Bool.false_eq_true, ne_eq, false_implies, List.not_mem_nil, false_and,
      exists_false, nonpos_iff_eq_zero, true_and, forall_true_left]
    intro h; omega
  | succ fuel ih =>
    intro c e
    by_cases h1 : c.EntryEnd < target
    · by_cases h2 : (c.ReadOne bulk start e).2 = none
      · obtain ⟨ha, hb, hc⟩ := ih (c.ReadOne bulk start e).1 (c.ReadOne bulk start e).2
        obtain ⟨hpos, hend⟩ := ReadOne_ok bulk c start e h2
        simp only [catchUp, h1, h2, if_true, ne_eq, not_true_eq_false, if_false]
        refine ⟨by simpa [h2] using ha, ?_, ?_⟩
        · rintro ⟨n, hn, hle⟩
          simp only [List.mem_cons] at hn
          rcases hn with rfl | hn
          · exact absurd h2 (ReadOne_error_of_nonpos bulk c start e hle)
          · simpa [h2] using hb (by simpa [h2] using ⟨n, hn, hle⟩)
        · intro hfuel hr
          have hgap : (target - (c.ReadOne bulk start e).1.EntryEnd).toNat ≤ fuel := by
            simp only [ClusterBuffer.EntryEnd] at hfuel h1 ⊢
            rw [hend]
            omega
          simpa [h2] using hc hgap (by simpa [h2] using hr)
      · simp [catchUp, h1, h2]
    · simp only [catchUp, h1, if_false, Bool.false_eq_true, ne_eq, false_implies,
        List.not_mem_nil, false_and, exists_false, true_and, forall_true_left]
      intro _; omega

theorem catchUpAll_spec (bulk : Nat → Int → Delivery) (start target : Int)
    (cs : List ClusterBuffer) :
    ∀ (i : Nat) (e : Option ErrorString),
      ((catchUpAll bulk start target e i cs).returned = true →
        (catchUpAll bulk start target e i cs).error_string ≠ none) ∧
      ((∃ n ∈ (catchUpAll bulk start target e i cs).reads, n ≤ 0) →
        (catchUpAll bulk start target e i cs).returned = true) ∧
      ((catchUpAll bulk start target e i cs).returned = false →
        ∀ c ∈ (catchUpAll bulk start target e i cs).buffers, target ≤ c.EntryEnd) := by
  induction cs with
  | nil => intro i e; simp [catchUpAll]
  | cons c cs ih =>
    intro i e
    obtain ⟨ha, hb, hc⟩ :=
      catchUp_spec (bulk i) start target (target - c.EntryEnd).toNat c e
    by_cases h1 : (catchUp (bulk i) start target (target - c.EntryEnd).toNat c e).returned = true
    · simp only [catchUpAll, h1, if_true, forall_true_left, Bool.true_eq_false, false_implies,
        and_true, implies_true]
      exact ha h1
    · simp only [Bool.not_eq_true] at h1
      obtain ⟨ia, ib, ic⟩ := ih (i + 1)
        (catchUp (bulk i) start target (target - c.EntryEnd).toNat c e).error_string
      simp only [catchUpAll, h1, Bool.false_eq_true, if_false]
      refine ⟨ia, ?_, ?_⟩
      · rintro ⟨n, hn, hle⟩
        simp only [List.mem_append] at hn
        rcases hn with hn | hn
        · have := hb ⟨n, hn, hle⟩
          rw [h1] at this
          exact absurd this (by simp)
        · exact ib ⟨n, hn, hle⟩
      · intro hr d hd
        simp only [List.mem_cons] at hd
        rcases hd with rfl | hd
        · exact hc le_rfl h1
        · exact ic hr d hd

theorem StepForward_spec (bulk : Nat → Int → Delivery) (it : NumpyIterator)
    (e : Option ErrorString) :
    ((∃ n ∈ (it.StepForward bulk e).reads, n ≤ 0) →
      (it.StepForward bulk e).done = true ∧ (it.StepForward bulk e).error_string ≠ none) ∧
    ((it.StepForward bulk e).done = false →
      ∀ c ∈ (it.StepForward bulk e).iter.fClusterBuffers,
        (it.StepForward bulk e).iter.fCurrentEnd ≤ c.EntryEnd) := by
  unfold NumpyIterator.StepForward
  simp only
  by_cases h0 : it.fCurrentEnd ≥ it.fNumEntries
  · simp [h0]
  · obtain ⟨a1, b1⟩ := advanceFront_spec bulk it.fCurrentEnd it.fClusterBuffers 0 e
    by_cases h1 : (advanceFront bulk it.fCurrentEnd e 0 it.fClusterBuffers).returned = true
    · simp only [h0, h1, if_true, if_false, Bool.true_eq_false, false_implies, and_true,
        true_and]
      intro _
      exact a1 h1
    · simp only [Bool.not_eq_true] at h1
      obtain ⟨a3, b3, c3⟩ := catchUpAll_spec bulk it.fCurrentEnd
        (maxEntryEnd (-1) (advanceFront bulk it.fCurrentEnd e 0 it.fClusterBuffers).buffers)
        (advanceFront bulk it.fCurrentEnd e 0 it.fClusterBuffers).buffers 0
        (advanceFront bulk it.fCurrentEnd e 0 it.fClusterBuffers).error_string
      simp only [h0, h1, if_false, Bool.false_eq_true]
      refine ⟨?_, c3⟩
      rintro ⟨n, hn, hle⟩
      simp only [List.mem_append] at hn
      rcases hn with hn | hn
      · have := b1 ⟨n, hn, hle⟩
        rw [h1] at this
        exact absurd this (by simp)
      · have hr := b3 ⟨n, hn, hle⟩
        exact ⟨hr, a3 hr⟩

/-- C3: if a basket read performed during `StepForward` (called by `arrays()`
with a null `error_string`) delivers no entries, `StepForward` returns true with
`error_string` set and `arrays()` returns no tuple; and whenever `arrays()` does
return a tuple, every read of that step delivered entries and every cluster
buffer has data up to the end of the returned range. -/
theorem StepForward_truncation (bulk : Nat → Int → Delivery) (it : NumpyIterator) :
    ((∃ n ∈ (it.StepForward bulk none).reads, n ≤ 0) →
      (it.StepForward bulk none).done = true ∧
      (it.StepForward bulk none).error_string ≠ none ∧
      (it.arrays bulk).2 = none) ∧
    (∀ t, (it.arrays bulk).2 = some t →
      (∀ n ∈ (it.StepForward bulk none).reads, 0 < n) ∧
      ∀ c ∈ (it.arrays bulk).1.fClusterBuffers, t.stop ≤ c.EntryEnd) := by
  obtain ⟨ha, hb⟩ := StepForward_spec bulk it none
  refine ⟨?_, ?_⟩
  · intro h
    obtain ⟨hd, he⟩ := ha h
    exact ⟨hd, he, by simp [NumpyIterator.arrays, hd]⟩
  · intro t ht
    by_cases hd : (it.StepForward bulk none).done = true
    · simp [NumpyIterator.arrays, hd] at ht
    · simp only [Bool.not_eq_true] at hd
      simp only [NumpyIterator.arrays, hd, Bool.false_eq_true, if_false, Option.some.injEq] at ht ⊢
      subst ht
      refine ⟨?_, hb hd⟩
      intro n hn
      by_contra hneg
      have := (ha ⟨n, hn, not_lt.mp hneg⟩).1
      rw [hd] at this
      exact absurd this (by simp)

/-- Witness for `StepForward_truncation`: after the range `[0,1)` was handed
out, the second branch delivers basket `[1,2)` and then nothing while the first
branch has reached entry 3; the step ends with `error_string` set and no tuple. -/
theorem StepForward_truncation_witness :
    (∃ n ∈ ((((twoBuffers 3).arrays truncatedBulk).1).StepForward truncatedBulk none).reads,
      n ≤ 0) ∧
    ((((twoBuffers 3).arrays truncatedBulk).1).StepForward truncatedBulk none).done = true ∧
    ((((twoBuffers 3).arrays truncatedBulk).1).StepForward truncatedBulk none).error_string
      ≠ none ∧
    ((((twoBuffers 3).arrays truncatedBulk).1).arrays truncatedBulk).2 = none :=
  ⟨by decide,
    (StepForward_truncation truncatedBulk ((twoBuffers 3).arrays truncatedBulk).1).1
      (by decide)⟩

/-- C2 (evaluation at the failing input): with the branches of `unevenBulk`,
the second call of `arrays()` hands out the range `[1,3)`.  For the second
branch `GetBuffer` points at offset 0 of `fExtra`, but `CopyToExtra` has read
outside `fExtra` (`faulted`) and the two bytes found there are not the bytes
`[21, 22]` that baskets `[1,2)` and `[2,3)` delivered for entries 1 and 2. -/
theorem GetBuffer_loses_staged_entries :
    (((twoBuffers 3).arrays unevenBulk).1.arrays unevenBulk).2 =
      some { start := 1, stop := 3
             arrays := [(2, BufferAddress.inBufferFile 0), (2, BufferAddress.inExtra 0)] } ∧
    (((twoBuffers 3).arrays unevenBulk).1.arrays unevenBulk).1.fClusterBuffers.map
      (fun c => (c.faulted, c.bytesAt (c.GetBuffer 1 3))) =
      [(false, some [11, 12]), (true, some [0, 22])] ∧
    (unevenBulk 1 1).bytes ++ (unevenBulk 1 2).bytes = [21, 22] := by
  decide

/-! ## Zero copy -/

/-- C4 (counterexample): with the branches of `alignedBulk`, the second branch
stages `[0,2)` during the first step.  In the second step the requested range
`[2,4)` is exactly its most recently loaded basket, yet `fExtra` is rewritten
(from `[20, 21]` to `[22, 23]`) and `GetBuffer` points into `fExtra`, not into
the basket buffer. -/
theorem GetBuffer_staged_inside_last_basket :
    ((twoBuffers 4).arrays alignedBulk).1.fClusterBuffers.map
      (fun c => (c.fUsingExtra, c.fExtra)) = [(false, []), (true, [20, 21])] ∧
    (((twoBuffers 4).arrays alignedBulk).1.arrays alignedBulk).1.fClusterBuffers.map
      (fun c => (c.bfEntryStart, c.bfEntryEnd, c.fExtra, c.GetBuffer 2 4)) =
      [(2, 4, [], (2, BufferAddress.inBufferFile 0)),
       (2, 4, [22, 23], (2, BufferAddress.inExtra 0))] := by
  decide

theorem startUsingExtra_not_needed (c : ClusterBuffer) (k : Int)
    (hu : c.fUsingExtra = false) (hk : c.bfEntryEnd ≤ k) : c.startUsingExtra k = c := by
  unfold ClusterBuffer.startUsingExtra
  have : ¬ c.bfEntryEnd > k := not_lt.mpr hk
  simp [hu, this]

theorem swapBytes_frame (c d : ClusterBuffer) (n : Int) (h : c.swapBytes n = some d) :
    d.fExtra = c.fExtra ∧ d.fUsingExtra = c.fUsingExtra ∧ d.fItemSize = c.fItemSize := by
  unfold ClusterBuffer.swapBytes at h
  split_ifs at h <;> simp only [Option.some.injEq] at h <;> subst h <;> exact ⟨rfl, rfl, rfl⟩

theorem updateRange_frame (c : ClusterBuffer) (n k : Int) (e : Option ErrorString)
    (hu : c.fUsingExtra = false) :
    (c.updateRange n k e).1.fExtra = c.fExtra ∧
    (c.updateRange n k e).1.fUsingExtra = false ∧
    (c.updateRange n k e).1.fItemSize = c.fItemSize := by
  unfold ClusterBuffer.updateRange
  simp only
  split_ifs <;> simp_all

/-- While the staging buffer is not in use, a basket read asked to keep
entries from the old `EntryEnd()` on leaves it unused and untouched. -/
theorem ReadOne_frame (bulk : Int → Delivery) (c : ClusterBuffer) (k : Int)
    (e : Option ErrorString) (hu : c.fUsingExtra = false) (hk : c.bfEntryEnd ≤ k) :
    (c.ReadOne bulk k e).1.fExtra = c.fExtra ∧
    (c.ReadOne bulk k e).1.fUsingExtra = false ∧
    (c.ReadOne bulk k e).1.fItemSize = c.fItemSize := by
  unfold ClusterBuffer.ReadOne
  simp only [startUsingExtra_not_needed c k hu hk]
  split
  · exact ⟨rfl, hu, rfl⟩
  · rename_i d hd
    obtain ⟨h1, h2, h3⟩ := swapBytes_frame _ _ _ hd
    obtain ⟨g1, g2, g3⟩ := updateRange_frame d (bulk c.bfEntryEnd).numentries k e
      (by rw [h2]; exact hu)
    exact ⟨by rw [g1, h1], g2, by rw [g3, h3]⟩

theorem startUsingExtra_in_use (c : ClusterBuffer) (k : Int) (hu : c.fUsingExtra = true) :
    c.startUsingExtra k = c := by
  unfold ClusterBuffer.startUsingExtra
  simp [hu]

theorem swapBytes_fields (c d : ClusterBuffer) (n : Int) (h : c.swapBytes n = some d) :
    d.fExtra = c.fExtra ∧ d.fUsingExtra = c.fUsingExtra ∧ d.fItemSize = c.fItemSize ∧
    d.exEntryStart = c.exEntryStart ∧ d.exEntryEnd = c.exEntryEnd := by
  unfold ClusterBuffer.swapBytes at h
  split_ifs at h <;> simp only [Option.some.injEq] at h <;> subst h <;>
    exact ⟨rfl, rfl, rfl, rfl, rfl⟩

/-- What `CopyToExtra(keep_start)` leaves in `fExtra`: the staged entries from
`keep_start` on, followed by the bytes of the basket buffer. -/
theorem CopyToExtra_spec (c : ClusterBuffer) (k : Int) :
    (c.CopyToExtra k).fUsingExtra = c.fUsingExtra ∧
    (c.CopyToExtra k).fItemSize = c.fItemSize ∧
    (c.CopyToExtra k).fBufferFile = c.fBufferFile ∧
    (c.CopyToExtra k).bfEntryStart = c.bfEntryStart ∧
    (c.CopyToExtra k).bfEntryEnd = c.bfEntryEnd ∧
    (c.CopyToExtra k).exEntryStart = (if c.exEntryStart < k then k else c.exEntryStart) ∧
    (c.CopyToExtra k).fExtra =
      (if c.exEntryStart < k then
        readBytes c.fExtra ((k - c.exEntryStart) * c.fItemSize)
          ((c.exEntryEnd - k) * c.fItemSize)
       else c.fExtra) ++
      (if (c.bfEntryEnd - c.bfEntryStart) * c.fItemSize > 0 then
        readBytes c.fBufferFile 0 ((c.bfEntryEnd - c.bfEntryStart) * c.fItemSize)
       else []) := by
  unfold ClusterBuffer.CopyToExtra
  simp only
  split_ifs <;> simp

theorem updateRange_staged (c : ClusterBuffer) (n k : Int) (e : Option ErrorString)
    (hu : c.fUsingExtra = true) :
    (c.updateRange n k e).1 =
      ({ c with bfEntryStart := c.bfEntryEnd
                bfEntryEnd := if n ≤ 0 then c.bfEntryEnd else c.bfEntryEnd + n }).CopyToExtra
        k := by
  unfold ClusterBuffer.updateRange
  simp only
  split_ifs <;> simp_all

/-- A basket read with the staging buffer in use: the buffer stays in use, and
unless the item size is illegal the basket just read is mirrored into
`fExtra` behind the staged entries kept. -/
theorem ReadOne_staged (bulk : Int → Delivery) (c : ClusterBuffer) (k : Int)
    (e : Option ErrorString) (hu : c.fUsingExtra = true) :
    (c.ReadOne bulk k e).1.fUsingExtra = true ∧
    (c.ReadOne bulk k e).1.fItemSize = c.fItemSize ∧
    ((c.ReadOne bulk k e).2 ≠ some ErrorString.illegalItemSize →
      (c.ReadOne bulk k e).1.exEntryStart = (if c.exEntryStart < k then k else c.exEntryStart) ∧
      (c.ReadOne bulk k e).1.fExtra =
        (if c.exEntryStart < k then
          readBytes c.fExtra ((k - c.exEntryStart) * c.fItemSize)
            ((c.exEntryEnd - k) * c.fItemSize)
         else c.fExtra) ++
        (if ((c.ReadOne bulk k e).1.bfEntryEnd - (c.ReadOne bulk k e).1.bfEntryStart) *
            c.fItemSize > 0 then
          readBytes (c.ReadOne bulk k e).1.fBufferFile 0
            (((c.ReadOne bulk k e).1.bfEntryEnd - (c.ReadOne bulk k e).1.bfEntryStart) *
              c.fItemSize)
         else [])) := by
  unfold ClusterBuffer.ReadOne
  simp only [startUsingExtra_in_use c k hu]
  split
  · exact ⟨hu, rfl, fun h => absurd rfl h⟩
  · rename_i d hd
    obtain ⟨h1, h2, h3, h4, h5⟩ := swapBytes_fields _ _ _ hd
    simp only at h1 h2 h3 h4 h5
    have hd2 : d.fUsingExtra = true := by rw [h2]; exact hu
    rw [updateRange_staged d _ k e hd2]
    obtain ⟨g1, g2, g3, g4, g5, g6, g7⟩ := CopyToExtra_spec
      { d with bfEntryStart := d.bfEntryEnd
               bfEntryEnd := if (bulk c.bfEntryEnd).numentries ≤ 0 then d.bfEntryEnd
                             else d.bfEntryEnd + (bulk c.bfEntryEnd).numentries } k
    refine ⟨by rw [g1]; exact hd2, by rw [g2]; exact h3, fun _ => ⟨by rw [g6]; simp only [h4], ?_⟩⟩
    rw [g7, g4, g5, g3]
    simp only [h1, h3, h4, h5]

/-- C4 (amended): as long as the staging buffer is not in use (`fUsingExtra`
is false), reading the next basket while keeping entries from the old
`EntryEnd()` on does not write or resize `fExtra` and leaves it unused; and
for a range `[a, b)` inside the basket just loaded, `GetBuffer` returns the
address inside the basket buffer at byte offset `(a - bfEntryStart) * fItemSize`,
with the `(b - a) * fItemSize` bytes of the range inside the
`(bfEntryEnd - bfEntryStart) * fItemSize` bytes of that basket.  Once the
staging buffer is in use it stays in use, `GetBuffer` returns the address
inside `fExtra` at byte offset `(a - exEntryStart) * fItemSize` for every
range, and every basket read (unless the item size is illegal) is mirrored
into `fExtra`: `fExtra` becomes its bytes from entry `keep_start` on (all of
them when `exEntryStart` is not below `keep_start`) followed by the
`(bfEntryEnd - bfEntryStart) * fItemSize` bytes of the basket just loaded. -/
theorem GetBuffer_zero_copy (bulk : Int → Delivery) (c : ClusterBuffer) (k : Int)
    (e : Option ErrorString) (a b : Int) :
    (c.fUsingExtra = false → c.bfEntryEnd ≤ k → 0 ≤ c.fItemSize →
      (c.ReadOne bulk k e).1.bfEntryStart ≤ a → a ≤ b →
      b ≤ (c.ReadOne bulk k e).1.bfEntryEnd →
      (c.ReadOne bulk k e).1.fExtra = c.fExtra ∧
      (c.ReadOne bulk k e).1.fUsingExtra = false ∧
      (c.ReadOne bulk k e).1.GetBuffer a b =
        ((b - a) * c.fItemSize,
         BufferAddress.inBufferFile
          ((a - (c.ReadOne bulk k e).1.bfEntryStart) * c.fItemSize)) ∧
      0 ≤ (a - (c.ReadOne bulk k e).1.bfEntryStart) * c.fItemSize ∧
      0 ≤ (b - a) * c.fItemSize ∧
      (a - (c.ReadOne bulk k e).1.bfEntryStart) * c.fItemSize + (b - a) * c.fItemSize ≤
        ((c.ReadOne bulk k e).1.bfEntryEnd - (c.ReadOne bulk k e).1.bfEntryStart) *
          c.fItemSize) ∧
    (c.fUsingExtra = true →
      (c.ReadOne bulk k e).1.fUsingExtra = true ∧
      (c.ReadOne bulk k e).1.GetBuffer a b =
        ((b - a) * c.fItemSize,
         BufferAddress.inExtra ((a - (c.ReadOne bulk k e).1.exEntryStart) * c.fItemSize)) ∧
      ((c.ReadOne bulk k e).2 ≠ some ErrorString.illegalItemSize →
        (c.ReadOne bulk k e).1.exEntryStart =
          (if c.exEntryStart < k then k else c.exEntryStart) ∧
        (c.ReadOne bulk k e).1.fExtra =
          (if c.exEntryStart < k then
            readBytes c.fExtra ((k - c.exEntryStart) * c.fItemSize)
              ((c.exEntryEnd - k) * c.fItemSize)
           else c.fExtra) ++
          (if ((c.ReadOne bulk k e).1.bfEntryEnd - (c.ReadOne bulk k e).1.bfEntryStart) *
              c.fItemSize > 0 then
            readBytes (c.ReadOne bulk k e).1.fBufferFile 0
              (((c.ReadOne bulk k e).1.bfEntryEnd - (c.ReadOne bulk k e).1.bfEntryStart) *
                c.fItemSize)
           else []))) := by
  constructor
  · intro hu hk hi ha hab hb
    obtain ⟨h1, h2, h3⟩ := ReadOne_frame bulk c k e hu hk
    refine ⟨h1, h2, ?_, ?_, ?_, ?_⟩
    · simp [ClusterBuffer.GetBuffer, h2, h3]
    · exact mul_nonneg (by omega) hi
    · exact mul_nonneg (by omega) hi
    · rw [← add_mul]
      exact mul_le_mul_of_nonneg_right (by omega) hi
  · intro hu
    obtain ⟨h1, h2, h3⟩ := ReadOne_staged bulk c k e hu
    refine ⟨h1, ?_, h3⟩
    simp [ClusterBuffer.GetBuffer, h1, h2]

/-- Witness for `GetBuffer_zero_copy`: the first read of a fresh buffer on the
first branch of `alignedBulk`, serving the range `[0,2)` from the basket
buffer; and the read of basket `[2,4)` of the second branch after the first
step, where the staged bytes `[20, 21]` of `[0,2)` are dropped, the basket is
mirrored and the range `[2,4)` is served from `fExtra`. -/
theorem GetBuffer_zero_copy_witness :
    (((ClusterBuffer.init 1 false).ReadOne (alignedBulk 0) 0 none).1.fExtra = [] ∧
    ((ClusterBuffer.init 1 false).ReadOne (alignedBulk 0) 0 none).1.fUsingExtra = false ∧
    ((ClusterBuffer.init 1 false).ReadOne (alignedBulk 0) 0 none).1.GetBuffer 0 2 =
      ((2 - 0) * 1, BufferAddress.inBufferFile
        ((0 - ((ClusterBuffer.init 1 false).ReadOne (alignedBulk 0) 0 none).1.bfEntryStart) * 1))) ∧
    ((ClusterBuffer.init 1 false).ReadOne (alignedBulk 0) 0 none).1.bytesAt
      (((ClusterBuffer.init 1 false).ReadOne (alignedBulk 0) 0 none).1.GetBuffer 0 2) =
      some [10, 11] ∧
    (stagedAligned.fUsingExtra, stagedAligned.fExtra, stagedAligned.bfEntryStart,
      stagedAligned.bfEntryEnd) = (true, [20, 21], 1, 2) ∧
    ((stagedAligned.ReadOne (alignedBulk 1) 2 none).1.fUsingExtra = true ∧
    (stagedAligned.ReadOne (alignedBulk 1) 2 none).1.GetBuffer 2 4 =
      ((4 - 2) * stagedAligned.fItemSize, BufferAddress.inExtra
        ((2 - (stagedAligned.ReadOne (alignedBulk 1) 2 none).1.exEntryStart) *
          stagedAligned.fItemSize))) ∧
    ((stagedAligned.ReadOne (alignedBulk 1) 2 none).1.fExtra,
      (stagedAligned.ReadOne (alignedBulk 1) 2 none).1.GetBuffer 2 4) =
      ([22, 23], (2, BufferAddress.inExtra 0)) := by
  have h := (GetBuffer_zero_copy (alignedBulk 0) (ClusterBuffer.init 1 false) 0 none 0 2).1
    (by decide) (by decide) (by decide) (by decide) (by decide) (by decide)
  have g := (GetBuffer_zero_copy (alignedBulk 1) stagedAligned 2 none 2 4).2 (by decide)
  exact ⟨⟨h.1, h.2.1, h.2.2.1⟩, by decide, by decide, ⟨g.1, g.2.1⟩, by decide⟩

end PyROOT

namespace TBasket

/-! ## `ReadBasketBuffers` -/

/-- The decompression loop does not run out of iterations. -/
theorem unzipLoop_terminates (env : Codec) (oldCase : Bool) (fObjlen : Int) (comp : Bytes)
    (fuel : Nat) :
    ∀ (nintot noutot : Int) (out : Bytes), (fObjlen - noutot).toNat < fuel →
      unzipLoop env oldCase fObjlen comp fuel nintot noutot out ≠ UnzipExit.outOfFuel := by
  induction fuel with
  | zero => intro _ _ _ h; omega
  | succ fuel ih =>
    intro nintot noutot out hfuel
    unfold unzipLoop
    cases hh : env.unzipHeader (comp.drop nintot.toNat) with
    | none => simp
    | some p =>
      obtain ⟨nin, nbuf⟩ := p
      simp only
      split_ifs with h0 h1 h2
      · simp
      · simp
      · simp
      · exact ih _ _ _ (by omega)

/-- Outside the legacy case the decompression loop is always left through
`break`. -/
theorem unzipLoop_done (env : Codec) (fObjlen : Int) (comp : Bytes) (fuel : Nat) :
    ∀ (nintot noutot : Int) (out : Bytes), (fObjlen - noutot).toNat < fuel →
      ∃ why ni no o,
        unzipLoop env false fObjlen comp fuel nintot noutot out =
          UnzipExit.done why ni no o := by
  induction fuel with
  | zero => intro _ _ _ h; omega
  | succ fuel ih =>
    intro nintot noutot out hfuel
    unfold unzipLoop
    cases hh : env.unzipHeader (comp.drop nintot.toNat) with
    | none => exact ⟨_, _, _, _, rfl⟩
    | some p =>
      obtain ⟨nin, nbuf⟩ := p
      simp only [Bool.false_and, Bool.false_eq_true, if_false]
      split_ifs with h1 h2
      · exact ⟨_, _, _, _, rfl⟩
      · exact ⟨_, _, _, _, rfl⟩
      · exact ih _ _ _ (by omega)

/-- When the decompression loop is left through `break`: if enough bytes were
produced, `noutot` has reached `fObjlen`; otherwise `noutot` is still the
initial value or below `fObjlen`. -/
theorem unzipLoop_spec (env : Codec) (oldCase : Bool) (fObjlen : Int) (comp : Bytes)
    (fuel : Nat) :
    ∀ (nintot noutot : Int) (out : Bytes) (why : UnzipBreak) (ni no : Int) (o : Bytes),
      unzipLoop env oldCase fObjlen comp fuel nintot noutot out = UnzipExit.done why ni no o →
        (why = UnzipBreak.full → fObjlen ≤ no) ∧
        (why ≠ UnzipBreak.full → no = noutot ∨ no < fObjlen) := by
  induction fuel with
  | zero => intro _ _ _ _ _ _ _ h; simp [unzipLoop] at h
  | succ fuel ih =>
    intro nintot noutot out why ni no o h
    unfold unzipLoop at h
    cases hh : env.unzipHeader (comp.drop nintot.toNat) with
    | none =>
      rw [hh] at h
      simp only [UnzipExit.done.injEq] at h
      obtain ⟨rfl, _, rfl, _⟩ := h
      simp
    | some p =>
      obtain ⟨nin, nbuf⟩ := p
      rw [hh] at h
      simp only at h
      split_ifs at h with h0 h1 h2
      · simp only [UnzipExit.done.injEq] at h
        obtain ⟨rfl, _, rfl, _⟩ := h
        simp
      · simp only [UnzipExit.done.injEq] at h
        obtain ⟨rfl, _, rfl, _⟩ := h
        exact ⟨fun _ => h2, by simp⟩
      · obtain ⟨hf, hn⟩ := ih _ _ _ _ _ _ _ h
        refine ⟨hf, fun hw => ?_⟩
        rcases hn hw with h' | h'
        · right; omega
        · right; exact h'

theorem afterBuffer_ret (env : Codec) (br : Branch) (b : Basket) (len : Int)
    (buf : TBuffer) (hb : b.fBufferRef = some buf) :
    ∃ r, afterBuffer env br b len = some r ∧ r.ret = 0 := by
  unfold afterBuffer
  split_ifs
  · exact ⟨_, rfl, rfl⟩
  · rw [hb]
    dsimp only
    cases h1 : env.readArray (buf.data.drop b.fLast.toNat) with
    | none => exact ⟨_, rfl, rfl⟩
    | some p =>
      obtain ⟨offsets, used⟩ := p
      dsimp only
      split_ifs
      · cases h2 : env.readArray (buf.data.drop (b.fLast + used).toNat) with
        | none => exact ⟨_, rfl, rfl⟩
        | some q => exact ⟨_, rfl, rfl⟩
      · exact ⟨_, rfl, rfl⟩

theorem oldCaseExpression_of_compressed (br : Branch) (version : Int) (b : Basket)
    (h : b.fObjlen > b.fNbytes - b.fKeylen) : oldCaseExpression br version b = false := by
  unfold oldCaseExpression
  have : ¬ b.fObjlen = b.fNbytes - b.fKeylen := by omega
  simp [this]

/-- The result of `uncompress` when the record is taken for a compressed one,
the bypass is not taken and the decompression loop is left through `break`:
1 when the total differs from `fObjlen`, otherwise what `AfterBuffer:` gives,
which is 0. -/
theorem uncompress_done (env : Codec) (br : Branch) (version : Int) (raw : Bytes) (len : Int)
    (b1 : Basket) (why : UnzipBreak) (ni no : Int) (o : Bytes)
    (hclass : (decide (b1.fObjlen > b1.fNbytes - b1.fKeylen) ||
      oldCaseExpression br version b1) = true)
    (hbypass : ¬ (b1.notDecompressed = true ∧ b1.fNevBuf = 1))
    (hloop : unzipObject env (oldCaseExpression br version b1) b1.fObjlen b1.fKeylen raw =
      UnzipExit.done why ni no o) :
    ∃ r, uncompress env br version raw len b1 = some r ∧
      (no ≠ b1.fObjlen → r.ret = 1) ∧ (no = b1.fObjlen → r.ret = 0) := by
  have hold : ∀ own : TBuffer, oldCaseExpression br version
      { b1 with fBufferRef := some own, fBuffer := BufferPtr.ownBuffer } =
      oldCaseExpression br version b1 := fun _ => rfl
  have hby : (b1.notDecompressed && decide (b1.fNevBuf = 1)) = false := by
    cases hn : b1.notDecompressed with
    | false => simp
    | true =>
      have : ¬ b1.fNevBuf = 1 := fun h => hbypass ⟨hn, h⟩
      simp [this]
  by_cases hne : no = b1.fObjlen
  · obtain ⟨r, hr, hret⟩ := afterBuffer_ret env br
      { b1 with
        fBufferRef := some
          { R__InitializeReadBasketBuffer b1.fBufferRef
              (if len > b1.fObjlen + b1.fKeylen then len else b1.fObjlen + b1.fKeylen) with
            data := writeAt (writeAt (R__InitializeReadBasketBuffer b1.fBufferRef
              (if len > b1.fObjlen + b1.fKeylen then len else b1.fObjlen + b1.fKeylen)).data 0
                (readBytes raw 0 b1.fKeylen)) b1.fKeylen.toNat o }
        fBuffer := BufferPtr.ownBuffer } (b1.fObjlen + b1.fKeylen) _ rfl
    refine ⟨r, ?_, fun h => absurd hne h, fun _ => hret⟩
    unfold uncompress
    simp only [hold, hclass, if_true, hby, Bool.false_eq_true, if_false, hloop, hne, ne_eq,
      not_true_eq_false]
    exact hr
  · have hR : ∃ r, uncompress env br version raw len b1 = some r ∧ r.ret = 1 := by
      unfold uncompress
      simp only [hold, hclass, if_true, hby, Bool.false_eq_true, if_false, hloop, hne, ne_eq,
        not_false_eq_true]
      exact ⟨_, rfl, rfl⟩
    obtain ⟨r, hr, hret⟩ := hR
    exact ⟨r, hr, fun _ => hret, fun h => absurd h hne⟩

/-- C6: whenever `ReadBasketBuffers` reaches the decoding of a record that it
takes for a compressed one (`fObjlen > fNbytes - fKeylen`, or the legacy case)
and the single-entry bypass is not taken, the decompression loop terminates,
and when it is left through `break` with the total `noutot`, the function
returns 1 if `noutot` differs from `fObjlen` and 0 if they agree.  A loop left
because a chunk header failed validation has `noutot` below a positive
`fObjlen`, a loop left because enough bytes were produced has
`noutot >= fObjlen`: a shortfall and an excess are both reported as failure.
For a record with `fObjlen > fNbytes - fKeylen` the loop is always left through
`break`. -/
theorem ReadBasketBuffers_size_mismatch (env : Codec) (br : Branch) (file : ReadFile)
    (len : Int) (b b1 : Basket) (raw : Bytes)
    (hstage : readStage env br file len b = some (ReadStage.decode raw b1))
    (hclass : (decide (b1.fObjlen > b1.fNbytes - b1.fKeylen) ||
      oldCaseExpression br file.version b1) = true)
    (hbypass : ¬ (b1.notDecompressed = true ∧ b1.fNevBuf = 1)) :
    unzipObject env (oldCaseExpression br file.version b1) b1.fObjlen b1.fKeylen raw ≠
      UnzipExit.outOfFuel ∧
    (b1.fObjlen > b1.fNbytes - b1.fKeylen →
      ∃ why nintot noutot out,
        unzipObject env (oldCaseExpression br file.version b1) b1.fObjlen b1.fKeylen raw =
          UnzipExit.done why nintot noutot out) ∧
    (∀ why nintot noutot out,
      unzipObject env (oldCaseExpression br file.version b1) b1.fObjlen b1.fKeylen raw =
        UnzipExit.done why nintot noutot out →
      (∃ r, ReadBasketBuffers env br file len b = some r ∧
        (noutot ≠ b1.fObjlen → r.ret = 1) ∧ (noutot = b1.fObjlen → r.ret = 0)) ∧
      (why = UnzipBreak.headerError → 0 < b1.fObjlen → noutot < b1.fObjlen) ∧
      (why = UnzipBreak.full → b1.fObjlen ≤ noutot)) := by
  refine ⟨?_, ?_, ?_⟩
  · exact unzipLoop_terminates env _ b1.fObjlen _ (b1.fObjlen.toNat + 1) 0 0 [] (by omega)
  · intro hcomp
    rw [oldCaseExpression_of_compressed br file.version b1 hcomp]
    exact unzipLoop_done env b1.fObjlen _ (b1.fObjlen.toNat + 1) 0 0 [] (by omega)
  · intro why ni no o hloop
    obtain ⟨hfull, hnot⟩ := unzipLoop_spec env _ b1.fObjlen _ _ 0 0 [] why ni no o hloop
    obtain ⟨r, hr, h1, h0⟩ :=
      uncompress_done env br file.version raw len b1 why ni no o hclass hbypass hloop
    refine ⟨⟨r, ?_, h1, h0⟩, ?_, hfull⟩
    · unfold ReadBasketBuffers
      rw [hstage]
      exact hr
    · intro hw hpos
      rcases hnot (by rw [hw]; simp) with h | h <;> omega

/-- Witness for `ReadBasketBuffers_size_mismatch`: reading `damagedRecord`, the
header of the second chunk fails validation after 4 of the 8 bytes were
produced; the call returns 1. -/
theorem ReadBasketBuffers_size_mismatch_witness :
    (unzipObject sampleCodec (oldCaseExpression (sampleBranch 5 0) 61000 damagedHeaderBasket)
        damagedHeaderBasket.fObjlen damagedHeaderBasket.fKeylen damagedRecord =
      UnzipExit.done UnzipBreak.headerError 4 4 [1, 2, 0, 0]) ∧
    (∃ r, ReadBasketBuffers sampleCodec (sampleBranch 5 0) (fileWith damagedRecord) 15
        emptyBasket = some r ∧
      ((4 : Int) ≠ damagedHeaderBasket.fObjlen → r.ret = 1) ∧
      ((4 : Int) = damagedHeaderBasket.fObjlen → r.ret = 0)) ∧
    (ReadBasketBuffers sampleCodec (sampleBranch 5 0) (fileWith damagedRecord) 15
      emptyBasket).map (·.ret) = some 1 :=
  ⟨by decide,
    ((ReadBasketBuffers_size_mismatch sampleCodec (sampleBranch 5 0) (fileWith damagedRecord) 15
      emptyBasket damagedHeaderBasket damagedRecord (by decide) (by decide) (by decide)).2.2
        UnzipBreak.headerError 4 4 [1, 2, 0, 0] (by decide)).1,
    by decide⟩

/-! ## The sample compression library is lossless -/

theorem takeWhile_zero (l : Bytes) :
    l.takeWhile (· == 0) = List.replicate (l.takeWhile (· == 0)).length 0 := by
  induction l with
  | nil => simp
  | cons a l ih =>
    by_cases h : a = 0
    · subst h
      simp only [List.takeWhile_cons, beq_self_eq_true, if_true, List.length_cons,
        List.replicate_succ]
      rw [← ih]
    · simp [List.takeWhile_cons, h]

theorem stripZeros_append (src : Bytes) :
    stripZeros src ++ List.replicate (src.length - (stripZeros src).length) 0 = src := by
  have h1 : src.reverse = src.reverse.takeWhile (· == 0) ++ src.reverse.dropWhile (· == 0) :=
    (List.takeWhile_append_dropWhile _ _).symm
  have h2 : src = (src.reverse.dropWhile (· == 0)).reverse ++
      (src.reverse.takeWhile (· == 0)).reverse := by
    have := congrArg List.reverse h1
    rw [List.reverse_reverse, List.reverse_append] at this
    exact this
  have hlen : src.length = (stripZeros src).length + (src.reverse.takeWhile (· == 0)).length := by
    have := congrArg List.length h2
    rw [List.length_append, List.length_reverse, List.length_reverse] at this
    simp only [stripZeros, List.length_reverse]
    exact this
  have h3 : src.length - (stripZeros src).length = (src.reverse.takeWhile (· == 0)).length := by
    omega
  rw [h3]
  conv_rhs => rw [h2]
  unfold stripZeros
  congr 1
  rw [takeWhile_zero src.reverse]
  simp

theorem sampleZip_lossless (src rest : Bytes) (tgtsize : Int) (h : sampleZip src tgtsize ≠ []) :
    sampleUnzipHeader (sampleZip src tgtsize ++ rest) =
      some (((sampleZip src tgtsize).length : Int), (src.length : Int)) ∧
    sampleUnzip (sampleZip src tgtsize).length (sampleZip src tgtsize ++ rest) src.length = src := by
  unfold sampleZip at h ⊢
  simp only at h ⊢
  split_ifs at h ⊢ with hz
  · exact absurd rfl h
  · refine ⟨?_, ?_⟩
    · simp only [sampleUnzipHeader, List.cons_append, List.length_cons, List.length_append]
      rw [if_pos (by omega)]
      simp only [Option.some.injEq, Prod.mk.injEq, and_true]
      push_cast
      omega
    · simp only [sampleUnzip, List.cons_append, List.length_cons, List.drop_succ_cons,
        List.drop_zero, Int.toNat_ofNat]
      have : (stripZeros src).length + 1 + 1 - 2 = (stripZeros src).length := by omega
      rw [this, List.take_left']
      · exact stripZeros_append src
      · rfl

/-! ## `WriteBuffer` -/

/-- C1 (evaluation at the failing input): with chunks of at most 4 bytes and
the lossless sample library, the payload `[1,2,0,0,3,4,0,0]` is written at
level 5 as two compressed chunks of 4 bytes each, none as large as the payload,
so no fallback is taken and the record has `fNbytes - fKeylen = fObjlen = 8`.
`ReadBasketBuffers` takes such a record for an uncompressed one, returns 0 and
leaves the compressed chunks `[4,4,1,2,4,4,3,4]` as payload. -/
theorem roundtrip_fails_for_chunks_that_do_not_shrink :
    (WriteBuffer sampleCodec (sampleBranch 5 0) (some goodFile)
        (sampleWriteBasket [1, 2, 0, 0, 3, 4, 0, 0] 2 none none)).map
      (fun w => (w.ret, w.basket.fObjlen, w.basket.fNbytes - w.basket.fKeylen,
        w.basket.payload)) = some (16, 8, 8, [1, 2, 0, 0, 3, 4, 0, 0]) ∧
    (writeThenRead sampleCodec (sampleBranch 5 0) goodFile
        (sampleWriteBasket [1, 2, 0, 0, 3, 4, 0, 0] 2 none none)).map
      (fun r => (r.ret, r.basket.payload)) = some (0, [4, 4, 1, 2, 4, 4, 3, 4]) := by
  decide

/-- C5 (evaluation at the failing input): with chunks of at most 4 bytes, the
first chunk `[1,2,0,0]` of the payload `[1,2,0,0,5,0,0,0]` compresses to 4
bytes, which is not smaller than its input, but smaller than `fObjlen = 8`;
`WriteBuffer` at level 5 goes on and stores the 7 compressed bytes
`[4,4,1,2,3,4,5]` behind the key instead of the 8 uncompressed bytes. -/
theorem WriteBuffer_keeps_chunk_that_did_not_shrink :
    sampleZip [1, 2, 0, 0] 4 = [4, 4, 1, 2] ∧
    (WriteBuffer sampleCodec (sampleBranch 5 0) (some goodFile)
        (sampleWriteBasket [1, 2, 0, 0, 5, 0, 0, 0] 2 none none)).map
      (fun w => (w.ret, w.basket.fObjlen, w.basket.payload, w.record.map (List.drop 8))) =
      some (15, 8, [1, 2, 0, 0, 5, 0, 0, 0], some [4, 4, 1, 2, 3, 4, 5]) := by
  decide

theorem zipLoop_zero (env : Codec) (cxlevel cxAlgorithm fObjlen nbuffers : Int) (obj : Bytes)
    (i nzip noutot : Int) (out : Bytes) :
    zipLoop env cxlevel cxAlgorithm fObjlen nbuffers obj 0 i nzip noutot out =
      ZipExit.done noutot out := rfl

theorem TBuffer_write_length (buf : TBuffer) (bytes : Bytes) :
    buf.length ≤ (buf.write bytes).length := by
  simp only [TBuffer.write]
  omega

theorem appendTables_spec (env : Codec) (b : Basket) (buf : TBuffer) :
    (appendTables env b buf).1.fKeylen = b.fKeylen ∧
    (appendTables env b buf).1.fLast = buf.length ∧
    buf.length ≤ (appendTables env b buf).2.length := by
  unfold appendTables
  cases h1 : b.fEntryOffset with
  | none => exact ⟨rfl, rfl, le_rfl⟩
  | some offsets =>
    cases h2 : b.fDisplacement with
    | none => exact ⟨rfl, rfl, TBuffer_write_length _ _⟩
    | some disp =>
      exact ⟨rfl, rfl, le_trans (TBuffer_write_length _ _) (TBuffer_write_length _ _)⟩

theorem StreamerReadHeader_frame (env : Codec) (b b1 : Basket) (data : Bytes)
    (h : StreamerReadHeader env b data = some b1) :
    b1.notDecompressed = b.notDecompressed ∧ b1.fBufferRef = b.fBufferRef ∧
    b1.fCompressedBufferRef = b.fCompressedBufferRef ∧ b1.fEntryOffset = b.fEntryOffset ∧
    b1.fDisplacement = b.fDisplacement ∧ b1.fIOBits = b.fIOBits ∧
    (b1.zombie = false → b.zombie = false ∧ 0 ≤ (env.readHeader data).fNevBufSize) := by
  unfold StreamerReadHeader at h
  by_cases hf : (env.readHeader data).flag = 0
  · simp only [hf, if_true, Option.some.injEq] at h
    subst h
    refine ⟨rfl, rfl, rfl, rfl, rfl, rfl, ?_⟩
    intro hz
    simp only [Bool.or_eq_false_iff, decide_eq_false_iff_not, not_lt] at hz
    exact hz
  · simp [hf] at h

theorem R__InitializeReadBasketBuffer_flag (ref : Option TBuffer) (len : Int) :
    (R__InitializeReadBasketBuffer ref len).notDecompressed =
      (match ref with
       | some buf => buf.notDecompressed
       | none => false) := by
  cases ref with
  | none => rfl
  | some buf =>
    simp only [R__InitializeReadBasketBuffer, TBuffer.Reset, TBuffer.Expand]
    split_ifs <;> rfl

theorem afterBuffer_frame (env : Codec) (br : Branch) (version : Int) (b : Basket) (len : Int)
    (r : ReadResult) (h : afterBuffer env br b len = some r) :
    r.ret = 0 ∧ r.basket.bufferFlagged = b.bufferFlagged ∧
    bypassConditions br version r.basket = bypassConditions br version b ∧
    r.basket.fKeylen = b.fKeylen ∧ r.basket.fNevBuf = b.fNevBuf ∧ r.basket.fLast = b.fLast := by
  unfold afterBuffer at h
  split_ifs at h with h0
  · simp only [Option.some.injEq] at h
    subst h
    exact ⟨rfl, rfl, rfl, rfl, rfl, rfl⟩
  · cases hb : b.fBufferRef with
    | none => rw [hb] at h; simp at h
    | some buf =>
      rw [hb] at h
      dsimp only at h
      cases h1 : env.readArray (buf.data.drop b.fLast.toNat) with
      | none =>
        rw [h1] at h
        simp only [Option.some.injEq] at h
        subst h
        simp [Basket.bufferFlagged, hb, bypassConditions, oldCaseExpression]
      | some p =>
        obtain ⟨offsets, used⟩ := p
        rw [h1] at h
        dsimp only at h
        split_ifs at h
        · cases h2 : env.readArray (buf.data.drop (b.fLast + used).toNat) with
          | none =>
            rw [h2] at h
            simp only [Option.some.injEq] at h
            subst h
            simp [Basket.bufferFlagged, hb, bypassConditions, oldCaseExpression]
          | some q =>
            rw [h2] at h
            simp only [Option.some.injEq] at h
            subst h
            simp [Basket.bufferFlagged, hb, bypassConditions, oldCaseExpression]
        · simp only [Option.some.injEq] at h
          subst h
          simp [Basket.bufferFlagged, hb, bypassConditions, oldCaseExpression]


theorem ReadBasketBuffersUnzip_outcome (env : Codec) (br : Branch) (version : Int)
    (buffer : Bytes) (b : Basket) (r : ReadResult)
    (h : ReadBasketBuffersUnzip env br version buffer b = some r)
    (hclean : b.bufferFlagged = false) :
    (bypassConditions br version r.basket = true ∧ r.ret = 0 ∧
      r.basket.fEntryOffset = none ∧ r.basket.fDisplacement = none ∧
      r.basket.fBuffer = BufferPtr.ownBuffer ∧
      ∃ buf, r.basket.fBufferRef = some buf ∧ buf.notDecompressed = true ∧
        buf.length = r.basket.fNbytes ∧ buf.data = buffer) ∨
    (r.basket.bufferFlagged = false ∧
      (r.ret = -1 ∨ (r.ret = r.basket.fObjlen + r.basket.fKeylen ∧
        bypassConditions br version r.basket = false))) := by
  unfold ReadBasketBuffersUnzip at h
  dsimp only at h
  split at h
  · exact absurd h (by simp)
  · rename_i b1 hs
    obtain ⟨hnd, hbuf, -, -, -, -, -⟩ := StreamerReadHeader_frame env _ b1 _ hs
    have hfl : b1.bufferFlagged = false := by
      unfold Basket.bufferFlagged at hclean ⊢
      rw [hbuf]
      cases hb : b.fBufferRef with
      | none => rfl
      | some old => rw [hb] at hclean; exact hclean
    split_ifs at h with hz hc
    · simp only [Option.some.injEq] at h
      subst h
      exact Or.inr ⟨hfl, Or.inl rfl⟩
    · simp only [Option.some.injEq] at h
      subst h
      left
      refine ⟨?_, rfl, rfl, rfl, rfl, ?_⟩
      · simpa [bypassConditions, ReadBasketBuffersUncompressedCase, oldCaseExpression] using hc
      · simp only [ReadBasketBuffersUncompressedCase, hbuf]
        cases hb : b.fBufferRef <;> simp
    · simp only [Option.some.injEq] at h
      subst h
      refine Or.inr ⟨hfl, Or.inr ⟨rfl, ?_⟩⟩
      simpa [bypassConditions, oldCaseExpression] using hc


theorem uncompress_outcome (env : Codec) (br : Branch) (version : Int) (raw : Bytes)
    (len : Int) (b : Basket) (r : ReadResult)
    (h : uncompress env br version raw len b = some r)
    (hclean : b.bufferFlagged = false) :
    (bypassConditions br version r.basket = true ∧ r.ret = 0 ∧
      r.basket.fEntryOffset = none ∧ r.basket.fDisplacement = none ∧
      r.basket.fBuffer = BufferPtr.ownBuffer ∧
      ∃ buf, r.basket.fBufferRef = some buf ∧ buf.notDecompressed = true ∧
        buf.length = r.basket.fNbytes) ∨
    (r.basket.bufferFlagged = false ∧ bypassConditions br version r.basket = false ∧
      (r.ret = 0 ∨ r.ret = 1)) := by
  have hown : ∀ l, (R__InitializeReadBasketBuffer b.fBufferRef l).notDecompressed = false := by
    intro l
    rw [R__InitializeReadBasketBuffer_flag]
    unfold Basket.bufferFlagged at hclean
    exact hclean
  unfold uncompress at h
  dsimp only at h
  generalize (if len > b.fObjlen + b.fKeylen then len else b.fObjlen + b.fKeylen) = ulen at h
  split_ifs at h with hclass hby
  · simp only [Option.some.injEq] at h
    subst h
    left
    refine ⟨?_, rfl, rfl, rfl, rfl, _, rfl, rfl, rfl⟩
    simp only [bypassConditions, ReadBasketBuffersUncompressedCase]
    simp only [oldCaseExpression] at hclass ⊢
    rw [hclass, Bool.true_and]
    exact hby
  · have hcond : bypassConditions br version b = false := by
      simp only [bypassConditions]
      simp only [oldCaseExpression] at hclass ⊢
      rw [hclass, Bool.true_and]
      simpa using hby
    split at h
    · exact absurd h (by simp)
    · obtain ⟨h0, hf, hc, -⟩ := afterBuffer_frame env br version _ _ _ h
      refine Or.inr ⟨?_, ?_, Or.inl h0⟩
      · rw [hf]; simp [Basket.bufferFlagged, hown]
      · rw [hc]; exact hcond
    · split_ifs at h with hne
      · simp only [Option.some.injEq] at h
        subst h
        refine Or.inr ⟨?_, hcond, Or.inr rfl⟩
        simp [Basket.bufferFlagged, hown]
      · obtain ⟨h0, hf, hc, -⟩ := afterBuffer_frame env br version _ _ _ h
        refine Or.inr ⟨?_, ?_, Or.inl h0⟩
        · rw [hf]; simp [Basket.bufferFlagged, hown]
        · rw [hc]; exact hcond
  · have hcond : bypassConditions br version b = false := by
      simp only [bypassConditions]
      simp only [oldCaseExpression] at hclass ⊢
      simp only [Bool.not_eq_true] at hclass
      rw [hclass, Bool.false_and, Bool.false_and]
    obtain ⟨h0, hf, hc, -⟩ := afterBuffer_frame env br version _ _ _ h
    refine Or.inr ⟨?_, ?_, Or.inl h0⟩
    · rw [hf]; simp [Basket.bufferFlagged, hown]
    · rw [hc]; exact hcond


theorem store_flagged (b : Basket) (buf : TBuffer) (hclean : b.bufferFlagged = false)
    (hbuf : buf.notDecompressed = false) (c1 c2 : Prop) [Decidable c1] [Decidable c2] :
    (if c1 then (if c2 then { b with fBufferRef := some buf } else b)
      else (if b.fCompressedBufferRef.isSome = true then { b with fCompressedBufferRef := some buf }
        else b)).bufferFlagged = false := by
  split_ifs <;> first | exact hclean | simp [Basket.bufferFlagged, hbuf]

theorem readStage_outcome (env : Codec) (br : Branch) (file : ReadFile) (len : Int)
    (b : Basket) (st : ReadStage)
    (h : readStage env br file len b = some st) (hclean : b.bufferFlagged = false) :
    match st with
    | ReadStage.returned r =>
      (bypassConditions br file.version r.basket = true ∧ r.ret = 0 ∧
        r.basket.fEntryOffset = none ∧ r.basket.fDisplacement = none ∧
        r.basket.fBuffer = BufferPtr.ownBuffer ∧
        ∃ buf, r.basket.fBufferRef = some buf ∧ buf.notDecompressed = true ∧
          buf.length = r.basket.fNbytes) ∨
      (r.basket.bufferFlagged = false ∧
        (r.ret = 0 → bypassConditions br file.version r.basket = false))
    | ReadStage.after b1 _ =>
      b1.bufferFlagged = false ∧ bypassConditions br file.version b1 = false
    | ReadStage.decode _ b1 => b1.bufferFlagged = false := by
  unfold readStage at h
  by_cases hdir : (!br.hasDirectory) = true
  · rw [if_pos hdir] at h
    simp only [Option.some.injEq] at h
    subst h
    exact Or.inr ⟨hclean, fun h0 => absurd h0 (by simp)⟩
  · rw [if_neg hdir] at h
    split at h
    · rename_i buffer hcache
      split at h
      · exact absurd h (by simp)
      · rename_i r1 hr1
        rcases ReadBasketBuffersUnzip_outcome env br file.version buffer b r1 hr1 hclean with
          ⟨hc, h0, he, hd, hb, buf, hbuf, hfl, hlen, -⟩ | ⟨hfl, hret⟩
        · rw [if_pos (by omega)] at h
          simp only [Option.some.injEq] at h
          subst h
          exact Or.inl ⟨hc, by simp [h0], he, hd, hb, buf, hbuf, hfl, hlen⟩
        · split_ifs at h with hle
          · simp only [Option.some.injEq] at h
            subst h
            refine Or.inr ⟨hfl, fun h0 => ?_⟩
            rcases hret with h1 | ⟨-, hc⟩
            · simp only at h0; omega
            · exact hc
          · simp only [Option.some.injEq] at h
            subst h
            rcases hret with h1 | ⟨-, hc⟩
            · omega
            · exact ⟨hfl, hc⟩
    · dsimp only at h
      split at h
      · simp only [Option.some.injEq] at h
        subst h
        refine Or.inr ⟨?_, fun h0 => absurd h0 (by simp)⟩
        dsimp only
        split_ifs <;>
          simp_all [Basket.bufferFlagged, R__InitializeReadBasketBuffer_flag]
      · split at h
        · exact absurd h (by simp)
        · rename_i record hrec b1 hs
          obtain ⟨-, hbuf, -, -, -, -, -⟩ := StreamerReadHeader_frame _ _ _ _ hs
          have hfl : b1.bufferFlagged = false := by
            unfold Basket.bufferFlagged
            rw [hbuf]
            split_ifs <;>
              simp_all [Basket.bufferFlagged, R__InitializeReadBasketBuffer_flag]
          by_cases hz : b1.zombie = true
          · rw [if_pos hz] at h
            simp only [Option.some.injEq] at h
            subst h
            exact Or.inr ⟨hfl, fun h0 => absurd h0 (by simp)⟩
          · rw [if_neg hz] at h
            by_cases hown : (decide (br.compressionLevel = 0) && b.fBufferRef.isSome) = true
            · rw [if_pos hown] at h
              have hlev : br.compressionLevel = 0 := by
                simp only [Bool.and_eq_true, decide_eq_true_eq] at hown
                exact hown.1
              by_cases heq : b1.fObjlen + b1.fKeylen = b1.fNbytes
              · rw [if_pos heq] at h
                simp only [Option.some.injEq] at h
                subst h
                refine ⟨hfl, ?_⟩
                have hno : ¬ b1.fObjlen > b1.fNbytes - b1.fKeylen := by omega
                simp [bypassConditions, oldCaseExpression, hlev, hno]
              · rw [if_neg heq] at h
                simp only [Option.some.injEq] at h
                subst h
                unfold Basket.bufferFlagged at hfl ⊢
                simp only [InitializeCompressedBuffer]
                cases hb1 : b1.fBufferRef with
                | none => rfl
                | some own =>
                  rw [hb1] at hfl
                  simpa [TBuffer.Reset] using hfl
            · rw [if_neg hown] at h
              simp only [Option.some.injEq] at h
              subst h
              exact hfl


theorem ReadBasketBuffers_outcome (env : Codec) (br : Branch) (file : ReadFile) (len : Int)
    (b : Basket) (r : ReadResult)
    (h : ReadBasketBuffers env br file len b = some r) (hclean : b.bufferFlagged = false) :
    (bypassConditions br file.version r.basket = true ∧ r.ret = 0 ∧
      r.basket.fEntryOffset = none ∧ r.basket.fDisplacement = none ∧
      r.basket.fBuffer = BufferPtr.ownBuffer ∧
      ∃ buf, r.basket.fBufferRef = some buf ∧ buf.notDecompressed = true ∧
        buf.length = r.basket.fNbytes) ∨
    (r.basket.bufferFlagged = false ∧
      (r.ret = 0 → bypassConditions br file.version r.basket = false)) := by
  unfold ReadBasketBuffers at h
  split at h
  · exact absurd h (by simp)
  · rename_i r1 hst
    simp only [Option.some.injEq] at h
    subst h
    exact readStage_outcome env br file len b _ hst hclean
  · rename_i b1 len1 hst
    obtain ⟨hfl, hc⟩ := readStage_outcome env br file len b _ hst hclean
    obtain ⟨-, hf, hc1, -⟩ := afterBuffer_frame env br file.version _ _ _ h
    exact Or.inr ⟨by rw [hf]; exact hfl, fun _ => by rw [hc1]; exact hc⟩
  · rename_i raw b1 hst
    have hfl := readStage_outcome env br file len b _ hst hclean
    rcases uncompress_outcome env br file.version raw len b1 r h hfl with hl | ⟨h1, h2, -⟩
    · exact Or.inl hl
    · exact Or.inr ⟨h1, fun _ => h2⟩

theorem bypassConditions_iff (br : Branch) (version : Int) (b : Basket) :
    bypassConditions br version b = true ↔
      b.fNevBuf = 1 ∧ b.notDecompressed = true ∧
        (b.fObjlen > b.fNbytes - b.fKeylen ∨ oldCaseExpression br version b = true) := by
  simp only [bypassConditions, Bool.and_eq_true, Bool.or_eq_true, decide_eq_true_eq]
  tauto

/-- C12: on a basket whose buffer does not carry the `kNotDecompressed` bit
when the call starts, `ReadBasketBuffers` hands back a buffer carrying the bit
(it has gone through `ReadBasketBuffersUncompressedCase`, the only place that
sets it) exactly when it returns 0 for a basket that holds one entry
(`fNevBuf == 1`), carries the `kNotDecompressed` bit itself, and whose record is
taken for a compressed one (`fObjlen > fNbytes - fKeylen`, or the legacy case).
When the bypass is taken the call returns 0, the offset of the buffer is
`fNbytes`, and neither an entry-offset table nor a displacement table remains.
The same holds for `ReadBasketBuffersUnzip` on the buffer of the cache. -/
theorem ReadBasketBuffers_bypass (env : Codec) (br : Branch) (file : ReadFile) (len : Int)
    (b : Basket) (hclean : b.bufferFlagged = false) :
    (∀ r, ReadBasketBuffers env br file len b = some r →
      (r.basket.bufferFlagged = true ↔
        r.ret = 0 ∧ r.basket.fNevBuf = 1 ∧ r.basket.notDecompressed = true ∧
          (r.basket.fObjlen > r.basket.fNbytes - r.basket.fKeylen ∨
            oldCaseExpression br file.version r.basket = true)) ∧
      (r.basket.bufferFlagged = true →
        r.ret = 0 ∧ r.basket.fEntryOffset = none ∧ r.basket.fDisplacement = none ∧
        ∃ buf, r.basket.fBufferRef = some buf ∧ buf.notDecompressed = true ∧
          buf.length = r.basket.fNbytes)) ∧
    (∀ buffer r, ReadBasketBuffersUnzip env br file.version buffer b = some r →
      (r.basket.bufferFlagged = true ↔
        r.ret = 0 ∧ r.basket.fNevBuf = 1 ∧ r.basket.notDecompressed = true ∧
          (r.basket.fObjlen > r.basket.fNbytes - r.basket.fKeylen ∨
            oldCaseExpression br file.version r.basket = true)) ∧
      (r.basket.bufferFlagged = true →
        r.ret = 0 ∧ r.basket.fEntryOffset = none ∧ r.basket.fDisplacement = none ∧
        ∃ buf, r.basket.fBufferRef = some buf ∧ buf.notDecompressed = true ∧
          buf.length = r.basket.fNbytes)) := by
  refine ⟨fun r hr => ?_, fun buffer r hr => ?_⟩
  · rcases ReadBasketBuffers_outcome env br file len b r hr hclean with
      ⟨hc, h0, he, hd, -, buf, hbuf, hfl, hlen⟩ | ⟨hfl, hc⟩
    · have hflag : r.basket.bufferFlagged = true := by
        simp [Basket.bufferFlagged, hbuf, hfl]
      have hcond := (bypassConditions_iff br file.version r.basket).1 hc
      exact ⟨⟨fun _ => ⟨h0, hcond⟩, fun _ => hflag⟩,
        fun _ => ⟨h0, he, hd, buf, hbuf, hfl, hlen⟩⟩
    · refine ⟨⟨fun h => ?_, fun h => ?_⟩, fun h => ?_⟩
      · rw [hfl] at h; exact absurd h (by simp)
      · have := (bypassConditions_iff br file.version r.basket).2 h.2
        rw [hc h.1] at this
        exact absurd this (by simp)
      · rw [hfl] at h; exact absurd h (by simp)
  · rcases ReadBasketBuffersUnzip_outcome env br file.version buffer b r hr hclean with
      ⟨hc, h0, he, hd, -, buf, hbuf, hfl, hlen, -⟩ | ⟨hfl, hret⟩
    · have hflag : r.basket.bufferFlagged = true := by
        simp [Basket.bufferFlagged, hbuf, hfl]
      have hcond := (bypassConditions_iff br file.version r.basket).1 hc
      exact ⟨⟨fun _ => ⟨h0, hcond⟩, fun _ => hflag⟩,
        fun _ => ⟨h0, he, hd, buf, hbuf, hfl, hlen⟩⟩
    · refine ⟨⟨fun h => ?_, fun h => ?_⟩, fun h => ?_⟩
      · rw [hfl] at h; exact absurd h (by simp)
      · have := (bypassConditions_iff br file.version r.basket).2 h.2
        rcases hret with h1 | ⟨-, hc⟩
        · have := h.1; omega
        · rw [hc] at this
          exact absurd this (by simp)
      · rw [hfl] at h; exact absurd h (by simp)


/-- Witness for `ReadBasketBuffers_bypass`: a basket with the `kNotDecompressed`
bit reads the record of a compressed single-entry basket. -/
theorem ReadBasketBuffers_bypass_witness :
    (bypassRead 5).basket.bufferFlagged = true ∧
    ((bypassRead 5).basket.bufferFlagged = true →
      (bypassRead 5).ret = 0 ∧ (bypassRead 5).basket.fEntryOffset = none ∧
      (bypassRead 5).basket.fDisplacement = none ∧
      ∃ buf, (bypassRead 5).basket.fBufferRef = some buf ∧ buf.notDecompressed = true ∧
        buf.length = (bypassRead 5).basket.fNbytes) :=
  ⟨by decide,
    ((ReadBasketBuffers_bypass sampleCodec (sampleBranch 5 0) (fileWith singleEntryRecord) 11
      bypassBasket (by decide)).1 (bypassRead 5) (by decide)).2⟩

/-- C13 (evaluation at the failing input): `singleEntryRecord` is the record
`WriteBuffer` stores at level 5 for the single entry `[5,0,0,0]`.  Read with the
bypass through a branch of level 5, the call returns 0 and hands back a flagged
buffer with offset 11 that holds none of the 11 record bytes: the record was
read into the compressed buffer and the function returned before copying
anything.  Read through a branch of level 0, the buffer handed back does hold
the record. -/
theorem bypass_buffer_misses_record :
    (WriteBuffer sampleCodec (sampleBranch 5 0) (some goodFile)
        (sampleWriteBasket [5, 0, 0, 0] 1 none none)).bind (·.record) =
      some singleEntryRecord ∧
    (bypassRead 5).ret = 0 ∧ (bypassRead 5).basket.bufferFlagged = true ∧
    (bypassRead 5).basket.fBufferRef.map (·.length) = some 11 ∧
    (bypassRead 5).basket.bufferData.take 11 = [] ∧
    (bypassRead 5).basket.fCompressedBufferRef.map (·.data) = some singleEntryRecord ∧
    (bypassRead 0).ret = 0 ∧ (bypassRead 0).basket.bufferFlagged = true ∧
    (bypassRead 0).basket.bufferData.take 11 = singleEntryRecord := by
  decide


/-! ## The legacy case -/

theorem uncompress_eq_decodeStage (env : Codec) (br : Branch) (version : Int) (raw : Bytes)
    (len : Int) (b : Basket) :
    uncompress env br version raw len b =
      (match decodeStage env br version raw len b with
       | some (ReadStage.returned r) => some r
       | some (ReadStage.after b2 len2) => afterBuffer env br b2 len2
       | _ => none) := by
  unfold uncompress decodeStage
  dsimp only
  generalize (if len > b.fObjlen + b.fKeylen then len else b.fObjlen + b.fKeylen) = ulen
  split_ifs with hclass hby
  · rfl
  · split <;> first | rfl | (split_ifs <;> rfl)
  · rfl


theorem decodeStage_after_buffer (env : Codec) (br : Branch) (version : Int) (raw : Bytes)
    (len : Int) (b b2 : Basket) (len2 : Int)
    (h : decodeStage env br version raw len b = some (ReadStage.after b2 len2)) :
    ∃ buf, b2.fBufferRef = some buf := by
  unfold decodeStage at h
  dsimp only at h
  generalize (if len > b.fObjlen + b.fKeylen then len else b.fObjlen + b.fKeylen) = ulen at h
  split_ifs at h with hclass hby
  · simp at h
  · split at h
    · simp at h
    · simp only [Option.some.injEq, ReadStage.after.injEq] at h
      obtain ⟨rfl, -⟩ := h
      exact ⟨_, rfl⟩
    · split_ifs at h
      · simp at h
      · simp only [Option.some.injEq, ReadStage.after.injEq] at h
        obtain ⟨rfl, -⟩ := h
        exact ⟨_, rfl⟩
  · simp only [Option.some.injEq, ReadStage.after.injEq] at h
    obtain ⟨rfl, -⟩ := h
    exact ⟨_, rfl⟩

theorem readStage_after_buffer (env : Codec) (br : Branch) (file : ReadFile) (len : Int)
    (b b1 : Basket) (len1 : Int)
    (h : readStage env br file len b = some (ReadStage.after b1 len1)) :
    ∃ buf, b1.fBufferRef = some buf := by
  unfold readStage at h
  by_cases hdir : (!br.hasDirectory) = true
  · rw [if_pos hdir] at h
    simp at h
  · rw [if_neg hdir] at h
    split at h
    · rename_i buffer hcache
      split at h
      · exact absurd h (by simp)
      · rename_i r1 hr1
        by_cases hle : r1.ret ≤ 0
        · rw [if_pos hle] at h
          simp at h
        rw [if_neg hle] at h
        simp only [Option.some.injEq, ReadStage.after.injEq] at h
        rw [← h.1]
        unfold ReadBasketBuffersUnzip at hr1
        dsimp only at hr1
        split at hr1
        · exact absurd hr1 (by simp)
        · rename_i b3 hs
          obtain ⟨-, hbuf, -⟩ := StreamerReadHeader_frame env _ b3 _ hs
          split_ifs at hr1 with hz hc
          · simp only [Option.some.injEq] at hr1
            rw [← hr1]
            exact ⟨_, hbuf⟩
          · simp only [Option.some.injEq] at hr1
            rw [← hr1]
            simp only [ReadBasketBuffersUncompressedCase, hbuf, Option.map_some']
            exact ⟨_, rfl⟩
          · simp only [Option.some.injEq] at hr1
            rw [← hr1]
            exact ⟨_, hbuf⟩
    · dsimp only at h
      split at h
      · simp at h
      · split at h
        · exact absurd h (by simp)
        · rename_i record hrec b3 hs
          obtain ⟨-, hbuf, -⟩ := StreamerReadHeader_frame _ _ _ _ hs
          by_cases hz : b3.zombie = true
          · rw [if_pos hz] at h
            simp at h
          · rw [if_neg hz] at h
            by_cases hown : (decide (br.compressionLevel = 0) && b.fBufferRef.isSome) = true
            · rw [if_pos hown] at h
              simp only [Bool.and_eq_true, decide_eq_true_eq] at hown
              by_cases heq : b3.fObjlen + b3.fKeylen = b3.fNbytes
              · rw [if_pos heq] at h
                simp only [Option.some.injEq, ReadStage.after.injEq] at h
                obtain ⟨rfl, -⟩ := h
                rw [hbuf, if_pos hown.1, if_pos hown.2]
                exact ⟨_, rfl⟩
              · rw [if_neg heq] at h
                simp at h
            · rw [if_neg hown] at h
              simp at h

theorem ReadBasketBuffers_of_atAfterBuffer (env : Codec) (br : Branch) (file : ReadFile)
    (len : Int) (b b2 : Basket) (len2 : Int)
    (h : atAfterBuffer env br file len b = some (b2, len2)) :
    ReadBasketBuffers env br file len b = afterBuffer env br b2 len2 ∧
    ∃ buf, b2.fBufferRef = some buf := by
  unfold atAfterBuffer at h
  unfold ReadBasketBuffers
  split at h
  · rename_i b1 len1 hst
    simp only [Option.some.injEq, Prod.mk.injEq] at h
    obtain ⟨rfl, rfl⟩ := h
    rw [hst]
    exact ⟨rfl, readStage_after_buffer env br file len b _ _ hst⟩
  · rename_i raw b1 hst
    rw [hst]
    dsimp only
    rw [uncompress_eq_decodeStage]
    split at h
    · rename_i b3 len3 hd
      simp only [Option.some.injEq, Prod.mk.injEq] at h
      obtain ⟨rfl, rfl⟩ := h
      rw [hd]
      exact ⟨rfl, decodeStage_after_buffer env br file.version raw len b1 _ _ hd⟩
    · simp at h
  · simp at h

/-- C16: whenever `ReadBasketBuffers` arrives at the label `AfterBuffer:` for a
branch that expects an entry-offset table (`GetEntryOffsetLen() != 0`) and
`ReadArray` at offset `fLast` of the decoded buffer leaves `fEntryOffset` null,
the call returns 0 and leaves a table of `fNevBuf + 1` slots whose entry 0 is
`fKeylen`. -/
theorem ReadBasketBuffers_repairs_offset_table (env : Codec) (br : Branch) (file : ReadFile)
    (len : Int) (b b2 : Basket) (len2 : Int)
    (hat : atAfterBuffer env br file len b = some (b2, len2))
    (hexp : br.entryOffsetLen ≠ 0)
    (hnone : ∀ buf, b2.fBufferRef = some buf →
      env.readArray (buf.data.drop b2.fLast.toNat) = none) :
    ∃ r table, ReadBasketBuffers env br file len b = some r ∧ r.ret = 0 ∧
      r.basket.fEntryOffset = some table ∧ table.head? = some r.basket.fKeylen ∧
      table.length = r.basket.fNevBuf.toNat + 1 := by
  obtain ⟨hrbb, buf, hbuf⟩ := ReadBasketBuffers_of_atAfterBuffer env br file len b b2 len2 hat
  rw [hrbb]
  unfold afterBuffer
  rw [if_neg hexp, hbuf]
  dsimp only
  rw [hnone buf hbuf]
  exact ⟨_, _, rfl, rfl, rfl, rfl, by simp⟩

/-- Witness for `ReadBasketBuffers_repairs_offset_table`: a branch that expects
entry offsets reads `plainRecord`, which carries no table behind its payload. -/
theorem ReadBasketBuffers_repairs_offset_table_witness :
    ∃ r table, ReadBasketBuffers sampleCodec (sampleBranch 0 4) (fileWith plainRecord) 12
        emptyBasket = some r ∧ r.ret = 0 ∧
      r.basket.fEntryOffset = some table ∧ table.head? = some r.basket.fKeylen ∧
      table.length = r.basket.fNevBuf.toNat + 1 :=
  ReadBasketBuffers_repairs_offset_table sampleCodec (sampleBranch 0 4) (fileWith plainRecord) 12
    emptyBasket plainBasketAtAfterBuffer 12 (by decide) (by decide)
    (by intro buf hbuf; cases hbuf; decide)


/-! ## The flag byte of `Streamer` -/

/-- C17 (counterexample): for a basket with buffer bytes, without entry-offset
table and without displacement table, `Streamer` writes the flag 12 (binary
1100): bit 1 is clear although buffer bytes are present, and bit 2 is set
although no displacement table is present. -/
theorem flag_byte_is_not_a_bit_set :
    fixedSizeBasket.fHeaderOnly = false ∧ fixedSizeBasket.fEntryOffset.isSome = false ∧
    fixedSizeBasket.fBufferRef.isSome = true ∧ fixedSizeBasket.fDisplacement.isSome = false ∧
    (streamerHeader 0 fixedSizeBasket).flag = 12 ∧
    (sampleCodec.readHeader (StreamerWrite sampleCodec 0 fixedSizeBasket).2).flag = 12 ∧
    (streamerHeader 0 fixedSizeBasket).flag.toNat.testBit 1 = false ∧
    (streamerHeader 0 fixedSizeBasket).flag.toNat.testBit 2 = true := by
  decide

theorem streamerPrepare_frame (seekKey : Int) (b : Basket) :
    (streamerPrepare seekKey b).fHeaderOnly = b.fHeaderOnly ∧
    (streamerPrepare seekKey b).fEntryOffset = b.fEntryOffset ∧
    (streamerPrepare seekKey b).fBufferRef = b.fBufferRef ∧
    (streamerPrepare seekKey b).fDisplacement = b.fDisplacement := by
  unfold streamerPrepare
  cases hb : b.fBufferRef with
  | none => simp [hb]
  | some buf =>
    dsimp only
    split_ifs <;> simp [hb]

/-- C17 (amended): the flag byte `Streamer` writes for a basket that is not
header-only is a decimal code: 1 if an entry-offset table is present and 2 if
not, plus 10 if buffer bytes are present, plus 40 if a displacement table is
present.  So its last decimal digit is 1 exactly when an entry-offset table is
present (and 2 otherwise), its tens digit is odd exactly when buffer bytes are
present, and it exceeds 40 exactly when a displacement table is present. -/
theorem streamerFlag_decimal_code (seekKey : Int) (b : Basket) (h : b.fHeaderOnly = false) :
    (streamerHeader seekKey b).flag =
      (if b.fEntryOffset.isSome then 1 else 2) + (if b.fBufferRef.isSome then 10 else 0) +
        (if b.fDisplacement.isSome then 40 else 0) ∧
    ((streamerHeader seekKey b).flag % 10 = 1 ↔ b.fEntryOffset.isSome = true) ∧
    ((streamerHeader seekKey b).flag % 10 = 2 ↔ b.fEntryOffset.isSome = false) ∧
    ((streamerHeader seekKey b).flag / 10 % 2 = 1 ↔ b.fBufferRef.isSome = true) ∧
    ((streamerHeader seekKey b).flag > 40 ↔ b.fDisplacement.isSome = true) := by
  obtain ⟨h1, h2, h3, h4⟩ := streamerPrepare_frame seekKey b
  have hflag : (streamerHeader seekKey b).flag =
      (if b.fEntryOffset.isSome then 1 else 2) + (if b.fBufferRef.isSome then 10 else 0) +
        (if b.fDisplacement.isSome then 40 else 0) := by
    simp only [streamerHeader, streamerFlag, h1, h2, h3, h4, h, Bool.false_eq_true, if_false]
    cases b.fEntryOffset <;> cases b.fBufferRef <;> cases b.fDisplacement <;> rfl
  rw [hflag]
  refine ⟨rfl, ?_, ?_, ?_, ?_⟩ <;>
    cases b.fEntryOffset <;> cases b.fBufferRef <;> cases b.fDisplacement <;>
    simp only [Option.isSome_none, Option.isSome_some, Bool.false_eq_true, if_false, if_true] <;>
    decide

/-- Witness for `streamerFlag_decimal_code`: the basket of the counterexample
has flag 12 = 2 + 10. -/
theorem streamerFlag_decimal_code_witness :
    (streamerHeader 0 fixedSizeBasket).flag =
      (if fixedSizeBasket.fEntryOffset.isSome then 1 else 2) +
        (if fixedSizeBasket.fBufferRef.isSome then 10 else 0) +
        (if fixedSizeBasket.fDisplacement.isSome then 40 else 0) :=
  (streamerFlag_decimal_code 0 fixedSizeBasket (by decide)).1


/-! ## The entry-offset table on the write side -/

theorem ReAllocInt_length (ovp : List Int) (size oldsize : Int)
    (h : ovp.length = oldsize.toNat) : (ReAllocInt ovp size oldsize).length = size.toNat := by
  unfold ReAllocInt
  split_ifs with heq
  · rw [h, heq]
  · simp only [List.length_append, List.length_replicate, List.length_take]
    omega

theorem storeInt_length (a : List Int) (i v : Int) : (storeInt a i v).length = a.length := by
  unfold storeInt
  split_ifs <;> simp

theorem offsetTableOk_iff (b : Basket) :
    b.offsetTableOk = true ↔
      ∀ table, b.fEntryOffset = some table →
        0 ≤ b.fNevBuf ∧ b.fNevBuf + 1 ≤ b.fNevBufSize ∧ table.length = b.fNevBufSize.toNat := by
  unfold Basket.offsetTableOk
  cases b.fEntryOffset with
  | none => simp
  | some table => simp [and_assoc]

theorem construct_offsetTableOk (env : ResetEnv) (b : Basket) (h : construct env = some b) :
    b.offsetTableOk = true := by
  unfold construct at h
  by_cases hneg : env.entryOffsetLen < 0
  · rw [if_pos hneg] at h
    simp at h
  rw [if_neg hneg] at h
  simp only [Option.some.injEq] at h
  subst h
  rw [offsetTableOk_iff]
  intro table ht
  dsimp only at ht
  split_ifs at ht with h0
  simp only [Option.some.injEq] at ht
  subst ht
  refine ⟨le_refl _, ?_, by simp⟩
  show (0 : Int) + 1 ≤ env.entryOffsetLen
  omega

theorem Update_offsetTableOk (writeBasket : Int) (b : Basket) (offset skipped : Int)
    (h : b.offsetTableOk = true) :
    (Update writeBasket b offset skipped).basket.offsetTableOk = true := by
  rw [offsetTableOk_iff] at h ⊢
  unfold Update
  cases ht : b.fEntryOffset with
  | none => intro table h1; simp [ht] at h1
  | some table =>
    obtain ⟨h0, h1, h2⟩ := h table ht
    intro table1 ht1
    simp only [Option.some.injEq] at ht1
    subst ht1
    dsimp only
    by_cases hfull : b.fNevBuf + 1 ≥ b.fNevBufSize
    · simp only [hfull, decide_True, if_true, storeInt_length]
      rw [ReAllocInt_length _ _ _ h2]
      refine ⟨by omega, ?_, rfl⟩
      have : b.fNevBufSize + 1 ≤ max 10 (2 * b.fNevBufSize) := by
        rcases le_total 10 (2 * b.fNevBufSize) with h | h
        · rw [max_eq_right h]; omega
        · rw [max_eq_left h]; omega
      omega
    · simp only [hfull, decide_False, Bool.false_eq_true, if_false, storeInt_length]
      exact ⟨by omega, by omega, h2⟩

theorem MoveEntries_offsetTableOk (b b1 : Basket) (dentries : Int)
    (h : b.offsetTableOk = true) (hm : MoveEntries b dentries = some b1) :
    b1.offsetTableOk = true := by
  unfold MoveEntries at hm
  split_ifs at hm with hge hneg
  · simp only [Option.some.injEq] at hm
    subst hm
    exact h
  · cases hb : b.fBufferRef with
    | none => rw [hb] at hm; simp at hm
    | some buf =>
      rw [hb] at hm
      simp only [Option.some.injEq] at hm
      subst hm
      rw [offsetTableOk_iff] at h ⊢
      cases ht : b.fEntryOffset with
      | none => intro table h1; simp at h1
      | some table =>
        obtain ⟨h0, h1, h2⟩ := h table ht
        intro table1 ht1
        simp only [Option.some.injEq] at ht1
        subst ht1
        refine ⟨by show 0 ≤ b.fNevBuf - dentries; omega,
          by show b.fNevBuf - dentries + 1 ≤ b.fNevBufSize; omega, ?_⟩
        dsimp only
        simp only [List.length_append, List.length_map, List.length_range, List.length_drop]
        omega

theorem resetEntryOffset_length (n size : Int) (old : Option (List Int)) (table : List Int)
    (hold : ∀ t, old = some t → t.length = size.toNat)
    (h : resetEntryOffset n size old = some table) : table.length = n.toNat := by
  unfold resetEntryOffset at h
  by_cases h0 : n = 0
  · rw [if_pos h0] at h
    simp at h
  · rw [if_neg h0] at h
    simp only [Option.some.injEq] at h
    subst h
    by_cases hne : n ≠ size
    · simp [hne]
    · simp only [ne_eq, not_not] at hne
      subst hne
      cases old with
      | none => simp
      | some t =>
        have := hold t rfl
        simp only [ne_eq, not_true_eq_false, if_false, List.length_append, List.length_replicate,
          List.length_drop]
        omega

theorem Reset_offsetTableOk (env : ResetEnv) (b b1 : Basket) (hlen : 0 ≤ env.entryOffsetLen)
    (hok : b.offsetTableOk = true) (hr : Reset env b = some b1) : b1.offsetTableOk = true := by
  rw [offsetTableOk_iff] at hok
  unfold Reset at hr
  cases hb : b.fBufferRef with
  | none => rw [hb] at hr; simp at hr
  | some buf =>
    rw [hb] at hr
    simp only [Option.some.injEq] at hr
    subst hr
    rw [offsetTableOk_iff]
    intro table ht
    dsimp only at ht
    have hl := resetEntryOffset_length _ _ _ _ (fun t h => (hok t h).2.2) ht
    have h0 : env.entryOffsetLen ≠ 0 := by
      intro h0
      simp [resetEntryOffset, h0] at ht
    refine ⟨le_refl _, ?_, hl⟩
    show (0 : Int) + 1 ≤ env.entryOffsetLen
    omega

theorem applyOps_offsetTableOk (ops : List BasketOp) :
    ∀ b b1 : Basket, b.offsetTableOk = true → applyOps b ops = some b1 →
      b1.offsetTableOk = true := by
  induction ops with
  | nil =>
    intro b b1 h hr
    simp only [applyOps, Option.some.injEq] at hr
    subst hr
    exact h
  | cons op ops ih =>
    intro b b1 h hr
    unfold applyOps at hr
    cases hop : applyOp b op with
    | none => rw [hop] at hr; simp at hr
    | some b2 =>
      rw [hop] at hr
      refine ih b2 b1 ?_ hr
      cases op with
      | update writeBasket offset skipped =>
        simp only [applyOp, Option.some.injEq] at hop
        subst hop
        exact Update_offsetTableOk writeBasket b offset skipped h
      | moveEntries dentries => exact MoveEntries_offsetTableOk b b2 dentries h hop
      | reset env =>
        simp only [applyOp] at hop
        split_ifs at hop with hneg
        exact Reset_offsetTableOk env b b2 (by omega) h hop

/-- C18: in every state the write constructor and any sequence of `Update`,
`MoveEntries` and `Reset` calls lead to, a basket that has an entry-offset
table has `0 <= fNevBuf`, `fNevBuf + 1 <= fNevBufSize` and a table of
`fNevBufSize` slots.  So the index `fNevBuf` at which `Update` stores lies
inside the table, and so do the `fNevBuf + 1` offsets `WriteBuffer`
serialises. -/
theorem offset_table_invariant (env : ResetEnv) (ops : List BasketOp) (b0 b : Basket)
    (table : List Int)
    (hc : construct env = some b0) (hops : applyOps b0 ops = some b)
    (ht : b.fEntryOffset = some table) :
    0 ≤ b.fNevBuf ∧ b.fNevBuf + 1 ≤ b.fNevBufSize ∧ table.length = b.fNevBufSize.toNat ∧
    b.fNevBuf.toNat < table.length ∧ (b.fNevBuf + 1).toNat ≤ table.length ∧
    (table.take (b.fNevBuf + 1).toNat).length = (b.fNevBuf + 1).toNat := by
  have hok := applyOps_offsetTableOk ops b0 b (construct_offsetTableOk env b0 hc) hops
  obtain ⟨h0, h1, h2⟩ := (offsetTableOk_iff b).1 hok table ht
  refine ⟨h0, h1, h2, by omega, by omega, ?_⟩
  rw [List.length_take]
  omega


/-- Witness for `offset_table_invariant`: the basket after `sampleOps`. -/
theorem offset_table_invariant_witness :
    0 ≤ sampleFilled.fNevBuf ∧ sampleFilled.fNevBuf + 1 ≤ sampleFilled.fNevBufSize ∧
    [8, 0, 0, 0].length = sampleFilled.fNevBufSize.toNat ∧
    sampleFilled.fNevBuf.toNat < [8, 0, 0, 0].length ∧
    (sampleFilled.fNevBuf + 1).toNat ≤ [8, 0, 0, 0].length ∧
    (([8, 0, 0, 0] : List Int).take (sampleFilled.fNevBuf + 1).toNat).length =
      (sampleFilled.fNevBuf + 1).toNat :=
  offset_table_invariant (sampleWriteEnv 2) sampleOps sampleConstructed sampleFilled [8, 0, 0, 0]
    (by decide) (by decide) (by decide)

/-! ## Growth of the entry-offset table -/

theorem ReAllocInt_getD (ovp : List Int) (size oldsize : Int) (i : Nat)
    (h1 : (i : Int) < oldsize) (h2 : (i : Int) < size) :
    (ReAllocInt ovp size oldsize).getD i 0 = ovp.getD i 0 := by
  unfold ReAllocInt
  split_ifs with heq
  · rfl
  · simp only [List.getD_eq_getElem?_getD]
    by_cases hi : i < ovp.length
    · rw [List.getElem?_append_left (by simp only [List.length_take]; omega),
        List.getElem?_take_of_lt (by omega)]
    · rw [List.getElem?_eq_none (l := ovp) (by omega)]
      rw [List.getElem?_append_right (by simp only [List.length_take]; omega),
        List.getElem?_replicate]
      split_ifs <;> rfl

theorem storeInt_getD (a : List Int) (j v : Int) (i : Nat) (h : (i : Int) ≠ j) :
    (storeInt a j v).getD i 0 = a.getD i 0 := by
  unfold storeInt
  split_ifs with h0
  · simp only [List.getD_eq_getElem?_getD]
    rw [List.getElem?_set_ne (by omega)]
  · rfl

/-- C19: when `Update` finds the entry-offset table full
(`fNevBuf + 1 >= fNevBufSize`), `fNevBufSize` becomes `max(10, 2 * fNevBufSize)`,
which is at least twice the old value; a table that had `fNevBufSize` slots has
that many after the call; every slot of the old table other than the slot
`fNevBuf` that receives the new offset keeps its value, and so does every such
slot of the displacement table if there is one; and `SetEntryOffsetLen` is
called, with the new size, exactly when `GetWriteBasket() < 10`. -/
theorem Update_grows_geometrically (writeBasket : Int) (b : Basket) (offset skipped : Int)
    (table : List Int) (ht : b.fEntryOffset = some table)
    (hfull : b.fNevBuf + 1 ≥ b.fNevBufSize) :
    (Update writeBasket b offset skipped).basket.fNevBufSize = max 10 (2 * b.fNevBufSize) ∧
    2 * b.fNevBufSize ≤ (Update writeBasket b offset skipped).basket.fNevBufSize ∧
    (∃ table1, (Update writeBasket b offset skipped).basket.fEntryOffset = some table1 ∧
      (table.length = b.fNevBufSize.toNat →
        table1.length = (max 10 (2 * b.fNevBufSize)).toNat) ∧
      ∀ i : Nat, (i : Int) < b.fNevBufSize → (i : Int) ≠ b.fNevBuf →
        table1.getD i 0 = table.getD i 0) ∧
    (∀ disp, b.fDisplacement = some disp →
      ∃ disp1, (Update writeBasket b offset skipped).basket.fDisplacement = some disp1 ∧
        ∀ i : Nat, (i : Int) < b.fNevBufSize → (i : Int) ≠ b.fNevBuf →
          disp1.getD i 0 = disp.getD i 0) ∧
    (Update writeBasket b offset skipped).entryOffsetLen =
      (if writeBasket < 10 then some (max 10 (2 * b.fNevBufSize)) else none) := by
  have hmax : 2 * b.fNevBufSize ≤ max 10 (2 * b.fNevBufSize) := le_max_right _ _
  unfold Update
  rw [ht]
  simp only [hfull, decide_True, if_true, Bool.true_and, decide_eq_true_eq]
  refine ⟨trivial, hmax, ⟨_, rfl, ?_, ?_⟩, ?_, trivial⟩
  · intro hlen
    rw [storeInt_length, ReAllocInt_length _ _ _ hlen]
  · intro i hi hne
    rw [storeInt_getD _ _ _ _ hne, ReAllocInt_getD _ _ _ _ hi (by omega)]
  · intro disp hd
    rw [hd]
    simp only [Option.map_some']
    refine ⟨_, rfl, ?_⟩
    intro i hi hne
    rw [storeInt_getD _ _ _ _ hne, ReAllocInt_getD _ _ _ _ hi (by omega)]

/-- Witness for `Update_grows_geometrically`: a second entry arrives in a
basket whose table of 2 slots holds one entry; the table grows to 10 slots. -/
theorem Update_grows_geometrically_witness :
    (Update 3 fullTableBasket 12 12).basket.fNevBufSize = max 10 (2 * fullTableBasket.fNevBufSize) ∧
    (Update 3 fullTableBasket 12 12).basket.fEntryOffset = some [8, 12, 0, 0, 0, 0, 0, 0, 0, 0] ∧
    (Update 3 fullTableBasket 12 12).entryOffsetLen = some 10 ∧
    (Update 10 fullTableBasket 12 12).entryOffsetLen = none :=
  ⟨(Update_grows_geometrically 3 fullTableBasket 12 12 [8, 0] (by decide) (by decide)).1,
    by decide, by decide, by decide⟩


/-! ## Reuse of the read buffer -/

/-- C20: for every `len >= 0`, the buffer `R__InitializeReadBasketBuffer`
returns has capacity at least `len` and is at offset 0; when an existing
buffer's capacity already covers `len`, the buffer keeps its capacity and its
storage: only its offset is reset (and it is put in read mode). -/
theorem R__InitializeReadBasketBuffer_reuse (bufferRef : Option TBuffer) (len : Int)
    (hlen : 0 ≤ len) :
    len ≤ (R__InitializeReadBasketBuffer bufferRef len).bufSize ∧
    (R__InitializeReadBasketBuffer bufferRef len).length = 0 ∧
    ∀ buf, bufferRef = some buf → len ≤ buf.bufSize →
      R__InitializeReadBasketBuffer bufferRef len = { buf with length := 0, writing := false } := by
  have hdiv : len ≤ Int.tdiv (len * 105) 100 := by
    rw [Int.tdiv_eq_ediv (by omega) (by norm_num)]
    omega
  cases bufferRef with
  | none =>
    refine ⟨le_refl _, rfl, ?_⟩
    intro buf h
    simp at h
  | some b =>
    refine ⟨?_, ?_, ?_⟩
    · simp only [R__InitializeReadBasketBuffer, TBuffer.Reset, TBuffer.Expand, Bool.true_and,
        decide_eq_true_eq]
      split_ifs <;> dsimp only <;> omega
    · simp only [R__InitializeReadBasketBuffer, TBuffer.Reset]
    · intro buf h hcap
      simp only [Option.some.injEq] at h
      subst h
      simp only [R__InitializeReadBasketBuffer, TBuffer.Reset]
      rw [if_neg (by omega)]

/-- Witness for `R__InitializeReadBasketBuffer_reuse`: a request for 11 bytes
on the 64-byte buffer of `bypassBasket`. -/
theorem R__InitializeReadBasketBuffer_reuse_witness :
    (11 : Int) ≤ (R__InitializeReadBasketBuffer bypassBasket.fBufferRef 11).bufSize ∧
    (R__InitializeReadBasketBuffer bypassBasket.fBufferRef 11).length = 0 ∧
    ∀ buf, bypassBasket.fBufferRef = some buf → 11 ≤ buf.bufSize →
      R__InitializeReadBasketBuffer bypassBasket.fBufferRef 11 =
        { buf with length := 0, writing := false } :=
  R__InitializeReadBasketBuffer_reuse bypassBasket.fBufferRef 11 (by decide)

end TBasket

namespace TBasket

/-! ## Headroom of the read buffer -/

/-- C21 (counterexample): on first use, with no existing buffer, a request for
1000 bytes gives a buffer of capacity 1000, not `floor(1.05 * 1000) = 1050`. -/
theorem fresh_read_buffer_has_no_headroom :
    (R__InitializeReadBasketBuffer none 1000).bufSize = 1000 ∧
    ⌊(105 / 100 : ℚ) * (1000 : Int)⌋ = 1050 := by
  refine ⟨by decide, ?_⟩
  rw [Int.floor_eq_iff]
  norm_num

/-- C21 (amended): when `R__InitializeReadBasketBuffer` grows an existing
buffer (capacity below `len`, offset within the capacity), the capacity becomes
`floor(1.05 * len)`, which is `len * 105 / 100`; when there is no buffer yet, the
new buffer is made for `len` bytes, without headroom. -/
theorem R__InitializeReadBasketBuffer_headroom (bufferRef : Option TBuffer) (len : Int)
    (hlen : 0 ≤ len) :
    (∀ buf, bufferRef = some buf → buf.bufSize < len → buf.length ≤ buf.bufSize →
      (R__InitializeReadBasketBuffer bufferRef len).bufSize = len * 105 / 100 ∧
      (R__InitializeReadBasketBuffer bufferRef len).bufSize = ⌊(105 / 100 : ℚ) * len⌋) ∧
    (bufferRef = none → (R__InitializeReadBasketBuffer bufferRef len).bufSize = len) := by
  have hdiv : Int.tdiv (len * 105) 100 = len * 105 / 100 :=
    Int.tdiv_eq_ediv (by omega) (by norm_num)
  have hfloor : ⌊(105 / 100 : ℚ) * len⌋ = len * 105 / 100 := by
    have h := Rat.floor_intCast_div_natCast (len * 105) 100
    have e : (105 / 100 : ℚ) * len = ((len * 105 : Int) : ℚ) / ((100 : ℕ) : ℚ) := by
      push_cast
      ring
    rw [e, h]
    rfl
  refine ⟨?_, ?_⟩
  · intro buf hb hcap hoff
    subst hb
    have hsize : (R__InitializeReadBasketBuffer (some buf) len).bufSize = len * 105 / 100 := by
      simp only [R__InitializeReadBasketBuffer, TBuffer.Reset, TBuffer.Expand, Bool.true_and,
        decide_eq_true_eq, hcap, if_true, hdiv]
      rw [if_neg]
      omega
    exact ⟨hsize, by rw [hsize, hfloor]⟩
  · intro hb
    subst hb
    rfl

/-- Witness for `R__InitializeReadBasketBuffer_headroom`: a request for 1000
bytes on the 64-byte buffer of `bypassBasket` gives capacity 1050. -/
theorem R__InitializeReadBasketBuffer_headroom_witness :
    (R__InitializeReadBasketBuffer bypassBasket.fBufferRef 1000).bufSize = 1000 * 105 / 100 ∧
    (R__InitializeReadBasketBuffer bypassBasket.fBufferRef 1000).bufSize =
      ⌊(105 / 100 : ℚ) * (1000 : Int)⌋ :=
  (R__InitializeReadBasketBuffer_headroom bypassBasket.fBufferRef 1000 (by decide)).1
    { data := [], length := 0, bufSize := 64, notDecompressed := false, writing := false }
    (by decide) (by decide) (by decide)

end TBasket

namespace TBasket

/-! ## The reading `Streamer` -/

theorem maskOffset_eq (x : Int) : maskOffset x = x % 16777216 := by
  unfold maskOffset
  have h1 : (4294967295 - 4278190080 : Nat) = 2 ^ 24 - 1 := by norm_num
  rw [h1, Nat.and_pow_two_sub_one_eq_mod]
  have h2 : (0 : Int) ≤ x % 4294967296 := Int.emod_nonneg _ (by norm_num)
  push_cast
  rw [Int.toNat_of_nonneg h2]
  omega

theorem maskFirst_length (n : Int) (table : List Int) :
    (maskFirst n table).length = table.length := by
  unfold maskFirst
  simp only [List.length_append, List.length_map, List.length_take, List.length_drop]
  omega

theorem maskFirst_getD (n : Int) (table : List Int) (i : Nat) (hi : (i : Int) < n)
    (hl : i < table.length) : (maskFirst n table).getD i 0 = maskOffset (table.getD i 0) := by
  unfold maskFirst
  have hin : i < n.toNat := by omega
  simp only [List.getD_eq_getElem?_getD]
  rw [List.getElem?_append_left (by simp only [List.length_map, List.length_take]; omega)]
  rw [List.getElem?_map, List.getElem?_take_of_lt hin, List.getElem?_eq_getElem hl]
  rfl

theorem streamerFlag_not_legacy (w : Basket) : ¬ (20 < streamerFlag w ∧ streamerFlag w < 40) := by
  unfold streamerFlag
  dsimp only
  split_ifs <;> omega

/-- C22: when `Streamer` reads a basket whose flag is of the legacy encoding
(`20 < flag < 40`, with an entry-offset table, `flag % 10 != 2`), the table it
leaves has, in each of its first `fNevBuf` slots, the decoded value with the
high byte cleared: a value in `[0, 2^24)` with the same low 24 bits.  For every
flag the writing `Streamer` computes (that announces a table), the table is the
decoded array, unmodified. -/
theorem Streamer_masks_legacy_offsets (env : Codec) (io : StreamIO) (b : Basket) (data : Bytes) :
    (20 < (env.readHeader data).flag → (env.readHeader data).flag < 40 →
      Int.tmod (env.readHeader data).flag 10 ≠ 2 →
      ∃ table, (StreamerRead env io b data).1.fEntryOffset = some table ∧
        table.length = (decodedOffsets env io b data).1.length ∧
        ∀ i : Nat, (i : Int) < (env.readHeader data).fNevBuf → i < table.length →
          table.getD i 0 = maskOffset ((decodedOffsets env io b data).1.getD i 0) ∧
          0 ≤ table.getD i 0 ∧ table.getD i 0 < 16777216 ∧
          table.getD i 0 % 16777216 = (decodedOffsets env io b data).1.getD i 0 % 16777216) ∧
    (∀ w : Basket, (env.readHeader data).flag = streamerFlag w → streamerFlag w ≠ 0 →
      Int.tmod (streamerFlag w) 10 ≠ 2 →
      (StreamerRead env io b data).1.fEntryOffset = some (decodedOffsets env io b data).1) := by
  refine ⟨?_, ?_⟩
  · intro h1 h2 h3
    have h0 : (env.readHeader data).flag ≠ 0 := by omega
    have h40 : ¬ (env.readHeader data).flag > 40 := by omega
    have h10 : (env.readHeader data).flag = 1 ∨ (env.readHeader data).flag > 10 := by
      right; omega
    refine ⟨maskFirst (env.readHeader data).fNevBuf (decodedOffsets env io b data).1, ?_,
      maskFirst_length _ _, ?_⟩
    · unfold StreamerRead
      simp only [h0, if_false, h3, ne_eq, not_false_eq_true, if_true, h1, h2, and_self, h40, h10]
      rfl
    · intro i hi hl
      rw [maskFirst_length] at hl
      rw [maskFirst_getD _ _ _ hi hl, maskOffset_eq]
      refine ⟨rfl, Int.emod_nonneg _ (by norm_num), Int.emod_lt_of_pos _ (by norm_num), ?_⟩
      omega
  · intro w hw h0 h3
    have hleg := streamerFlag_not_legacy w
    rw [← hw] at hleg h0 h3
    unfold StreamerRead
    simp only [h0, if_false, h3, ne_eq, not_false_eq_true, if_true, hleg]
    by_cases h40 : (env.readHeader data).flag > 40
    · have h10 : (env.readHeader data).flag = 1 ∨ (env.readHeader data).flag > 10 := by
        right; omega
      simp only [h40, if_true, h10]
    · simp only [h40, if_false]
      split_ifs <;> rfl

/-- Witness for `Streamer_masks_legacy_offsets`: `legacyStream` carries the
offsets `0x01000008` and `0x0200000C` under the flag 21; `Streamer` leaves 8
and 12. -/
theorem Streamer_masks_legacy_offsets_witness :
    (decodedOffsets sampleCodec sampleIO emptyBasket legacyStream).1 =
      [16777224, 33554444, 0, 0] ∧
    (StreamerRead sampleCodec sampleIO emptyBasket legacyStream).1.fEntryOffset =
      some [8, 12, 0, 0] ∧
    ∃ table, (StreamerRead sampleCodec sampleIO emptyBasket legacyStream).1.fEntryOffset =
        some table ∧
      table.length = (decodedOffsets sampleCodec sampleIO emptyBasket legacyStream).1.length ∧
      ∀ i : Nat, (i : Int) < (sampleCodec.readHeader legacyStream).fNevBuf → i < table.length →
        table.getD i 0 =
          maskOffset ((decodedOffsets sampleCodec sampleIO emptyBasket legacyStream).1.getD i 0) ∧
        0 ≤ table.getD i 0 ∧ table.getD i 0 < 16777216 ∧
        table.getD i 0 % 16777216 =
          (decodedOffsets sampleCodec sampleIO emptyBasket legacyStream).1.getD i 0 % 16777216 :=
  ⟨by decide, by decide,
    (Streamer_masks_legacy_offsets sampleCodec sampleIO emptyBasket legacyStream).1
      (by decide) (by decide) (by decide)⟩

end TBasket

namespace TBasket

/-! ## `Streamer`: writing, then reading -/

/-- C30 (evaluation): a basket with a displacement table and no entry does not
survive the round trip.  `relocatedThenReset` is reached through the write
constructor, `Update(8, 20)` and `Reset`; it has `fNevBuf = 0` and both tables.
The writing `Streamer` emits the flag 51 and no array (16 bytes in all), the
reading `Streamer` reads a displacement array because the flag is above 40: it
consumes 17 bytes.  For `emptyRelocatedBasket` the buffer bytes that come back
are the written ones shifted by one. -/
theorem Streamer_round_trip_fails_without_entries :
    (relocatedThenReset.fNevBuf = 0 ∧ relocatedThenReset.fEntryOffset = some [0, 0, 0, 0] ∧
      relocatedThenReset.fDisplacement = some [20, 0, 0, 0] ∧
      relocatedThenReset.fHeaderOnly = false) ∧
    ((StreamerWrite sampleCodec 0 relocatedThenReset).2.length = 16 ∧
      (StreamerRead sampleCodec sampleIO emptyBasket
        (StreamerWrite sampleCodec 0 relocatedThenReset).2).2 = 17) ∧
    ((StreamerWrite sampleCodec 0 emptyRelocatedBasket).2 =
        [0, 56, 8, 64, 4, 0, 8, 51, 0, 56, 8, 64, 4, 0, 8, 0] ∧
      (StreamerRead sampleCodec sampleIO emptyBasket
        (StreamerWrite sampleCodec 0 emptyRelocatedBasket).2).2 = 17 ∧
      ((StreamerRead sampleCodec sampleIO emptyBasket
        (StreamerWrite sampleCodec 0 emptyRelocatedBasket).2).1.fBufferRef.map
          (fun (buf : TBuffer) => readBytes buf.data 0 8)) = some [56, 8, 64, 4, 0, 8, 0, 0]) := by
  refine ⟨by decide, by decide, by decide⟩

end TBasket

namespace TBasket

/-! ## The displacement table -/

theorem readInts_getD (a : List Int) (n : Int) (i : Nat) (h : (i : Int) < n) :
    (readInts a n).getD i 0 = a.getD i 0 := by
  unfold readInts
  have hi : i < n.toNat := by omega
  simp only [List.getD_eq_getElem?_getD]
  rw [List.getElem?_map, List.getElem?_range hi]
  rfl

theorem readInts_length (a : List Int) (n : Int) : (readInts a n).length = n.toNat := by
  unfold readInts
  simp

theorem storeInt_getD_self (a : List Int) (j v : Int) (h0 : 0 ≤ j) (h : j.toNat < a.length) :
    (storeInt a j v).getD j.toNat 0 = v := by
  unfold storeInt
  rw [if_pos h0]
  simp only [List.getD_eq_getElem?_getD]
  rw [List.getElem?_set_self h]
  rfl

theorem UpdateLast_displacement (writeBasket : Int) (b : Basket) (newlast : Int)
    (h : b.fDisplacement = none) : (UpdateLast writeBasket b newlast).fDisplacement = none := by
  unfold UpdateLast Update
  cases ht : b.fEntryOffset with
  | none => exact h
  | some table =>
    simp only [h, Option.map_none', ne_eq, not_true_eq_false, if_false, ite_self]

theorem fillBasket_displacement (writeBasket : Int) (offsets : List Int) :
    ∀ b : Basket, b.fDisplacement = none →
      (fillBasket writeBasket b offsets).fDisplacement = none := by
  induction offsets with
  | nil => intro b h; exact h
  | cons o os ih =>
    intro b h
    exact ih _ (UpdateLast_displacement writeBasket b o h)

theorem construct_displacement (env : ResetEnv) (b : Basket) (h : construct env = some b) :
    b.fDisplacement = none := by
  unfold construct at h
  by_cases hneg : env.entryOffsetLen < 0
  · rw [if_pos hneg] at h
    simp at h
  · rw [if_neg hneg] at h
    simp only [Option.some.injEq] at h
    subst h
    rfl

theorem streamerFlag_no_displacement (b : Basket) (h : b.fDisplacement = none) :
    streamerFlag b < 40 := by
  unfold streamerFlag
  rw [h]
  dsimp only
  simp only [Option.isSome_none, Bool.false_eq_true, if_false]
  split_ifs <;> omega

end TBasket

namespace TBasket

/-- C23: `Update` gives a basket without displacement table one exactly when
the basket has an entry-offset table and `skipped != offset`.  A basket made by
the write constructor and filled through `Update(newlast)` only has no
displacement table, the flag `Streamer` writes for it has no displacement marker
(it is below 40) and `WriteBuffer` appends no displacement array.  When the
table is created at entry `k = fNevBuf`, `displacement[i] == offset[i]` for
every `i < k`, these being the offsets of the earlier entries, and
`displacement[k] == skipped`. -/
theorem Update_displacement_only_on_relocation (writeBasket : Int) (b : Basket)
    (offset skipped : Int) :
    (b.fDisplacement = none →
      ((Update writeBasket b offset skipped).basket.fDisplacement.isSome = true ↔
        (b.fEntryOffset.isSome = true ∧ skipped ≠ offset))) ∧
    (∀ (env : ResetEnv) (b0 : Basket) (offsets : List Int), construct env = some b0 →
      (fillBasket writeBasket b0 offsets).fDisplacement = none ∧
      streamerFlag (fillBasket writeBasket b0 offsets) < 40 ∧
      ∀ (codec : Codec) (buf : TBuffer),
        (appendTables codec (fillBasket writeBasket b0 offsets) buf).2 =
          match (fillBasket writeBasket b0 offsets).fEntryOffset with
          | none => buf
          | some table =>
            buf.write (codec.writeArray
              (table.take ((fillBasket writeBasket b0 offsets).fNevBuf + 1).toNat))) ∧
    (∀ table, b.fEntryOffset = some table → b.fDisplacement = none →
      b.offsetTableOk = true → skipped ≠ offset →
      ∃ table1 disp, (Update writeBasket b offset skipped).basket.fEntryOffset = some table1 ∧
        (Update writeBasket b offset skipped).basket.fDisplacement = some disp ∧
        (∀ i : Nat, (i : Int) < b.fNevBuf →
          disp.getD i 0 = table1.getD i 0 ∧ table1.getD i 0 = table.getD i 0) ∧
        disp.getD b.fNevBuf.toNat 0 = skipped) := by
  refine ⟨?_, ?_, ?_⟩
  · intro hnone
    unfold Update
    cases ht : b.fEntryOffset with
    | none => simp [hnone]
    | some table =>
      by_cases hs : skipped = offset
      · simp [hnone, hs]
      · simp [hnone, hs]
  · intro env b0 offsets hc
    have hd := fillBasket_displacement writeBasket offsets b0 (construct_displacement env b0 hc)
    refine ⟨hd, streamerFlag_no_displacement _ hd, ?_⟩
    intro codec buf
    unfold appendTables
    cases ht : (fillBasket writeBasket b0 offsets).fEntryOffset with
    | none => simp only [ht]
    | some table => simp only [ht, hd]
  · intro table ht hnone hok hs
    rw [offsetTableOk_iff] at hok
    obtain ⟨h0, h1, h2⟩ := hok table ht
    have hmax : b.fNevBufSize ≤ max 10 (2 * b.fNevBufSize) := by
      have := le_max_right 10 (2 * b.fNevBufSize)
      omega
    unfold Update
    rw [ht]
    simp only [hnone, Option.map_none', ite_self, ne_eq, hs, not_false_eq_true, if_true,
      Option.map_some']
    refine ⟨_, _, rfl, rfl, ?_, ?_⟩
    · intro i hi
      have hne : (i : Int) ≠ b.fNevBuf := by omega
      rw [storeInt_getD _ _ _ _ hne, storeInt_getD _ _ _ _ hne]
      by_cases hfull : b.fNevBuf + 1 ≥ b.fNevBufSize
      · simp only [hfull, decide_True, if_true]
        rw [readInts_getD _ _ _ (by omega), storeInt_getD _ _ _ _ hne,
          ReAllocInt_getD _ _ _ _ (by omega) (by omega)]
        constructor <;> trivial
      · simp only [hfull, decide_False, Bool.false_eq_true, if_false]
        rw [readInts_getD _ _ _ (by omega), storeInt_getD _ _ _ _ hne]
        constructor <;> trivial
    · apply storeInt_getD_self _ _ _ h0
      rw [readInts_length]
      by_cases hfull : b.fNevBuf + 1 ≥ b.fNevBufSize
      · simp only [hfull, decide_True, if_true]
        omega
      · simp only [hfull, decide_False, Bool.false_eq_true, if_false]
        omega

/-- Witness for `Update_displacement_only_on_relocation`: the second entry of a
basket built by the write constructor is recorded with `Update(12, 20)`; the
displacement table created holds the first offset 8 and then 20.  The same
basket filled with `Update(8)`, `Update(12)` has no displacement table. -/
theorem Update_displacement_only_on_relocation_witness :
    (Update 0 (fillBasket 0 sampleConstructed [8]) 12 20).basket.fDisplacement =
      some [8, 20, 0, 0, 0, 0, 0, 0, 0, 0] ∧
    (fillBasket 0 sampleConstructed [8, 12]).fDisplacement = none ∧
    ∃ table1 disp,
      (Update 0 (fillBasket 0 sampleConstructed [8]) 12 20).basket.fEntryOffset = some table1 ∧
      (Update 0 (fillBasket 0 sampleConstructed [8]) 12 20).basket.fDisplacement = some disp ∧
      (∀ i : Nat, (i : Int) < (fillBasket 0 sampleConstructed [8]).fNevBuf →
        disp.getD i 0 = table1.getD i 0 ∧ table1.getD i 0 = ([8, 0] : List Int).getD i 0) ∧
      disp.getD (fillBasket 0 sampleConstructed [8]).fNevBuf.toNat 0 = 20 :=
  ⟨by decide, by decide,
    (Update_displacement_only_on_relocation 0 (fillBasket 0 sampleConstructed [8]) 12 20).2.2
      [8, 0] (by decide) (by decide) (by decide) (by decide)⟩

end TBasket

namespace TBasket

/-! ## `MoveEntries` and `Reset` -/

/-- C27 (counterexample): `twoEntryBasket` holds `fNevBuf = 2` entries;
`MoveEntries(2)` returns at its first line (`dentries >= fNevBuf`) and the
basket still holds 2 entries, not `2 - 2 = 0`. -/
theorem MoveEntries_of_all_entries_keeps_them :
    twoEntryBasket.fNevBuf = 2 ∧
    MoveEntries twoEntryBasket 2 = some twoEntryBasket ∧
    (MoveEntries twoEntryBasket 2).map (fun (b : Basket) => b.fNevBuf) ≠
      some (twoEntryBasket.fNevBuf - 2) := by
  refine ⟨by decide, by decide, by decide⟩

/-- C27 (amended): for `0 <= d < fNevBuf` (and a basket with a buffer)
`MoveEntries(d)` leaves `fNevBuf - d` entries; for `d >= fNevBuf`, in particular
`d == fNevBuf`, it changes nothing. -/
theorem MoveEntries_count (b : Basket) (d : Int) :
    (0 ≤ d → d < b.fNevBuf → b.fBufferRef.isSome = true →
      ∃ b1, MoveEntries b d = some b1 ∧ b1.fNevBuf = b.fNevBuf - d) ∧
    (d ≥ b.fNevBuf → MoveEntries b d = some b) := by
  refine ⟨?_, ?_⟩
  · intro h0 hlt hbuf
    unfold MoveEntries
    rw [if_neg (by omega), if_neg (by omega)]
    cases hb : b.fBufferRef with
    | none => rw [hb] at hbuf; simp at hbuf
    | some buf => exact ⟨_, rfl, rfl⟩
  · intro hge
    unfold MoveEntries
    rw [if_pos hge]

/-- Witness for `MoveEntries_count`: `MoveEntries(1)` on `twoEntryBasket`
leaves one entry, at the start of the payload. -/
theorem MoveEntries_count_witness :
    (∃ b1, MoveEntries twoEntryBasket 1 = some b1 ∧ b1.fNevBuf = twoEntryBasket.fNevBuf - 1) ∧
    (MoveEntries twoEntryBasket 1).map (fun (b : Basket) => (b.fNevBuf, b.fEntryOffset)) =
      some (1, some [8, -4, -4, -4, -4, -4, -4, -4, -4, 0]) :=
  ⟨(MoveEntries_count twoEntryBasket 1).1 (by decide) (by decide) (by decide), by decide⟩

end TBasket

namespace TBasket

theorem resetEntryOffset_zeroed (n size : Int) (old : Option (List Int))
    (hold : ∀ t, old = some t → t.length = size.toNat) :
    resetEntryOffset n size old =
      if n = 0 then none else some (List.replicate n.toNat 0) := by
  unfold resetEntryOffset
  by_cases h0 : n = 0
  · rw [if_pos h0, if_pos h0]
  · rw [if_neg h0, if_neg h0]
    by_cases hne : n ≠ size
    · simp [hne]
    · simp only [ne_eq, not_not] at hne
      subst hne
      cases old with
      | none => simp
      | some t =>
        have hl := hold t rfl
        simp only [ne_eq, not_true_eq_false, if_false, hl, min_self]
        rw [List.drop_of_length_le (le_of_eq hl), List.append_nil]

/-- C28: `Reset` on a basket with a buffer, for a branch whose entry-offset
length is not negative and a basket whose entry-offset table (if any) has
`fNevBufSize` slots, completes and leaves `fNevBuf == 0`, `fLast == fKeylen`,
`fObjlen == fBufferSize - fKeylen`, `fHeaderOnly` false, and an entry-offset
table of `GetEntryOffsetLen()` slots that all hold 0, absent when that length is
0; these members are the ones the write constructor gives for the same
branch. -/
theorem Reset_starting_state (env : ResetEnv) (b : Basket) (hlen : 0 ≤ env.entryOffsetLen)
    (hok : b.offsetTableOk = true) (hbuf : b.fBufferRef.isSome = true) :
    ∃ b1, Reset env b = some b1 ∧
      b1.fNevBuf = 0 ∧ b1.fLast = b1.fKeylen ∧ b1.fObjlen = b1.fBufferSize - b1.fKeylen ∧
      b1.fHeaderOnly = false ∧ b1.fNevBufSize = env.entryOffsetLen ∧
      b1.fEntryOffset =
        (if env.entryOffsetLen = 0 then none
         else some (List.replicate env.entryOffsetLen.toNat 0)) ∧
      ∀ c, construct env = some c →
        b1.fNevBuf = c.fNevBuf ∧ b1.fLast = c.fLast ∧ b1.fKeylen = c.fKeylen ∧
        b1.fHeaderOnly = c.fHeaderOnly ∧ b1.fNevBufSize = c.fNevBufSize ∧
        b1.fEntryOffset = c.fEntryOffset := by
  rw [offsetTableOk_iff] at hok
  have ht := resetEntryOffset_zeroed env.entryOffsetLen b.fNevBufSize b.fEntryOffset
    (fun t h => (hok t h).2.2)
  unfold Reset
  cases hb : b.fBufferRef with
  | none => rw [hb] at hbuf; simp at hbuf
  | some buf =>
    refine ⟨_, rfl, rfl, rfl, rfl, rfl, rfl, ht, ?_⟩
    intro c hc
    unfold construct at hc
    rw [if_neg (by omega)] at hc
    simp only [Option.some.injEq] at hc
    subst hc
    exact ⟨rfl, rfl, rfl, rfl, rfl, ht⟩

/-- Witness for `Reset_starting_state`: `twoEntryBasket`, whose table has grown
to 10 slots, is reset for a branch with entry-offset length 4. -/
theorem Reset_starting_state_witness :
    (Reset (sampleWriteEnv 4) twoEntryBasket).map
        (fun (b : Basket) => (b.fNevBuf, b.fLast, b.fKeylen, b.fObjlen, b.fEntryOffset)) =
      some (0, 8, 8, 56, some [0, 0, 0, 0]) ∧
    ∃ b1, Reset (sampleWriteEnv 4) twoEntryBasket = some b1 ∧
      b1.fNevBuf = 0 ∧ b1.fLast = b1.fKeylen ∧ b1.fObjlen = b1.fBufferSize - b1.fKeylen ∧
      b1.fHeaderOnly = false ∧ b1.fNevBufSize = (sampleWriteEnv 4).entryOffsetLen ∧
      b1.fEntryOffset =
        (if (sampleWriteEnv 4).entryOffsetLen = 0 then none
         else some (List.replicate (sampleWriteEnv 4).entryOffsetLen.toNat 0)) ∧
      ∀ c, construct (sampleWriteEnv 4) = some c →
        b1.fNevBuf = c.fNevBuf ∧ b1.fLast = c.fLast ∧ b1.fKeylen = c.fKeylen ∧
        b1.fHeaderOnly = c.fHeaderOnly ∧ b1.fNevBufSize = c.fNevBufSize ∧
        b1.fEntryOffset = c.fEntryOffset :=
  ⟨by decide,
    Reset_starting_state (sampleWriteEnv 4) twoEntryBasket (by decide) (by decide) (by decide)⟩

end TBasket

namespace TBasket

/-! ## `WriteBuffer` at compression level 0 -/

theorem record_payload (d bytes : Bytes) (k n : Nat) (h : bytes.length = k) :
    ((writeAt d 0 bytes).take (k + n)).drop k = (d.drop k).take n := by
  unfold writeAt
  subst h
  simp [List.drop_take]

/-- C25 (counterexample): the basket the bypass read leaves at level 0 carries
the raw record `singleEntryRecord` in a buffer flagged `kNotDecompressed`
(`fKeylen = 8`, `fObjlen = 4`, compressed payload `[3,4,5]`).  `WriteBuffer` on a
branch of compression level 0 stores that record as it is and returns
`fNbytes = 11`, not `fKeylen + fObjlen = 12`; the stored payload has 3 bytes. -/
theorem WriteBuffer_level_zero_stores_raw_record :
    (bypassRead 0).basket.bufferFlagged = true ∧
    (WriteBuffer sampleCodec (sampleBranch 0 0) (some goodFile) (bypassRead 0).basket).map
        (fun (r : WriteResult) =>
          (r.ret, r.basket.fKeylen, r.basket.fObjlen, r.record.map (fun (rec : Bytes) => rec.drop 8))) =
      some (11, 8, 4, some [3, 4, 5]) := by
  refine ⟨by decide, by decide⟩

/-- C25 (amended): on a writable file `WriteBuffer` completes in both cases
below.  For a basket whose buffer is not flagged `kNotDecompressed` and holds
at least the key, on a branch of compression level 0 (or below): the payload of
the record it hands to the file, the bytes behind the `fKeylen` bytes of the
key, is the content of the basket's buffer from `fKeylen` up to its length (the
data followed by the tables `WriteBuffer` appends), `fObjlen` is the length of
that range, and the value returned when `WriteFileKeepBuffer` succeeds is
`fKeylen + fObjlen`.  For a basket whose buffer is flagged `kNotDecompressed`
and holds a record whose header has flag byte 0 and `0 <= fKeylen <= fNbytes`,
on a branch of any compression level: `fKeylen`, `fObjlen` and `fNbytes` are
those of that header, the payload of the record handed to the file is the
`fNbytes - fKeylen` bytes the buffer holds behind the key, as they are, and the
value returned when `WriteFileKeepBuffer` succeeds is `fNbytes`. -/
theorem WriteBuffer_level_zero (env : Codec) (br : Branch) (file : WriteFile) (b : Basket)
    (buf : TBuffer) (hbuf : b.fBufferRef = some buf) (hw : file.writable = true) :
    (buf.notDecompressed = false → br.compressionLevel ≤ 0 →
      (∀ h, (env.writeHeader h).length = b.fKeylen.toNat) →
      0 ≤ b.fKeylen → b.fKeylen ≤ buf.length →
      ∃ r, WriteBuffer env br (some file) b = some r ∧
        r.basket.fKeylen = b.fKeylen ∧
        r.basket.fObjlen = (appendTables env b buf).2.length - b.fKeylen ∧
        r.basket.fNbytes = r.basket.fKeylen + r.basket.fObjlen ∧
        r.record.map (fun (rec : Bytes) => rec.drop b.fKeylen.toNat) =
          some (((appendTables env b buf).2.data.drop b.fKeylen.toNat).take
            r.basket.fObjlen.toNat) ∧
        (file.writeFileKeepBuffer > 0 → r.ret = r.basket.fKeylen + r.basket.fObjlen)) ∧
    (buf.notDecompressed = true → (env.readHeader buf.data).flag = 0 →
      (∀ h, (env.writeHeader h).length = (env.readHeader buf.data).fKeylen.toNat) →
      0 ≤ (env.readHeader buf.data).fKeylen →
      (env.readHeader buf.data).fKeylen ≤ (env.readHeader buf.data).fNbytes →
      ∃ r, WriteBuffer env br (some file) b = some r ∧
        r.basket.fKeylen = (env.readHeader buf.data).fKeylen ∧
        r.basket.fObjlen = (env.readHeader buf.data).fObjlen ∧
        r.basket.fNbytes = (env.readHeader buf.data).fNbytes ∧
        r.record.map (fun (rec : Bytes) => rec.drop (env.readHeader buf.data).fKeylen.toNat) =
          some ((buf.data.drop (env.readHeader buf.data).fKeylen.toNat).take
            ((env.readHeader buf.data).fNbytes - (env.readHeader buf.data).fKeylen).toNat) ∧
        (file.writeFileKeepBuffer > 0 → r.ret = (env.readHeader buf.data).fNbytes)) := by
  constructor
  · intro hnd hlevel hhdr hkey hlen
    obtain ⟨hk, hl, hge⟩ := appendTables_spec env b buf
    unfold WriteBuffer
    simp only [hw, Bool.not_true, Bool.false_eq_true, if_false, hbuf, hnd]
    rw [if_neg (by omega)]
    refine ⟨_, rfl, hk, ?_, ?_, ?_, ?_⟩
    · show (appendTables env b buf).2.length - (appendTables env b buf).1.fKeylen = _
      rw [hk]
    · rfl
    · simp only [writeUncompressed, writeFile, createAndStreamHeader, StreamerWriteHeader,
        Basket.bufferData, Option.map_some', Option.getD_some, hk]
      have e : (b.fKeylen + ((appendTables env b buf).2.length - b.fKeylen)).toNat =
          b.fKeylen.toNat + ((appendTables env b buf).2.length - b.fKeylen).toNat := by
        omega
      rw [e]
      have e0 : (0 : Int).toNat = 0 := rfl
      rw [e0, record_payload _ _ _ _ (hhdr _)]
    · intro hpos
      simp only [writeUncompressed, writeFile, hpos, if_true]
  · intro hnd hflag hhdr hkey hlen
    unfold WriteBuffer
    simp only [hw, Bool.not_true, Bool.false_eq_true, if_false, hbuf, hnd, if_true,
      StreamerReadHeader, hflag]
    refine ⟨_, rfl, rfl, rfl, ?_, ?_, ?_⟩
    · simp only [writeFile, createAndStreamHeader, StreamerWriteHeader]
      omega
    · simp only [writeFile, createAndStreamHeader, StreamerWriteHeader,
        Basket.bufferData, Option.map_some', Option.getD_some]
      have e : ((env.readHeader buf.data).fKeylen +
          ((env.readHeader buf.data).fNbytes - (env.readHeader buf.data).fKeylen)).toNat =
          (env.readHeader buf.data).fKeylen.toNat +
            ((env.readHeader buf.data).fNbytes - (env.readHeader buf.data).fKeylen).toNat := by
        omega
      rw [e]
      have e0 : (0 : Int).toNat = 0 := rfl
      rw [e0, record_payload _ _ _ _ (hhdr _)]
    · intro hpos
      simp only [writeFile, createAndStreamHeader, StreamerWriteHeader, hpos, if_true]
      omega

/-- Witness for `WriteBuffer_level_zero`: `oneEntryBasket` written at level 0;
the record is the key followed by the four data bytes and the entry-offset
array, seven payload bytes in all.  And the basket the bypass read leaves for
`singleEntryRecord`, whose buffer is flagged, written at level 5: the record
is `singleEntryRecord` as it was read and the value returned is 11. -/
theorem WriteBuffer_level_zero_witness :
    (WriteBuffer sampleCodec (sampleBranch 0 4) (some goodFile) oneEntryBasket).map
        (fun (r : WriteResult) => (r.ret, r.record)) =
      some (15, some [15, 7, 8, 64, 4, 1, 12, 0, 5, 0, 0, 0, 2, 8, 0]) ∧
    (∃ r, WriteBuffer sampleCodec (sampleBranch 0 4) (some goodFile) oneEntryBasket = some r ∧
      r.basket.fKeylen = oneEntryBasket.fKeylen ∧
      r.basket.fObjlen =
        (appendTables sampleCodec oneEntryBasket
          (oneEntryBasket.fBufferRef.getD (TBuffer.mk [] 0 0 false false))).2.length -
          oneEntryBasket.fKeylen ∧
      r.basket.fNbytes = r.basket.fKeylen + r.basket.fObjlen ∧
      r.record.map (fun (rec : Bytes) => rec.drop oneEntryBasket.fKeylen.toNat) =
        some (((appendTables sampleCodec oneEntryBasket
          (oneEntryBasket.fBufferRef.getD (TBuffer.mk [] 0 0 false false))).2.data.drop
            oneEntryBasket.fKeylen.toNat).take r.basket.fObjlen.toNat) ∧
      (goodFile.writeFileKeepBuffer > 0 → r.ret = r.basket.fKeylen + r.basket.fObjlen)) ∧
    (WriteBuffer sampleCodec (sampleBranch 5 0) (some goodFile) (bypassRead 0).basket).map
        (fun (r : WriteResult) => (r.ret, r.record)) =
      some (11, some [11, 4, 8, 64, 4, 1, 12, 0, 3, 4, 5]) ∧
    (∃ r, WriteBuffer sampleCodec (sampleBranch 5 0) (some goodFile) (bypassRead 0).basket =
        some r ∧
      r.basket.fKeylen = (sampleCodec.readHeader flaggedBuffer.data).fKeylen ∧
      r.basket.fObjlen = (sampleCodec.readHeader flaggedBuffer.data).fObjlen ∧
      r.basket.fNbytes = (sampleCodec.readHeader flaggedBuffer.data).fNbytes ∧
      r.record.map (fun (rec : Bytes) =>
          rec.drop (sampleCodec.readHeader flaggedBuffer.data).fKeylen.toNat) =
        some ((flaggedBuffer.data.drop
          (sampleCodec.readHeader flaggedBuffer.data).fKeylen.toNat).take
            ((sampleCodec.readHeader flaggedBuffer.data).fNbytes -
              (sampleCodec.readHeader flaggedBuffer.data).fKeylen).toNat) ∧
      (goodFile.writeFileKeepBuffer > 0 →
        r.ret = (sampleCodec.readHeader flaggedBuffer.data).fNbytes)) :=
  ⟨by decide,
    (WriteBuffer_level_zero sampleCodec (sampleBranch 0 4) goodFile oneEntryBasket
      (oneEntryBasket.fBufferRef.getD (TBuffer.mk [] 0 0 false false))
      (by decide) (by decide)).1 (by decide) (by decide) (fun _ => rfl) (by decide)
      (by decide),
    by decide,
    (WriteBuffer_level_zero sampleCodec (sampleBranch 5 0) goodFile (bypassRead 0).basket
      flaggedBuffer (by decide) (by decide)).2 (by decide) (by decide) (fun _ => rfl)
      (by decide) (by decide)⟩

end TBasket

namespace PyROOT

/-! ## Trimming the staging buffer -/

/-- C24 (evaluation at the failing input): in the second step over
`unevenBulk`, `ReadOne(1)` calls `CopyToExtra(1)` in the state
`stagedBeforeTrim`: `exEntryStart = 0 < 1 <= exEntryEnd = 2`, while `fExtra`
holds the single staged byte `[21]` of entry 1 and the basket buffer holds
`[22]`.  Discarding the first `(1 - 0) * 1` staged bytes and appending the basket
gives `[22]`; `CopyToExtra(1)` reads outside `fExtra` (`faulted`) and leaves two
bytes, the appended byte 22 behind a byte that was never staged. -/
theorem CopyToExtra_trims_past_staged_bytes :
    (stagedBeforeTrim.exEntryStart, stagedBeforeTrim.exEntryEnd, stagedBeforeTrim.fItemSize,
      stagedBeforeTrim.fExtra, stagedBeforeTrim.fBufferFile, stagedBeforeTrim.faulted) =
      (0, 2, 1, [21], [22], false) ∧
    (stagedBeforeTrim.exEntryStart < 1 ∧ 1 ≤ stagedBeforeTrim.exEntryEnd) ∧
    (stagedBeforeCatchUp.ReadOne (unevenBulk 1) 1 none).1 = stagedBeforeTrim.CopyToExtra 1 ∧
    stagedBeforeTrim.fExtra.drop ((1 - stagedBeforeTrim.exEntryStart) *
        stagedBeforeTrim.fItemSize).toNat ++ stagedBeforeTrim.fBufferFile = [22] ∧
    (stagedBeforeTrim.CopyToExtra 1).fExtra = [0, 22] ∧
    (stagedBeforeTrim.CopyToExtra 1).faulted = true ∧
    (stagedBeforeTrim.CopyToExtra 1).exEntryStart = 1 := by
  decide

end PyROOT

namespace PyROOT

theorem readBytes_exact (src : Bytes) (off n : Int) (h0 : 0 ≤ off) (hn : 0 ≤ n)
    (h : (src.length : Int) = off + n) : readBytes src off n = src.drop off.toNat := by
  unfold readBytes
  have hl : (src.drop off.toNat).length = n.toNat := by
    rw [List.length_drop]
    omega
  simp only
  rw [List.take_of_length_le (le_of_eq hl), hl, Nat.sub_self, List.replicate_zero,
    List.append_nil]

/-- When `fExtra` holds exactly the entries `[exEntryStart, exEntryEnd)`,
`CopyToExtra(keep_start)` with `exEntryStart < keep_start <= exEntryEnd` drops
the first `(keep_start - exEntryStart) * fItemSize` bytes of `fExtra`, keeps the
others in front, sets `exEntryStart` and appends the basket bytes behind them.
The state `stagedBeforeTrim` is not of this kind: `ReadOne` has taken the
staging buffer into use without setting `exEntryStart`. -/
theorem CopyToExtra_consistent_staging (c : ClusterBuffer) (k : Int)
    (h1 : c.exEntryStart < k) (h2 : k ≤ c.exEntryEnd) (hs : 0 ≤ c.fItemSize)
    (hlen : (c.fExtra.length : Int) = (c.exEntryEnd - c.exEntryStart) * c.fItemSize) :
    (c.CopyToExtra k).exEntryStart = k ∧
    (c.CopyToExtra k).fExtra =
      c.fExtra.drop ((k - c.exEntryStart) * c.fItemSize).toNat ++
        (if (c.bfEntryEnd - c.bfEntryStart) * c.fItemSize > 0 then
          readBytes c.fBufferFile 0 ((c.bfEntryEnd - c.bfEntryStart) * c.fItemSize)
        else []) := by
  have hoff : 0 ≤ (k - c.exEntryStart) * c.fItemSize := mul_nonneg (by omega) hs
  have hnew : 0 ≤ (c.exEntryEnd - k) * c.fItemSize := mul_nonneg (by omega) hs
  have hsum : (c.fExtra.length : Int) =
      (k - c.exEntryStart) * c.fItemSize + (c.exEntryEnd - k) * c.fItemSize := by
    rw [hlen]
    ring
  have hread := readBytes_exact c.fExtra _ _ hoff hnew hsum
  unfold ClusterBuffer.CopyToExtra
  simp only [h1, if_true, hread]
  by_cases ha : (c.bfEntryEnd - c.bfEntryStart) * c.fItemSize > 0
  · simp only [ha, if_true, and_self]
  · simp only [ha, if_false, List.append_nil, and_self]

end PyROOT

namespace NumpyInterface

/-! ## Assembly of a requested range -/

/-- C26 (evaluation at the failing input): the loaded buffers hold the
consecutive ranges `[5,8)` and `[8,10)`; the entries 3 and 4 of the request
`[3,10)` are in no buffer.  `getdata` takes the copying path and returns
`extra_buffer.data()`, not `NULL`: no buffer covers entry 3, both buffers are
appended, and `fill_end` reaches `entry_end`.  `extra_buffer` then holds what it
held before followed by the five bytes of the entries `[5,10)`: five bytes when
it was empty, not `(10 - 3) * 1 = 7`, and seven bytes that start with the two
stale bytes when it held two. -/
theorem getdata_accepts_uncovered_start :
    consecutiveRanges (loadedFromFive []).buffers = true ∧
    entryLoaded (loadedFromFive []).buffers 3 = false ∧
    (loadedFromFive []).getdata 1 3 10 0 =
      { extra_buffer := [55, 56, 57, 58, 59], numbytes := none, pointer := DataPointer.extra } ∧
    (loadedFromFive [1, 2]).getdata 1 3 10 0 =
      { extra_buffer := [1, 2, 55, 56, 57, 58, 59], numbytes := none
        pointer := DataPointer.extra } := by
  decide

end NumpyInterface

namespace TLeafElement

/-! ## Widening a leaf range -/

/-- C29 (evaluation at the failing input): a leaf with the range `[0, 10]`
includes a leaf with the range `[-5, 3]`.  `IncludeRange` returns `kTRUE` and
leaves the range `[0, 10]`: the minimum 0 is above the input minimum -5.  The
maximum is raised when the input maximum is larger (`[-5, 30]` gives
`[0, 30]`), the minimum is never touched. -/
theorem IncludeRange_keeps_minimum :
    IncludeRange { fMinimum := 0, fMaximum := 10 } (some { fMinimum := -5, fMaximum := 3 }) =
      ({ fMinimum := 0, fMaximum := 10 }, true) ∧
    ¬ ((IncludeRange { fMinimum := 0, fMaximum := 10 }
        (some { fMinimum := -5, fMaximum := 3 })).1.fMinimum ≤ -5) ∧
    IncludeRange { fMinimum := 0, fMaximum := 10 } (some { fMinimum := -5, fMaximum := 30 }) =
      ({ fMinimum := 0, fMaximum := 30 }, true) ∧
    IncludeRange { fMinimum := 0, fMaximum := 10 } none =
      ({ fMinimum := 0, fMaximum := 10 }, false) := by
  decide

end TLeafElement

namespace TLeafElement

/-- The part of the range `IncludeRange` does widen: for a non-null input it
returns `kTRUE`, the maximum afterwards is the larger of the two maxima and the
minimum is the one the leaf had; for a null input it returns `kFALSE` and
changes nothing. -/
theorem IncludeRange_maximum (leaf : LeafRange) (input : Option LeafRange) :
    (∀ i, input = some i →
      (IncludeRange leaf input).2 = true ∧
      (IncludeRange leaf input).1.fMaximum = max leaf.fMaximum i.fMaximum ∧
      (IncludeRange leaf input).1.fMinimum = leaf.fMinimum) ∧
    (input = none → IncludeRange leaf input = (leaf, false)) := by
  refine ⟨?_, ?_⟩
  · intro i hi
    subst hi
    unfold IncludeRange
    by_cases h : i.fMaximum > leaf.fMaximum
    · simp only [h, if_true, true_and]
      exact ⟨(max_eq_right (le_of_lt h)).symm, trivial⟩
    · simp only [h, if_false, true_and]
      exact ⟨(max_eq_left (not_lt.mp h)).symm, trivial⟩
  · intro hi
    subst hi
    rfl

end TLeafElement

namespace TBasket

/-! ## Chunks of the compression loop -/

theorem zipLoopRun_fallback (env : Codec) (cxlevel cxAlgorithm fObjlen nbuffers : Int)
    (obj : Bytes) (k : Nat) (i nzip noutot : Int) (out : Bytes) (bufmax : Int)
    (hb : (if i = nbuffers - 1 then fObjlen - nzip else env.kMAXZIPBUF) = bufmax)
    (hc : ((env.zip cxlevel cxAlgorithm ((obj.drop nzip.toNat).take bufmax.toNat)
        bufmax).length : Int) = 0 ∨
      ((env.zip cxlevel cxAlgorithm ((obj.drop nzip.toNat).take bufmax.toNat)
        bufmax).length : Int) ≥ fObjlen) :
    zipLoopRun env cxlevel cxAlgorithm fObjlen nbuffers obj (k + 1) i nzip noutot out =
      { exit := ZipExit.fallback (out ++ env.zip cxlevel cxAlgorithm
          ((obj.drop nzip.toNat).take bufmax.toNat) bufmax)
        calls := [(nzip, bufmax)] } := by
  unfold zipLoopRun
  simp only [hb]
  rw [if_pos hc]

theorem zipLoopRun_continue (env : Codec) (cxlevel cxAlgorithm fObjlen nbuffers : Int)
    (obj : Bytes) (k : Nat) (i nzip noutot : Int) (out : Bytes) (bufmax : Int)
    (hb : (if i = nbuffers - 1 then fObjlen - nzip else env.kMAXZIPBUF) = bufmax)
    (hc : ¬ (((env.zip cxlevel cxAlgorithm ((obj.drop nzip.toNat).take bufmax.toNat)
        bufmax).length : Int) = 0 ∨
      ((env.zip cxlevel cxAlgorithm ((obj.drop nzip.toNat).take bufmax.toNat)
        bufmax).length : Int) ≥ fObjlen)) :
    zipLoopRun env cxlevel cxAlgorithm fObjlen nbuffers obj (k + 1) i nzip noutot out =
      { exit := (zipLoopRun env cxlevel cxAlgorithm fObjlen nbuffers obj k (i + 1)
          (nzip + env.kMAXZIPBUF)
          (noutot + (env.zip cxlevel cxAlgorithm ((obj.drop nzip.toNat).take bufmax.toNat)
            bufmax).length)
          (out ++ env.zip cxlevel cxAlgorithm ((obj.drop nzip.toNat).take bufmax.toNat)
            bufmax)).exit
        calls := (nzip, bufmax) :: (zipLoopRun env cxlevel cxAlgorithm fObjlen nbuffers obj k
          (i + 1) (nzip + env.kMAXZIPBUF)
          (noutot + (env.zip cxlevel cxAlgorithm ((obj.drop nzip.toNat).take bufmax.toNat)
            bufmax).length)
          (out ++ env.zip cxlevel cxAlgorithm ((obj.drop nzip.toNat).take bufmax.toNat)
            bufmax)).calls } := by
  conv_lhs => unfold zipLoopRun
  simp only [hb]
  rw [if_neg hc]

end TBasket

namespace TBasket

end TBasket

namespace TBasket

/-! ## Agreement of writer and reader on compression -/

/-- C31 (evaluation at the failing input): with chunks of at most 4 bytes the
payload `[1,2,0,0,3,4,0,0]` (`fObjlen = 8`) is written at level 5 as the two
compressed chunks `[4,4,1,2]` and `[4,4,3,4]`: each has fewer than `fObjlen`
bytes, so the loop runs to its end and the record stores compressed chunks.
The stored payload has `fNbytes - fKeylen = 8` bytes, and the reader's test
`fObjlen > fNbytes - fKeylen` does not hold for it. -/
theorem compressed_record_fails_reader_test :
    zipLoop sampleCodec 5 1 8 2 [1, 2, 0, 0, 3, 4, 0, 0] 2 0 0 0 [] =
      ZipExit.done 8 [4, 4, 1, 2, 4, 4, 3, 4] ∧
    (WriteBuffer sampleCodec (sampleBranch 5 0) (some goodFile)
        (sampleWriteBasket [1, 2, 0, 0, 3, 4, 0, 0] 2 none none)).map
      (fun w => (w.record.map (List.drop 8), w.basket.fObjlen,
        w.basket.fNbytes - w.basket.fKeylen,
        decide (w.basket.fObjlen > w.basket.fNbytes - w.basket.fKeylen))) =
      some (some [4, 4, 1, 2, 4, 4, 3, 4], 8, 8, false) := by
  refine ⟨by decide, by decide⟩

/-- With a compressor that never writes more than the target size it is given,
the compressed chunks of a loop that runs to its end have at most as many bytes
as their inputs: the stored payload does not exceed `fObjlen`.  It can have
exactly `fObjlen` bytes, as two chunks of 4 bytes that each compress to 4
bytes show. -/
theorem zipLoop_noutot_le (env : Codec) (cxlevel cxAlgorithm fObjlen nbuffers : Int)
    (obj : Bytes)
    (hzip : ∀ (src : Bytes) (tgtsize : Int),
      ((env.zip cxlevel cxAlgorithm src tgtsize).length : Int) ≤ tgtsize) (k : Nat) :
    ∀ (i nzip noutot : Int) (out : Bytes) (n : Int) (o : Bytes),
      zipLoop env cxlevel cxAlgorithm fObjlen nbuffers obj k i nzip noutot out =
        ZipExit.done n o →
      n ≤ noutot + ((zipLoopRun env cxlevel cxAlgorithm fObjlen nbuffers obj k i nzip noutot
        out).calls.map Prod.snd).sum := by
  induction k with
  | zero =>
    intro i nzip noutot out n o h
    rw [zipLoop_zero] at h
    simp only [ZipExit.done.injEq] at h
    simp [zipLoopRun, h.1]
  | succ k ih =>
    intro i nzip noutot out n o h
    unfold zipLoop at h
    by_cases hc : ((env.zip cxlevel cxAlgorithm ((obj.drop nzip.toNat).take
          (if i = nbuffers - 1 then fObjlen - nzip else env.kMAXZIPBUF).toNat)
          (if i = nbuffers - 1 then fObjlen - nzip else env.kMAXZIPBUF)).length : Int) = 0 ∨
        ((env.zip cxlevel cxAlgorithm ((obj.drop nzip.toNat).take
          (if i = nbuffers - 1 then fObjlen - nzip else env.kMAXZIPBUF).toNat)
          (if i = nbuffers - 1 then fObjlen - nzip else env.kMAXZIPBUF)).length : Int) ≥ fObjlen
    · rw [zipLoopRun_fallback env cxlevel cxAlgorithm fObjlen nbuffers obj k i nzip noutot out
        _ rfl hc] at h
      simp at h
    · rw [zipLoopRun_continue env cxlevel cxAlgorithm fObjlen nbuffers obj k i nzip noutot out
        _ rfl hc] at h ⊢
      have h1 := ih _ _ _ _ _ _ h
      have h2 := hzip ((obj.drop nzip.toNat).take
        (if i = nbuffers - 1 then fObjlen - nzip else env.kMAXZIPBUF).toNat)
        (if i = nbuffers - 1 then fObjlen - nzip else env.kMAXZIPBUF)
      simp only [List.map_cons, List.sum_cons]
      linarith

end TBasket

namespace TBasket

/-! ## The legacy raw copy -/

/-- C33 (evaluation at the failing input): `legacyOversizeRecord` (`fKeylen = 8`,
`fObjlen = fNbytes - fKeylen = 4`, payload `[3,7,1,2]`) is read from a file of
version 30000 through a branch of level 5 into a basket whose compressed buffer
holds `100, ..., 123` from an earlier read.  The first chunk header announces 7
bytes, the legacy raw copy is taken and the call returns 0; the payload of the
result is `[116,117,118,119]`, the bytes at the offsets 16 to 19 of the
compressed buffer, which lie behind the 12-byte record, and not the payload
`[3,7,1,2]` at the offsets 8 to 11. -/
theorem legacy_raw_copy_reads_behind_record :
    unzipObject sampleCodec true 4 8 (writeAt ((List.range 24).map (fun i => 100 + i)) 0
      legacyOversizeRecord) = UnzipExit.legacy 0 [] ∧
    (legacyOversizeRecord.drop 8).take 4 = [3, 7, 1, 2] ∧
    (ReadBasketBuffers sampleCodec (sampleBranch 5 0) (legacyFile legacyOversizeRecord) 12
        staleBufferBasket).map (fun r => (r.ret, r.basket.fKeylen, r.basket.fObjlen,
          r.basket.payload)) = some (0, 8, 4, [116, 117, 118, 119]) := by
  refine ⟨by decide, by decide, by decide⟩

end TBasket

namespace TBasket

/-! ## Relocation of entries by `MoveEntries` -/

theorem writeAt_getD (d : Bytes) (pos : Nat) (bs : Bytes) (j : Nat) (hj : j < bs.length) :
    (writeAt d pos bs).getD (pos + j) 0 = bs.getD j 0 := by
  unfold writeAt
  have hp : (d.take pos ++ List.replicate (pos - d.length) 0).length = pos := by
    simp only [List.length_append, List.length_take, List.length_replicate]
    omega
  simp only [List.getD_eq_getElem?_getD]
  rw [List.getElem?_append_left (by rw [List.length_append, hp]; omega),
    List.getElem?_append_right (by rw [hp]; omega), hp, Nat.add_sub_cancel_left]

theorem readBytes_getD (src : Bytes) (off n : Int) (j : Nat)
    (hj : (j : Int) < n) : (readBytes src off n).getD j 0 = src.getD (off.toNat + j) 0 := by
  unfold readBytes
  simp only [List.getD_eq_getElem?_getD]
  by_cases hin : off.toNat + j < src.length
  · rw [List.getElem?_append_left (by
      simp only [List.length_take, List.length_drop]; omega)]
    rw [List.getElem?_take_of_lt (by omega), List.getElem?_drop]
  · rw [List.getElem?_eq_none (l := src) (by omega)]
    rw [List.getElem?_append_right (by
      simp only [List.length_take, List.length_drop]; omega)]
    rw [List.getElem?_replicate]
    split_ifs <;> rfl

theorem readBytes_length (src : Bytes) (off n : Int) :
    (readBytes src off n).length = n.toNat := by
  unfold readBytes
  simp only [List.length_append, List.length_take, List.length_drop, List.length_replicate]
  omega

end TBasket

namespace TBasket

/-- C34: for `0 <= d < fNevBuf`, on a basket with a buffer whose entry-offset
table (if any) has `fNevBufSize` slots and whose entry `d` starts at or behind
the key, `MoveEntries(d)` completes and, with `moved` the old
`GetEntryPointer(d) - fKeylen`: `GetEntryPointer(i)` of every remaining entry
`i < fNevBuf - d` is the old `GetEntryPointer(i + d) - moved`; entry 0 starts at
`fKeylen`; the buffer length is the old one minus `moved`; every byte that was at
an offset `x` from the old start of entry `d` up to the old length is now at
`x - moved`; and with an entry-offset table `displacement[i]` is the old offset
of entry `i + d`. -/
theorem MoveEntries_relocation (b : Basket) (buf : TBuffer) (d : Int)
    (hbuf : b.fBufferRef = some buf) (hok : b.offsetTableOk = true)
    (h0 : 0 ≤ d) (hd : d < b.fNevBuf) (hkey : 0 ≤ b.fKeylen)
    (hbegin : b.fKeylen ≤ (GetEntryPointer b d).1) :
    ∃ b1 buf1, MoveEntries b d = some b1 ∧ b1.fBufferRef = some buf1 ∧
      b1.fNevBuf = b.fNevBuf - d ∧
      (∀ i : Int, 0 ≤ i → i < b.fNevBuf - d →
        (GetEntryPointer b1 i).1 =
          (GetEntryPointer b (i + d)).1 - ((GetEntryPointer b d).1 - b.fKeylen)) ∧
      (GetEntryPointer b1 0).1 = b.fKeylen ∧
      buf1.length = buf.length - ((GetEntryPointer b d).1 - b.fKeylen) ∧
      (∀ x : Int, (GetEntryPointer b d).1 ≤ x → x < buf.length →
        buf1.data.getD (x - ((GetEntryPointer b d).1 - b.fKeylen)).toNat 0 =
          buf.data.getD x.toNat 0) ∧
      (∀ table, b.fEntryOffset = some table →
        ∃ disp, b1.fDisplacement = some disp ∧
          ∀ i : Nat, (i : Int) < b.fNevBuf - d →
            disp.getD i 0 = table.getD (i + d.toNat) 0) := by
  rw [offsetTableOk_iff] at hok
  have hbytes : ∀ (bufbegin : Int) (j : Nat), (j : Int) < buf.length - bufbegin →
      (writeAt buf.data b.fKeylen.toNat
        (readBytes buf.data bufbegin (buf.length - bufbegin))).getD (b.fKeylen.toNat + j) 0 =
      buf.data.getD (bufbegin.toNat + j) 0 := by
    intro bufbegin j hj
    rw [writeAt_getD _ _ _ _ (by rw [readBytes_length]; omega), readBytes_getD _ _ _ _ hj]
  have hmove : ∀ (bufbegin x : Int), b.fKeylen ≤ bufbegin → bufbegin ≤ x → x < buf.length →
      (writeAt buf.data b.fKeylen.toNat
        (readBytes buf.data bufbegin (buf.length - bufbegin))).getD
          (x - (bufbegin - b.fKeylen)).toNat 0 = buf.data.getD x.toNat 0 := by
    intro bufbegin x hb hx hl
    have e1 : (x - (bufbegin - b.fKeylen)).toNat = b.fKeylen.toNat + (x - bufbegin).toNat := by
      omega
    have e2 : x.toNat = bufbegin.toNat + (x - bufbegin).toNat := by omega
    rw [e1, e2]
    exact hbytes bufbegin _ (by omega)
  cases ht : b.fEntryOffset with
  | none =>
    simp only [GetEntryPointer, ht] at hbegin ⊢
    unfold MoveEntries
    rw [if_neg (by omega), if_neg (by omega), hbuf]
    simp only [ht]
    refine ⟨_, _, rfl, rfl, rfl, ?_, ?_, ?_, ?_, ?_⟩
    · intro i _ _
      ring
    · ring
    · rfl
    · intro x hx hl
      exact hmove _ x hbegin hx hl
    · intro table h
      simp at h
  | some table =>
    obtain ⟨hn0, hn1, hlen⟩ := hok table ht
    have hdneg : ¬ d < 0 := by omega
    simp only [GetEntryPointer, ht, hdneg, if_false] at hbegin ⊢
    unfold MoveEntries
    rw [if_neg (by omega), if_neg (by omega), hbuf]
    simp only [ht]
    have hslot : ∀ i : Nat, (i : Int) < b.fNevBuf - d →
        (((List.range b.fNevBufSize.toNat).map (fun (i : Nat) =>
            if (i : Int) < b.fNevBufSize - d then
              table.getD (i + d.toNat) 0 - (table.getD d.toNat 0 - b.fKeylen)
            else 0)) ++ table.drop b.fNevBufSize.toNat).getD i 0 =
          table.getD (i + d.toNat) 0 - (table.getD d.toNat 0 - b.fKeylen) := by
      intro i hi
      simp only [List.getD_eq_getElem?_getD]
      rw [List.getElem?_append_left (by
        simp only [List.length_map, List.length_range]; omega)]
      rw [List.getElem?_map, List.getElem?_range (by omega)]
      simp only [Option.map_some', Option.getD_some]
      rw [if_pos (by omega)]
    refine ⟨_, _, rfl, rfl, rfl, ?_, ?_, ?_, ?_, ?_⟩
    · intro i hi0 hi
      have hineg : ¬ i < 0 := by omega
      have hidneg : ¬ i + d < 0 := by omega
      simp only [hineg, hidneg, if_false]
      have e := hslot i.toNat (by omega)
      have e2 : (i + d).toNat = i.toNat + d.toNat := by omega
      rw [e2]
      exact e
    · have e := hslot 0 (by push_cast; omega)
      simp only [lt_self_iff_false, if_false, Int.toNat_zero]
      rw [e]
      simp only [Nat.zero_add]
      ring
    · rfl
    · intro x hx hl
      exact hmove _ x hbegin hx hl
    · intro table1 h1
      simp only [Option.some.injEq] at h1
      subst h1
      refine ⟨_, rfl, ?_⟩
      intro i hi
      simp only [List.getD_eq_getElem?_getD]
      rw [List.getElem?_append_left (by
        simp only [List.length_map, List.length_range]; omega)]
      rw [List.getElem?_map, List.getElem?_range (by omega)]
      simp only [Option.map_some', Option.getD_some]
      rw [if_pos (by omega)]

end TBasket

namespace TBasket

/-- Witness for `MoveEntries_relocation`: `MoveEntries(1)` on `threeEntryBasket`
(entries at 8, 10, 12, buffer length 14) and on `threeFixedBasket` (entries of
size 2): two entries remain, at 8 and 10, with the bytes of the old entries 1
and 2; the buffer length is 12. -/
theorem MoveEntries_relocation_witness :
    ((MoveEntries threeEntryBasket 1).map (fun (b : Basket) =>
        ((GetEntryPointer b 0).1, (GetEntryPointer b 1).1)) = some (8, 10) ∧
      (MoveEntries threeEntryBasket 1).map (fun (b : Basket) => b.fDisplacement) =
        some (some [10, 12, 0, 0]) ∧
      (MoveEntries threeEntryBasket 1).map (fun (b : Basket) =>
        b.fBufferRef.map (fun (buf : TBuffer) => buf.length)) = some (some 12) ∧
      (MoveEntries threeEntryBasket 1).map (fun (b : Basket) =>
        b.fBufferRef.map (fun (buf : TBuffer) => buf.data.drop 8)) =
        some (some [21, 22, 31, 32, 31, 32])) ∧
    ((MoveEntries threeFixedBasket 1).map (fun (b : Basket) =>
        ((GetEntryPointer b 0).1, (GetEntryPointer b 1).1)) = some (8, 10) ∧
      (MoveEntries threeFixedBasket 1).map (fun (b : Basket) =>
        b.fBufferRef.map (fun (buf : TBuffer) => buf.data.drop 8)) =
        some (some [21, 22, 31, 32, 31, 32])) ∧
    ∃ b1 buf1, MoveEntries threeEntryBasket 1 = some b1 ∧ b1.fBufferRef = some buf1 ∧
      b1.fNevBuf = threeEntryBasket.fNevBuf - 1 ∧
      (∀ i : Int, 0 ≤ i → i < threeEntryBasket.fNevBuf - 1 →
        (GetEntryPointer b1 i).1 =
          (GetEntryPointer threeEntryBasket (i + 1)).1 -
            ((GetEntryPointer threeEntryBasket 1).1 - threeEntryBasket.fKeylen)) ∧
      (GetEntryPointer b1 0).1 = threeEntryBasket.fKeylen ∧
      buf1.length =
        (threeEntryBasket.fBufferRef.getD (TBuffer.mk [] 0 0 false false)).length -
          ((GetEntryPointer threeEntryBasket 1).1 - threeEntryBasket.fKeylen) ∧
      (∀ x : Int, (GetEntryPointer threeEntryBasket 1).1 ≤ x →
        x < (threeEntryBasket.fBufferRef.getD (TBuffer.mk [] 0 0 false false)).length →
        buf1.data.getD (x - ((GetEntryPointer threeEntryBasket 1).1 -
            threeEntryBasket.fKeylen)).toNat 0 =
          (threeEntryBasket.fBufferRef.getD (TBuffer.mk [] 0 0 false false)).data.getD
            x.toNat 0) ∧
      (∀ table, threeEntryBasket.fEntryOffset = some table →
        ∃ disp, b1.fDisplacement = some disp ∧
          ∀ i : Nat, (i : Int) < threeEntryBasket.fNevBuf - 1 →
            disp.getD i 0 = table.getD (i + (1 : Int).toNat) 0) :=
  ⟨by decide, by decide,
    MoveEntries_relocation threeEntryBasket
      (threeEntryBasket.fBufferRef.getD (TBuffer.mk [] 0 0 false false)) 1
      (by decide) (by decide) (by decide) (by decide) (by decide) (by decide)⟩

end TBasket

namespace PyROOT

/-! ## The staging invariant -/

/-- C35 (evaluation at the failing input): in the second step over
`unevenBulk`, the catching-up `ReadOne(1)` takes the staging buffer of the
second branch into use while the basket buffer holds entry 1.  Right after that
`fExtra` holds the one byte `[21]` while `exEntryStart = 0` and
`exEntryEnd = 2`: its size is not `(exEntryEnd - exEntryStart) * fItemSize = 2`.
At the end of the step `exEntryStart = 1`, `exEntryEnd = bfEntryEnd = 3` and
`fExtra` has two bytes, but they are not the bytes `[21, 22]` of the entries 1
and 2: the first was read outside `fExtra` (`faulted`). -/
theorem staging_buffer_not_described_by_its_range :
    ((stagedBeforeCatchUp.startUsingExtra 1).fUsingExtra = true ∧
      (stagedBeforeCatchUp.startUsingExtra 1).fExtra = [21] ∧
      ((stagedBeforeCatchUp.startUsingExtra 1).exEntryStart,
        (stagedBeforeCatchUp.startUsingExtra 1).exEntryEnd,
        (stagedBeforeCatchUp.startUsingExtra 1).fItemSize) = (0, 2, 1) ∧
      ((stagedBeforeCatchUp.startUsingExtra 1).fExtra.length : Int) ≠
        ((stagedBeforeCatchUp.startUsingExtra 1).exEntryEnd -
          (stagedBeforeCatchUp.startUsingExtra 1).exEntryStart) *
          (stagedBeforeCatchUp.startUsingExtra 1).fItemSize) ∧
    ((((twoBuffers 3).arrays unevenBulk).1.arrays unevenBulk).1.fClusterBuffers.map
        (fun c => (c.fUsingExtra, c.exEntryStart, c.exEntryEnd, c.bfEntryEnd)) =
        [(false, 0, 0, 3), (true, 1, 3, 3)] ∧
      (((twoBuffers 3).arrays unevenBulk).1.arrays unevenBulk).1.fClusterBuffers.map
        (fun c => (c.fExtra, c.faulted)) = [([], false), ([0, 22], true)] ∧
      (unevenBulk 1 1).bytes ++ (unevenBulk 1 2).bytes = [21, 22]) := by
  refine ⟨by decide, by decide⟩

end PyROOT

namespace PyROOT

/-! ## Progress of `StepForward` -/

theorem advanceFront_length (bulk : Nat → Int → Delivery) (start : Int)
    (cs : List ClusterBuffer) :
    ∀ (i : Nat) (e : Option ErrorString),
      (advanceFront bulk start e i cs).buffers.length = cs.length := by
  induction cs with
  | nil => intro i e; rfl
  | cons c cs ih =>
    intro i e
    by_cases h1 : c.EntryEnd = start
    · by_cases h2 : (c.ReadOne (bulk i) start e).2 = none
      · simp [advanceFront, h1, h2, ih]
      · simp [advanceFront, h1, h2]
    · simp [advanceFront, h1, ih]

theorem advanceFront_gt (bulk : Nat → Int → Delivery) (start : Int)
    (cs : List ClusterBuffer) :
    ∀ (i : Nat) (e : Option ErrorString),
      (∀ c ∈ cs, start ≤ c.EntryEnd) →
      (advanceFront bulk start e i cs).returned = false →
      ∀ c ∈ (advanceFront bulk start e i cs).buffers, start < c.EntryEnd := by
  induction cs with
  | nil => intro i e _ _ c hc; simp [advanceFront] at hc
  | cons c cs ih =>
    intro i e hinv hret
    have hc := hinv c (List.mem_cons_self _ _)
    have hcs : ∀ x ∈ cs, start ≤ x.EntryEnd := fun x hx => hinv x (List.mem_cons_of_mem _ hx)
    by_cases h1 : c.EntryEnd = start
    · by_cases h2 : (c.ReadOne (bulk i) start e).2 = none
      · obtain ⟨hpos, hend⟩ := ReadOne_ok (bulk i) c start e h2
        simp only [advanceFront, h1, h2, if_true, ne_eq, not_true_eq_false, if_false] at hret ⊢
        intro x hx
        simp only [List.mem_cons] at hx
        rcases hx with rfl | hx
        · show start < (c.ReadOne (bulk i) start e).1.bfEntryEnd
          rw [hend]
          have : c.bfEntryEnd = start := h1
          omega
        · exact ih (i + 1) _ hcs (by simpa [h2] using hret) x (by simpa [h2] using hx)
      · simp [advanceFront, h1, h2] at hret
    · simp only [advanceFront, h1, if_false] at hret ⊢
      intro x hx
      simp only [List.mem_cons] at hx
      rcases hx with rfl | hx
      · exact lt_of_le_of_ne hc (Ne.symm h1)
      · exact ih (i + 1) e hcs hret x hx

theorem maxEntryEnd_ge (cs : List ClusterBuffer) :
    ∀ cur : Int, cur ≤ maxEntryEnd cur cs ∧ ∀ c ∈ cs, c.EntryEnd ≤ maxEntryEnd cur cs := by
  induction cs with
  | nil => intro cur; simp [maxEntryEnd]
  | cons c cs ih =>
    intro cur
    obtain ⟨h1, h2⟩ := ih (if c.EntryEnd > cur then c.EntryEnd else cur)
    simp only [maxEntryEnd]
    refine ⟨?_, ?_⟩
    · refine le_trans ?_ h1
      split_ifs <;> omega
    · intro x hx
      simp only [List.mem_cons] at hx
      rcases hx with rfl | hx
      · refine le_trans ?_ h1
        split_ifs <;> omega
      · exact h2 x hx

theorem catchUpAll_length (bulk : Nat → Int → Delivery) (start target : Int)
    (cs : List ClusterBuffer) :
    ∀ (i : Nat) (e : Option ErrorString),
      (catchUpAll bulk start target e i cs).buffers.length = cs.length := by
  induction cs with
  | nil => intro i e; rfl
  | cons c cs ih =>
    intro i e
    unfold catchUpAll
    simp only
    split_ifs
    · rfl
    · simp [ih]

end PyROOT

namespace PyROOT

theorem StepForward_start (bulk : Nat → Int → Delivery) (it : NumpyIterator)
    (e : Option ErrorString) :
    (it.StepForward bulk e).iter.fCurrentStart = it.fCurrentEnd := by
  unfold NumpyIterator.StepForward
  simp only
  split_ifs <;> rfl

theorem StepForward_step (bulk : Nat → Int → Delivery) (it : NumpyIterator)
    (hne : it.fClusterBuffers ≠ [])
    (hinv : ∀ c ∈ it.fClusterBuffers, it.fCurrentEnd ≤ c.EntryEnd)
    (hd : (it.StepForward bulk none).done = false) :
    (it.StepForward bulk none).iter.fCurrentStart <
      (it.StepForward bulk none).iter.fCurrentEnd ∧
    (it.StepForward bulk none).iter.fClusterBuffers ≠ [] := by
  have hstart := StepForward_start bulk it none
  unfold NumpyIterator.StepForward at hd hstart ⊢
  simp only at hd hstart ⊢
  by_cases h0 : it.fCurrentEnd ≥ it.fNumEntries
  · simp [h0] at hd
  · by_cases h1 : (advanceFront bulk it.fCurrentEnd none 0 it.fClusterBuffers).returned = true
    · simp [h0, h1] at hd
    · simp only [Bool.not_eq_true] at h1
      have hgt := advanceFront_gt bulk it.fCurrentEnd it.fClusterBuffers 0 none hinv h1
      have hlen := advanceFront_length bulk it.fCurrentEnd it.fClusterBuffers 0 none
      simp only [h0, h1, if_false, Bool.false_eq_true] at hd hstart ⊢
      refine ⟨?_, ?_⟩
      · cases hb : (advanceFront bulk it.fCurrentEnd none 0 it.fClusterBuffers).buffers with
        | nil =>
          rw [hb] at hlen
          exact absurd (List.length_eq_zero.mp hlen.symm) hne
        | cons c cs =>
          have h2 := (maxEntryEnd_ge (c :: cs) (-1)).2 c (List.mem_cons_self _ _)
          have h3 := hgt c (by rw [hb]; exact List.mem_cons_self _ _)
          omega
      · intro hnil
        have hl := catchUpAll_length bulk it.fCurrentEnd
          (maxEntryEnd (-1) (advanceFront bulk it.fCurrentEnd none 0 it.fClusterBuffers).buffers)
          (advanceFront bulk it.fCurrentEnd none 0 it.fClusterBuffers).buffers 0
          (advanceFront bulk it.fCurrentEnd none 0 it.fClusterBuffers).error_string
        rw [hnil, hlen] at hl
        exact absurd (List.length_eq_zero.mp hl.symm) hne

theorem StepForward_done_iff (bulk : Nat → Int → Delivery) (it : NumpyIterator) :
    ((it.StepForward bulk none).done = true ∧ (it.StepForward bulk none).error_string = none) ↔
      it.fCurrentEnd ≥ it.fNumEntries := by
  unfold NumpyIterator.StepForward
  simp only
  by_cases h0 : it.fCurrentEnd ≥ it.fNumEntries
  · simp [h0]
  · obtain ⟨a1, -⟩ := advanceFront_spec bulk it.fCurrentEnd it.fClusterBuffers 0 none
    by_cases h1 : (advanceFront bulk it.fCurrentEnd none 0 it.fClusterBuffers).returned = true
    · simp only [h0, h1, if_true, if_false, true_and, iff_false]
      exact a1 h1
    · simp only [Bool.not_eq_true] at h1
      obtain ⟨a3, -, -⟩ := catchUpAll_spec bulk it.fCurrentEnd
        (maxEntryEnd (-1) (advanceFront bulk it.fCurrentEnd none 0 it.fClusterBuffers).buffers)
        (advanceFront bulk it.fCurrentEnd none 0 it.fClusterBuffers).buffers 0
        (advanceFront bulk it.fCurrentEnd none 0 it.fClusterBuffers).error_string
      simp only [h0, h1, if_false, Bool.false_eq_true, iff_false, not_and]
      intro hr
      exact a3 hr

theorem yieldedRanges_adjacent (bulk : Nat → Int → Delivery) (n : Nat) :
    ∀ it : NumpyIterator, it.fClusterBuffers ≠ [] →
      (∀ c ∈ it.fClusterBuffers, it.fCurrentEnd ≤ c.EntryEnd) →
      List.Chain' (fun a b => a.2 = b.1) (yieldedRanges bulk n it) ∧
      (∀ r ∈ yieldedRanges bulk n it, r.1 < r.2) ∧
      (∀ r, (yieldedRanges bulk n it).head? = some r → r.1 = it.fCurrentEnd) := by
  induction n with
  | zero =>
    intro it _ _
    simp [yieldedRanges]
  | succ n ih =>
    intro it hne hinv
    by_cases hd : (it.StepForward bulk none).done = true
    · simp [yieldedRanges, hd]
    · simp only [Bool.not_eq_true] at hd
      obtain ⟨hlt, hne1⟩ := StepForward_step bulk it hne hinv hd
      have hinv1 := (StepForward_spec bulk it none).2 hd
      obtain ⟨ic, ip, ih0⟩ := ih (it.StepForward bulk none).iter hne1 hinv1
      simp only [yieldedRanges, hd, Bool.false_eq_true, if_false]
      refine ⟨?_, ?_, ?_⟩
      · rw [List.chain'_cons']
        refine ⟨?_, ic⟩
        intro y hy
        exact (ih0 y (by simpa using hy)).symm
      · intro r hr
        simp only [List.mem_cons] at hr
        rcases hr with rfl | hr
        · exact hlt
        · exact ip r hr
      · intro r hr
        simp only [List.head?_cons, Option.some.injEq] at hr
        subst hr
        exact StepForward_start bulk it none

end PyROOT

namespace PyROOT

/-- C36: on an iterator with at least one cluster buffer in which every cluster
buffer has `EntryEnd() >= fCurrentEnd` (the state `Reset` leaves and every
`StepForward` that returns false leaves again), a `StepForward` that returns
false yields a range with `fCurrentStart` equal to the previous `fCurrentEnd`
and `fCurrentEnd > fCurrentStart`, and every cluster buffer then has
`EntryEnd() >= fCurrentEnd`; `StepForward` returns true with `error_string`
still null exactly when the previous `fCurrentEnd` is `>= fNumEntries`.  The
ranges yielded by successive calls are therefore adjacent and not empty, and
after `Reset` the first of them starts at 0. -/
theorem StepForward_progress (bulk : Nat → Int → Delivery) (it : NumpyIterator)
    (hne : it.fClusterBuffers ≠ [])
    (hinv : ∀ c ∈ it.fClusterBuffers, it.fCurrentEnd ≤ c.EntryEnd) :
    ((it.StepForward bulk none).done = false →
      (it.StepForward bulk none).iter.fCurrentStart = it.fCurrentEnd ∧
      (it.StepForward bulk none).iter.fCurrentStart <
        (it.StepForward bulk none).iter.fCurrentEnd ∧
      (∀ c ∈ (it.StepForward bulk none).iter.fClusterBuffers,
        (it.StepForward bulk none).iter.fCurrentEnd ≤ c.EntryEnd) ∧
      (it.StepForward bulk none).iter.fClusterBuffers ≠ []) ∧
    (((it.StepForward bulk none).done = true ∧
        (it.StepForward bulk none).error_string = none) ↔
      it.fCurrentEnd ≥ it.fNumEntries) ∧
    (∀ n, List.Chain' (fun a b => a.2 = b.1) (yieldedRanges bulk n it) ∧
      (∀ r ∈ yieldedRanges bulk n it, r.1 < r.2) ∧
      (∀ r, (yieldedRanges bulk n it).head? = some r → r.1 = it.fCurrentEnd)) ∧
    (∀ n, List.Chain' (fun a b => a.2 = b.1) (yieldedRanges bulk n it.Reset) ∧
      (∀ r ∈ yieldedRanges bulk n it.Reset, r.1 < r.2) ∧
      (∀ r, (yieldedRanges bulk n it.Reset).head? = some r → r.1 = 0)) := by
  refine ⟨?_, StepForward_done_iff bulk it, ?_, ?_⟩
  · intro hd
    obtain ⟨hlt, hne1⟩ := StepForward_step bulk it hne hinv hd
    exact ⟨StepForward_start bulk it none, hlt, (StepForward_spec bulk it none).2 hd, hne1⟩
  · intro n
    exact yieldedRanges_adjacent bulk n it hne hinv
  · intro n
    have hne0 : it.Reset.fClusterBuffers ≠ [] := by
      intro h
      simp only [NumpyIterator.Reset, List.map_eq_nil_iff] at h
      exact hne h
    have hinv0 : ∀ c ∈ it.Reset.fClusterBuffers, it.Reset.fCurrentEnd ≤ c.EntryEnd := by
      intro c hc
      simp only [NumpyIterator.Reset, List.mem_map] at hc
      obtain ⟨c0, -, rfl⟩ := hc
      exact le_refl 0
    exact yieldedRanges_adjacent bulk n it.Reset hne0 hinv0

/-- Witness for `StepForward_progress`: over `unevenBulk` the iterator with two
cluster buffers yields the ranges `[0,1)` and `[1,3)` and then stops. -/
theorem StepForward_progress_witness :
    yieldedRanges unevenBulk 5 (twoBuffers 3) = [(0, 1), (1, 3)] ∧
    (twoBuffers 3).Reset = twoBuffers 3 ∧
    (((twoBuffers 3).StepForward unevenBulk none).done = false →
      ((twoBuffers 3).StepForward unevenBulk none).iter.fCurrentStart =
        (twoBuffers 3).fCurrentEnd ∧
      ((twoBuffers 3).StepForward unevenBulk none).iter.fCurrentStart <
        ((twoBuffers 3).StepForward unevenBulk none).iter.fCurrentEnd ∧
      (∀ c ∈ ((twoBuffers 3).StepForward unevenBulk none).iter.fClusterBuffers,
        ((twoBuffers 3).StepForward unevenBulk none).iter.fCurrentEnd ≤ c.EntryEnd) ∧
      ((twoBuffers 3).StepForward unevenBulk none).iter.fClusterBuffers ≠ []) :=
  ⟨by decide, by decide,
    (StepForward_progress unevenBulk (twoBuffers 3) (by decide) (by decide)).1⟩

end PyROOT

namespace TTreeReaderFast

/-! ## Equality and dereference -/

/-- What `operator==` decides: two iterators that are both invalid are equal
whatever their other members; otherwise they are equal exactly when `fEntry`
and `fReader` agree, and `fIdx`, which `operator*` adds to `fEntry`, is not
looked at. -/
theorem equal_iff (a b : Iterator_t) :
    (a.IsValid = false → b.IsValid = false → a.equal b = true) ∧
    ((a.IsValid = true ∨ b.IsValid = true) →
      (a.equal b = true ↔ a.fEntry = b.fEntry ∧ a.fReader = b.fReader)) ∧
    (a.equal b = true → a.IsValid = true → a.fIdx = b.fIdx → a.deref = b.deref) := by
  refine ⟨?_, ?_, ?_⟩
  · intro ha hb
    simp [Iterator_t.equal, ha, hb]
  · intro h
    have hc : (!a.IsValid && !b.IsValid) = false := by
      rcases h with h | h <;> simp [h]
    simp [Iterator_t.equal, hc]
  · intro he ha hi
    have hc : (!a.IsValid && !b.IsValid) = false := by simp [ha]
    simp only [Iterator_t.equal, hc, Bool.false_eq_true, if_false, Bool.and_eq_true,
      decide_eq_true_eq] at he
    simp only [Iterator_t.deref]
    omega

/-! ## Iteration from `begin()` to `end()` -/

/-- C38 (evaluation at the failing input): on a reader whose first range is
empty (`GetNextRange(0)` returns 0), `begin()` has `fEntry = 0` and `fCount = 0`:
it is valid and does not compare equal to `end()`, so the loop body runs, for
entry 0.  After one, two and three increments the iterator is still different
from `end()` and dereferences to 1, 2 and 3: `fIdx` has passed `fCount` and no
further range is asked for. -/
theorem begin_of_empty_reader_is_not_end :
    (listRanges [] 0).1 = 0 ∧
    (begin listRanges 7 []).1 = { fIdx := 0, fCount := 0, fEntry := 0, fReader := some 7 } ∧
    (begin listRanges 7 []).1.equal pastTheEnd = false ∧
    (begin listRanges 7 []).1.notEqual pastTheEnd = true ∧
    (begin listRanges 7 []).1.deref = 0 ∧
    ((incrementTimes listRanges 1 (begin listRanges 7 [])).1.notEqual pastTheEnd,
      (incrementTimes listRanges 1 (begin listRanges 7 [])).1.deref) = (true, 1) ∧
    ((incrementTimes listRanges 2 (begin listRanges 7 [])).1.notEqual pastTheEnd,
      (incrementTimes listRanges 2 (begin listRanges 7 [])).1.deref) = (true, 2) ∧
    ((incrementTimes listRanges 3 (begin listRanges 7 [])).1.notEqual pastTheEnd,
      (incrementTimes listRanges 3 (begin listRanges 7 [])).1.deref) = (true, 3) := by
  decide

/-- Incrementing a valid iterator (`fEntry >= 0`, `fIdx >= 0`): the
incremented iterator compares equal to `end()` when `fIdx + 1` reaches `fCount`
and `GetNextRange` returns 0, and otherwise is valid and dereferences to the next
entry number.  An iterator whose `fIdx` is already at or above `fCount`, as
`begin()` on an empty first range, never reaches `fCount` again. -/
theorem increment_advances {σ : Type} (GetNextRange : σ → Int → Int × σ) (a : Iterator_t)
    (s : σ) (hidx : 0 ≤ a.fIdx) (hentry : 0 ≤ a.fEntry) :
    (a.fIdx + 1 = a.fCount ∧ (GetNextRange s a.fCount).1 = 0 →
      (a.increment GetNextRange s).1.equal pastTheEnd = true) ∧
    (¬ (a.fIdx + 1 = a.fCount ∧ (GetNextRange s a.fCount).1 = 0) →
      (a.increment GetNextRange s).1.IsValid = true ∧
      (a.increment GetNextRange s).1.deref = a.deref + 1) := by
  refine ⟨?_, ?_⟩
  · rintro ⟨h1, h2⟩
    simp [Iterator_t.increment, h1, h2, Iterator_t.equal, Iterator_t.IsValid, pastTheEnd]
  · intro h
    by_cases h1 : a.fIdx + 1 = a.fCount
    · have h2 : (GetNextRange s a.fCount).1 ≠ 0 := fun h2 => h ⟨h1, h2⟩
      simp only [Iterator_t.increment, h1, if_true, h2, if_false, Iterator_t.IsValid,
        Iterator_t.deref, decide_eq_true_eq]
      omega
    · simp only [Iterator_t.increment, h1, if_false, Iterator_t.IsValid, Iterator_t.deref,
        decide_eq_true_eq]
      omega

end TTreeReaderFast

namespace TLeafElement

/-! ## Classification by `GetDeserializeType` -/

/-- C39 (evaluation at the failing input): a leaf whose `fType` is 21 on a
branch whose expected data type is `kChar_t`, a one-byte type, is classified
`kDestructive`, not `kZeroCopy`; a leaf whose `fType` is 1 (the value of
`kChar_t`) on a branch whose expected data type is `kInt_t` is classified
`kZeroCopy`, not `kInPlace`.  With `fType` equal to the expected type both are
classified as the expected type asks. -/
theorem GetDeserializeType_tests_fType_for_char :
    (GetDeserializeType rootDataTypes (basicType rootDataTypes.kChar_t) (freshLeaf 21)).1 =
      DeserializeType.kDestructive ∧
    (GetDeserializeType rootDataTypes (basicType rootDataTypes.kInt_t) (freshLeaf 1)).1 =
      DeserializeType.kZeroCopy ∧
    (GetDeserializeType rootDataTypes (basicType rootDataTypes.kChar_t) (freshLeaf 1)).1 =
      DeserializeType.kZeroCopy ∧
    (GetDeserializeType rootDataTypes (basicType rootDataTypes.kInt_t) (freshLeaf 3)).1 =
      DeserializeType.kInPlace ∧
    (GetDeserializeType rootDataTypes (basicType rootDataTypes.kBool_t) (freshLeaf 21)).1 =
      DeserializeType.kZeroCopy := by
  decide

theorem GetDeserializeType_cached (t : EDataTypes) (expected : ExpectedType)
    (leaf : LeafElement) (h : leaf.fDeserializeTypeCache ≠ DeserializeType.kInvalid) :
    (GetDeserializeType t expected leaf).1 = leaf.fDeserializeTypeCache := by
  unfold GetDeserializeType
  rw [if_pos h]

/-- What `GetDeserializeType` does on a leaf whose cache is not filled: the
value returned is never `kInvalid`, it is stored, and every later call returns
it whatever the branch then answers; it is `kDestructive` when
`GetExpectedType` fails or names a class; otherwise it is `kZeroCopy` exactly
when the member `fType` of the leaf is `kChar_t` or `kUChar_t` or the expected
type is `kBool_t`, else `kInPlace` exactly when the expected type is one of
`kFloat_t`, `kDouble_t`, `kInt_t`, `kUInt_t`, `kLong64_t`, `kULong64_t`, else
`kDestructive`. -/
theorem GetDeserializeType_classification (t : EDataTypes) (expected : ExpectedType)
    (leaf : LeafElement) (hfresh : leaf.fDeserializeTypeCache = DeserializeType.kInvalid) :
    (GetDeserializeType t expected leaf).1 ≠ DeserializeType.kInvalid ∧
    (∀ later : ExpectedType,
      (GetDeserializeType t later (GetDeserializeType t expected leaf).2).1 =
        (GetDeserializeType t expected leaf).1) ∧
    ((expected.status ≠ 0 ∨ expected.hasClass = true) →
      (GetDeserializeType t expected leaf).1 = DeserializeType.kDestructive) ∧
    (expected.status = 0 → expected.hasClass = false →
      ((GetDeserializeType t expected leaf).1 = DeserializeType.kZeroCopy ↔
        (leaf.fType = t.kChar_t ∨ leaf.fType = t.kUChar_t ∨ expected.type = t.kBool_t)) ∧
      ((GetDeserializeType t expected leaf).1 = DeserializeType.kInPlace ↔
        (¬ (leaf.fType = t.kChar_t ∨ leaf.fType = t.kUChar_t ∨ expected.type = t.kBool_t) ∧
          (expected.type = t.kFloat_t ∨ expected.type = t.kDouble_t ∨
            expected.type = t.kInt_t ∨ expected.type = t.kUInt_t ∨
            expected.type = t.kLong64_t ∨ expected.type = t.kULong64_t)))) := by
  have hstored : (GetDeserializeType t expected leaf).2.fDeserializeTypeCache =
      (GetDeserializeType t expected leaf).1 := by
    unfold GetDeserializeType
    simp only [hfresh, ne_eq, not_true_eq_false, if_false]
    split_ifs <;> rfl
  have hvalid : (GetDeserializeType t expected leaf).1 ≠ DeserializeType.kInvalid := by
    unfold GetDeserializeType
    simp only [hfresh, ne_eq, not_true_eq_false, if_false]
    split_ifs <;> simp
  refine ⟨hvalid, ?_, ?_, ?_⟩
  · intro later
    have hc : (GetDeserializeType t expected leaf).2.fDeserializeTypeCache ≠
        DeserializeType.kInvalid := by rw [hstored]; exact hvalid
    rw [GetDeserializeType_cached t later _ hc, hstored]
  · intro h
    unfold GetDeserializeType
    simp only [hfresh, ne_eq, not_true_eq_false, if_false]
    rcases h with h | h
    · simp [h]
    · by_cases hs : expected.status = 0 <;> simp [hs, h]
  · intro hs hcls
    unfold GetDeserializeType
    simp only [hfresh, ne_eq, not_true_eq_false, if_false, hs, hcls, Bool.false_eq_true]
    refine ⟨?_, ?_⟩
    · split_ifs <;> simp [*]
    · split_ifs <;> simp [*]

end TLeafElement

namespace PyROOT

/-! ## Parsing of a leaf title -/

theorem modifyBack_concat {α : Type} (f : α → α) (v : List α) (x : α) :
    modifyBack f (v ++ [x]) = v ++ [f x] := by
  simp [modifyBack]

theorem getdim_name (name : List Char) (hname : bracketFree name) :
    ∀ s : DimState, s.dims = [] → name.foldl getdimStep s = s := by
  induction name with
  | nil => intro s _; rfl
  | cons c cs ih =>
    intro s hs
    have hc := hname c (List.mem_cons_self _ _)
    have hstep : getdimStep s c = s := by
      simp [getdimStep, hc.1, hc.2, hs]
    rw [List.foldl_cons, hstep]
    exact ih (fun x hx => hname x (List.mem_cons_of_mem _ hx)) s hs

theorem getdim_body (g : List Char) (hg : bracketFree g) :
    ∀ (d : List Int) (v : Int) (k : List (List Char)) (t : List Char) (ic f : Bool),
      ∃ v1, g.foldl getdimStep
          { dims := d ++ [v], counters := k ++ [t], iscounter := ic, faulted := f } =
          { dims := d ++ [v1], counters := k ++ [t ++ g],
            iscounter := ic || !g.all isDigitChar, faulted := f } ∧
        (g.all isDigitChar = true →
          v1 = g.foldl (fun v c => v * 10 + ((c.toNat : Int) - 48)) v) := by
  induction g with
  | nil =>
    intro d v k t ic f
    exact ⟨v, by simp, fun _ => rfl⟩
  | cons c cs ih =>
    intro d v k t ic f
    have hc := hg c (List.mem_cons_self _ _)
    have hcs : bracketFree cs := fun x hx => hg x (List.mem_cons_of_mem _ hx)
    by_cases hdig : isDigitChar c = true
    · have hstep : getdimStep
          { dims := d ++ [v], counters := k ++ [t], iscounter := ic, faulted := f } c =
          { dims := d ++ [v * 10 + ((c.toNat : Int) - 48)], counters := k ++ [t ++ [c]],
            iscounter := ic, faulted := f } := by
        simp [getdimStep, hc.1, hc.2, hdig, modifyBack_concat]
      obtain ⟨v1, h1, h2⟩ := ih hcs d (v * 10 + ((c.toNat : Int) - 48)) k (t ++ [c]) ic f
      refine ⟨v1, ?_, ?_⟩
      · rw [List.foldl_cons, hstep, h1]
        simp [hdig]
      · intro hall
        simp only [List.all_cons, hdig, Bool.true_and] at hall
        rw [List.foldl_cons]
        exact h2 hall
    · have hstep : getdimStep
          { dims := d ++ [v], counters := k ++ [t], iscounter := ic, faulted := f } c =
          { dims := d ++ [v], counters := k ++ [t ++ [c]],
            iscounter := true, faulted := f } := by
        simp [getdimStep, hc.1, hc.2, hdig, modifyBack_concat]
      obtain ⟨v1, h1, -⟩ := ih hcs d v k (t ++ [c]) true f
      refine ⟨v1, ?_, ?_⟩
      · rw [List.foldl_cons, hstep, h1]
        simp [hdig]
      · intro hall
        simp only [List.all_cons, Bool.and_eq_true] at hall
        exact absurd hall.1 hdig

end PyROOT

namespace PyROOT

theorem getdim_group (g : List Char) (hg : bracketFree g) (d : List Int)
    (k : List (List Char)) (ic f : Bool) :
    (Char.ofNat 91 :: g ++ [Char.ofNat 93]).foldl getdimStep
        { dims := d, counters := k, iscounter := ic, faulted := f } =
      if g.all isDigitChar then
        { dims := d ++ [decimalValue g], counters := k, iscounter := false, faulted := f }
      else { dims := d, counters := k ++ [g], iscounter := true, faulted := f } := by
  have hopen : getdimStep { dims := d, counters := k, iscounter := ic, faulted := f }
      (Char.ofNat 91) =
      { dims := d ++ [0], counters := k ++ [[]], iscounter := false, faulted := f } := by
    have h91 : (Char.ofNat 91).toNat = 91 := by decide
    simp [getdimStep, h91]
  have h93 : (Char.ofNat 93).toNat = 93 := by decide
  obtain ⟨v1, h1, h2⟩ := getdim_body g hg d 0 k [] false f
  rw [List.cons_append, List.foldl_cons, hopen, List.foldl_append, h1]
  by_cases hall : g.all isDigitChar = true
  · have hv : v1 = decimalValue g := h2 hall
    simp [getdimStep, h93, hall, hv]
  · simp [getdimStep, h93, hall]

theorem getdim_groups (groups : List (List Char)) :
    (∀ g ∈ groups, bracketFree g) →
    ∀ (d : List Int) (k : List (List Char)) (ic f : Bool),
      ∃ ic1, (groups.map (fun g => Char.ofNat 91 :: g ++ [Char.ofNat 93])).flatten.foldl
          getdimStep { dims := d, counters := k, iscounter := ic, faulted := f } =
        { dims := d ++ (groups.filter (fun g => g.all isDigitChar)).map decimalValue
          counters := k ++ groups.filter (fun g => !g.all isDigitChar)
          iscounter := ic1, faulted := f } := by
  induction groups with
  | nil =>
    intro _ d k ic f
    exact ⟨ic, by simp⟩
  | cons g gs ih =>
    intro hgs d k ic f
    have hg := hgs g (List.mem_cons_self _ _)
    have hrest : ∀ x ∈ gs, bracketFree x := fun x hx => hgs x (List.mem_cons_of_mem _ hx)
    rw [List.map_cons, List.flatten_cons, List.foldl_append, getdim_group g hg d k ic f]
    by_cases hall : g.all isDigitChar = true
    · obtain ⟨ic1, h1⟩ := ih hrest (d ++ [decimalValue g]) k false f
      refine ⟨ic1, ?_⟩
      rw [if_pos hall, h1]
      simp [List.filter_cons, hall]
    · obtain ⟨ic1, h1⟩ := ih hrest d (k ++ [g]) true f
      refine ⟨ic1, ?_⟩
      rw [if_neg hall, h1]
      simp [List.filter_cons, hall]

theorem filter_split_length {α : Type} (p : α → Bool) (l : List α) :
    (l.filter p).length + (l.filter (fun x => !p x)).length = l.length := by
  induction l with
  | nil => rfl
  | cons x xs ih =>
    by_cases h : p x = true
    · simp only [List.filter_cons, h, if_true, Bool.not_true, Bool.false_eq_true, if_false,
        List.length_cons]
      omega
    · simp only [Bool.not_eq_true] at h
      simp only [List.filter_cons, h, Bool.false_eq_true, if_false, Bool.not_false, if_true,
        List.length_cons]
      omega

/-- C40: for a leaf title made of a bracket-free name followed by `k` bracket
groups whose texts contain no bracket, `getdim`, started with empty vectors,
leaves in `dims` the decimal values of the groups made only of digits, in order,
and in `counters` the texts of the groups that contain a character other than a
digit, in order; `dims.size() + counters.size() == k`, and no `pop_back()` or
`back()` meets an empty vector. -/
theorem getdim_parses_title (name : List Char) (groups : List (List Char))
    (hname : bracketFree name) (hgroups : ∀ g ∈ groups, bracketFree g) :
    (getdim (leafTitle name groups) [] []).dims =
      (groups.filter (fun g => g.all isDigitChar)).map decimalValue ∧
    (getdim (leafTitle name groups) [] []).counters =
      groups.filter (fun g => !g.all isDigitChar) ∧
    (getdim (leafTitle name groups) [] []).dims.length +
      (getdim (leafTitle name groups) [] []).counters.length = groups.length ∧
    (getdim (leafTitle name groups) [] []).faulted = false := by
  obtain ⟨ic1, h1⟩ := getdim_groups groups hgroups [] [] false false
  have h : getdim (leafTitle name groups) [] [] =
      { dims := (groups.filter (fun g => g.all isDigitChar)).map decimalValue
        counters := groups.filter (fun g => !g.all isDigitChar)
        iscounter := ic1, faulted := false } := by
    unfold getdim leafTitle
    rw [List.foldl_append, getdim_name name hname _ rfl, h1]
    simp
  rw [h]
  refine ⟨rfl, rfl, ?_, rfl⟩
  simp only [List.length_map]
  exact filter_split_length _ groups

/-- Witness for `getdim_parses_title`: the title `evt[3][n][12]` gives the
dimensions 3 and 12 and the counter `n`. -/
theorem getdim_parses_title_witness :
    getdim "evt[3][n][12]".toList [] [] =
      { dims := [3, 12], counters := ["n".toList], iscounter := false, faulted := false } ∧
    leafTitle "evt".toList ["3".toList, "n".toList, "12".toList] = "evt[3][n][12]".toList ∧
    (getdim (leafTitle "evt".toList ["3".toList, "n".toList, "12".toList]) [] []).dims =
      (["3".toList, "n".toList, "12".toList].filter (fun g => g.all isDigitChar)).map
        decimalValue ∧
    (getdim (leafTitle "evt".toList ["3".toList, "n".toList, "12".toList]) [] []).counters =
      ["3".toList, "n".toList, "12".toList].filter (fun g => !g.all isDigitChar) ∧
    (getdim (leafTitle "evt".toList ["3".toList, "n".toList, "12".toList]) [] []).dims.length +
      (getdim (leafTitle "evt".toList ["3".toList, "n".toList, "12".toList]) [] []).counters.length =
        ["3".toList, "n".toList, "12".toList].length ∧
    (getdim (leafTitle "evt".toList ["3".toList, "n".toList, "12".toList]) [] []).faulted =
      false :=
  ⟨by decide, by decide,
    getdim_parses_title "evt".toList ["3".toList, "n".toList, "12".toList]
      (by decide) (by decide)⟩

end PyROOT
